import Mathlib

/-! Reward system: the store and its workflows.

A shallow embedding of `main.c`: the four SQLite tables, the prepared statements
(one Lean function per SQL text), the C readers that copy rows into `int` fields,
and the workflows `create_new_currency`, `add_event`, `mark_task_done`, `buy_item`.

Conventions of the embedding.

* A stored INTEGER is a mathematical integer.  SQLite keeps 64 bits and turns a sum
  that leaves that range into a REAL; such a sum needs more than `2^32` deltas of
  `int` size and is not represented here.
* A C `int` is an `Int` in the range `[-2^31, 2^31)`.  `sqlite3_column_int` and the
  `int` result of `sqlite3_last_insert_rowid` keep the low 32 bits (`to_int`).
* A workflow takes the values that its reads of standard input deliver as parameters.
  For `add_event` the reads are embedded too (`add_event_reads`): standard input is
  the list of the typed lines, `fgets` cuts a line that does not fit its buffer and
  leaves the rest of it to the next read, and a `scanf("%d")` that finds no number
  assigns nothing.
* The result code of a mutating `sqlite3_step` that no table content decides (an I/O
  fault) is a `Bool` parameter: `true` is `SQLITE_DONE`; a failed statement changes
  nothing.  The `SELECT` loops and `malloc` are taken to succeed.
* The negation `-cost` in `buy_item` is the `int` negation of the machine: it keeps
  the low 32 bits, so the negation of `INT_MIN` is `INT_MIN`.  The `++i` after an
  iteration `INT_MAX` in `add_event`, which C leaves undefined, has an outcome of its
  own.
* Text columns are carried as `String`; of the printing only the rows that
  `list_events_and_tasks` lists are modelled.
-/

namespace RewardSystem

/-! ## C integers -/

/-- Smallest value of a C `int`. -/
def INT_MIN : Int := -2147483648

/-- Largest value of a C `int`. -/
def INT_MAX : Int := 2147483647

/-- Range of a C `int`. -/
def is_int (x : Int) : Prop := INT_MIN ≤ x ∧ x ≤ INT_MAX

instance (x : Int) : Decidable (is_int x) :=
  inferInstanceAs (Decidable (INT_MIN ≤ x ∧ x ≤ INT_MAX))

/-- Narrowing of a 64-bit value to `int`: the low 32 bits, read as two's complement. -/
def to_int (x : Int) : Int := (x + 2147483648) % 4294967296 - 2147483648

/-- Column read `sqlite3_column_int`: the stored integer narrowed to `int`. -/
def sqlite3_column_int (v : Int) : Int := to_int v

/-- Column read `sqlite3_column_int64`: the stored integer itself. -/
def sqlite3_column_int64 (v : Int) : Int := v

/-! ## Rows and the database -/

/-- Row of table `currency`; also `struct currency` once its fields are narrowed. -/
structure currency where
  currency_id : Int
  currency_name : String
  symbol : String
  balance : Int
deriving DecidableEq

/-- Row of table `events`: the two timestamps are nullable. -/
structure events_row where
  event_id : Int
  event_name : String
  currency_id : Int
  is_time_limited : Int
  start_time : Option Int
  end_time : Option Int
  is_active : Int
deriving DecidableEq

/-- The C `struct event`: `-1` stands for a NULL timestamp. -/
structure event where
  event_id : Int
  event_name : String
  currency_id : Int
  is_time_limited : Int
  start_time : Int
  end_time : Int
  is_active : Int
deriving DecidableEq

/-- Row of table `tasks`; also `struct task` once its fields are narrowed. -/
structure task where
  event_id : Int
  task_id : Int
  task_description : String
  currency_amount : Int
  is_completed : Int
deriving DecidableEq

/-- Row of table `store`; also `struct store_item` once its fields are narrowed. -/
structure store_item where
  item_id : Int
  item_description : String
  cost : Int
  event_id : Int
  stock : Int
  category : String
deriving DecidableEq

/-- The database behind one connection: the four tables of `create_tables` and the
connection's `PRAGMA foreign_keys` setting. -/
structure Db where
  foreign_keys : Bool
  currency : List currency
  events : List events_row
  tasks : List task
  store : List store_item
deriving DecidableEq

/-- A new database file right after `create_tables`. -/
def Db.created : Db :=
  { foreign_keys := true, currency := [], events := [], tasks := [], store := [] }

/-- Row id that `INTEGER PRIMARY KEY AUTOINCREMENT` gives the next row: one more than
the largest id in the table, `1` for an empty table (no row is ever deleted). -/
def next_rowid (ids : List Int) : Int := ids.foldl max 0 + 1

/-! ## The prepared statements -/

/-- Statement `sql_select_currency`: SELECT * FROM currency. -/
def sql_select_currency (db : Db) : List currency := db.currency

/-- Statement `sql_select_active_events`: SELECT * FROM events WHERE is_active = 1. -/
def sql_select_active_events (db : Db) : List events_row :=
  db.events.filter (fun e => decide (e.is_active = 1))

/-- Statement `sql_select_incomplete_tasks_of_an_event`:
SELECT * FROM tasks WHERE is_completed = 0 AND event_id = ?. -/
def sql_select_incomplete_tasks_of_an_event (db : Db) (event_id : Int) : List task :=
  db.tasks.filter (fun t => decide (t.is_completed = 0) && decide (t.event_id = event_id))

/-- Statement `sql_select_all_tasks_of_an_event`: SELECT * FROM tasks WHERE event_id = ?. -/
def sql_select_all_tasks_of_an_event (db : Db) (event_id : Int) : List task :=
  db.tasks.filter (fun t => decide (t.event_id = event_id))

/-- Statement `sql_select_store_items_of_an_event`: SELECT * FROM store WHERE event_id = ?. -/
def sql_select_store_items_of_an_event (db : Db) (event_id : Int) : List store_item :=
  db.store.filter (fun s => decide (s.event_id = event_id))

/-- Statement `sql_update_task_completion`:
UPDATE tasks SET is_completed = 1 WHERE task_id = ? AND event_id = ?. -/
def sql_update_task_completion (db : Db) (task_id event_id : Int) : Db :=
  { db with tasks := db.tasks.map (fun t =>
      if t.task_id = task_id ∧ t.event_id = event_id then { t with is_completed := 1 } else t) }

/-- Row count of `sql_update_task_completion` (what `sqlite3_changes` would report):
SQLite counts every row the WHERE clause selects, whether or not the value written
differs from the one stored. -/
def sql_update_task_completion_changes (db : Db) (task_id event_id : Int) : Nat :=
  (db.tasks.filter (fun t => decide (t.task_id = task_id ∧ t.event_id = event_id))).length

/-- Statement `sql_update_balance`:
UPDATE currency SET balance = balance + ? WHERE currency_id = ?. -/
def sql_update_balance (db : Db) (amount currency_id : Int) : Db :=
  { db with currency := db.currency.map (fun c =>
      if c.currency_id = currency_id then { c with balance := c.balance + amount } else c) }

/-- Statement `sql_update_store_stock`:
UPDATE store SET stock = stock - 1 WHERE item_id = ? AND event_id = ? AND stock != -1. -/
def sql_update_store_stock (db : Db) (item_id event_id : Int) : Db :=
  { db with store := db.store.map (fun s =>
      if s.item_id = item_id ∧ s.event_id = event_id ∧ s.stock ≠ -1
      then { s with stock := s.stock - 1 } else s) }

/-- Statement `sql_insert_currency`: the row gets the next generated id. -/
def sql_insert_currency (db : Db) (currency_name symbol : String) (balance : Int) : Db :=
  { db with currency := db.currency ++
      [{ currency_id := next_rowid (db.currency.map (fun c => c.currency_id)),
         currency_name := currency_name, symbol := symbol, balance := balance }] }

/-- Statement `sql_insert_events`: the row gets the next generated id; with foreign keys
enforced the insert is refused (`none`) when `currency_id` names no currency row. -/
def sql_insert_events (db : Db) (event_name : String) (currency_id is_time_limited : Int)
    (start_time end_time : Option Int) (is_active : Int) : Option Db :=
  if db.foreign_keys = true ∧ ¬ (∃ c ∈ db.currency, c.currency_id = currency_id) then none
  else some { db with events := db.events ++
      [{ event_id := next_rowid (db.events.map (fun e => e.event_id)),
         event_name := event_name, currency_id := currency_id,
         is_time_limited := is_time_limited, start_time := start_time,
         end_time := end_time, is_active := is_active }] }

/-- Statement `sql_insert_tasks`: refused (`none`) on a duplicate `(event_id, task_id)`,
and, with foreign keys enforced, when `event_id` names no event row. -/
def sql_insert_tasks (db : Db) (t : task) : Option Db :=
  if (∃ r ∈ db.tasks, r.event_id = t.event_id ∧ r.task_id = t.task_id) then none
  else if db.foreign_keys = true ∧ ¬ (∃ e ∈ db.events, e.event_id = t.event_id) then none
  else some { db with tasks := db.tasks ++ [t] }

/-- Statement `sql_insert_store`: refused (`none`) on a duplicate `(event_id, item_id)`,
and, with foreign keys enforced, when `event_id` names no event row. -/
def sql_insert_store (db : Db) (s : store_item) : Option Db :=
  if (∃ r ∈ db.store, r.event_id = s.event_id ∧ r.item_id = s.item_id) then none
  else if db.foreign_keys = true ∧ ¬ (∃ e ∈ db.events, e.event_id = s.event_id) then none
  else some { db with store := db.store ++ [s] }

/-! ## The C readers -/

/-- Narrowed copy of a currency row, as `get_currencies` builds it. -/
def read_currency (c : currency) : currency :=
  { currency_id := sqlite3_column_int c.currency_id,
    currency_name := c.currency_name,
    symbol := c.symbol,
    balance := sqlite3_column_int c.balance }

/-- Function `get_currencies`: every currency row, its integers read with
`sqlite3_column_int`. -/
def get_currencies (db : Db) : List currency :=
  (sql_select_currency db).map read_currency

/-- The `struct event` that `get_active_events` builds from an event row. -/
def read_event (r : events_row) : event :=
  { event_id := sqlite3_column_int r.event_id,
    event_name := r.event_name,
    currency_id := sqlite3_column_int r.currency_id,
    is_time_limited := sqlite3_column_int r.is_time_limited,
    start_time := match r.start_time with
      | none => -1
      | some v => sqlite3_column_int64 v,
    end_time := match r.end_time with
      | none => -1
      | some v => sqlite3_column_int64 v,
    is_active := sqlite3_column_int r.is_active }

/-- Function `get_active_events`: the active event rows as `struct event`. -/
def get_active_events (db : Db) : List event :=
  (sql_select_active_events db).map read_event

/-- Narrowed copy of a task row, as both task readers build it. -/
def read_task (t : task) : task :=
  { event_id := sqlite3_column_int t.event_id,
    task_id := sqlite3_column_int t.task_id,
    task_description := t.task_description,
    currency_amount := sqlite3_column_int t.currency_amount,
    is_completed := sqlite3_column_int t.is_completed }

/-- Function `get_incomplete_tasks_of_an_event`. -/
def get_incomplete_tasks_of_an_event (db : Db) (event_id : Int) : List task :=
  (sql_select_incomplete_tasks_of_an_event db event_id).map read_task

/-- Function `get_all_tasks_of_an_event`. -/
def get_all_tasks_of_an_event (db : Db) (event_id : Int) : List task :=
  (sql_select_all_tasks_of_an_event db event_id).map read_task

/-- Narrowed copy of a store row, as `get_store_items_by_event` builds it. -/
def read_store_item (s : store_item) : store_item :=
  { item_id := sqlite3_column_int s.item_id,
    item_description := s.item_description,
    cost := sqlite3_column_int s.cost,
    event_id := sqlite3_column_int s.event_id,
    stock := sqlite3_column_int s.stock,
    category := s.category }

/-- Function `get_store_items_by_event`. -/
def get_store_items_by_event (db : Db) (chosen_event_id : Int) : List store_item :=
  (sql_select_store_items_of_an_event db chosen_event_id).map read_store_item

/-! ## Workflows -/

/-- Function `create_new_currency` with the two lines typed by the user and the result
code of the insert: the new row has balance `0`; the result is the generated id as an
`int`, or `-1` when the insert failed. -/
def create_new_currency (db : Db) (currency_name symbol : String) (rc_done : Bool) :
    Db × Int :=
  if rc_done = true then
    (sql_insert_currency db currency_name symbol 0,
     to_int (next_rowid (db.currency.map (fun c => c.currency_id))))
  else (db, -1)

/-- Answers typed in one iteration of the task loop of `add_event`. -/
structure task_input where
  task_description : String
  currency_amount : Int

/-- Answers typed in one iteration of the store loop of `add_event`. -/
structure item_input where
  item_description : String
  cost : Int
  stock : Int
  category : String

/-- The values that the reads of one `add_event` deliver (`add_event_reads` computes
them from standard input).  `currency_choice` is read only when a currency exists;
`currency_name` and `symbol` only when a currency is created; `start_time` and
`end_time` are the `mktime` values of the two lines read for a time-limited event;
`tasks i` and `items i` are what iteration `i` reads.  A text field is what `fgets`
leaves in its buffer, without the newline; a number is the value the `int` holds after
its `scanf("%d")`. -/
structure add_event_input where
  event_name : String
  currency_choice : Int
  currency_name : String
  symbol : String
  is_time_limited : Int
  start_time : Int
  end_time : Int
  num_tasks : Int
  tasks : Nat → task_input
  num_items : Int
  items : Nat → item_input

/-- Where `add_event` returns. -/
inductive add_event_result where
  | failed_to_create_new_currency
  | error_adding_event
  | error_adding_task (i : Nat)
  | error_adding_item (i : Nat)
  | undefined_increment
  | added
deriving DecidableEq

/-- The `struct task` filled in iteration `i` of the task loop of `add_event`. -/
def new_task (event_id : Int) (tasks : Nat → task_input) (i : Nat) : task :=
  { event_id := event_id, task_id := (i : Int),
    task_description := (tasks i).task_description,
    currency_amount := (tasks i).currency_amount, is_completed := 0 }

/-- The `struct store_item` filled in iteration `i` of the store loop of `add_event`. -/
def new_store_item (event_id : Int) (items : Nat → item_input) (i : Nat) : store_item :=
  { item_id := (i : Int), item_description := (items i).item_description,
    cost := (items i).cost, event_id := event_id, stock := (items i).stock,
    category := (items i).category }

/-- Task loop of `add_event`: iterations `i, i+1, ...`, of which `n` remain.  The result
is the database and `none`, or the iteration whose insert failed. -/
def add_event_tasks (event_id : Int) (tasks : Nat → task_input) :
    Nat → Nat → Db → Db × Option Nat
  | _, 0, db => (db, none)
  | i, n + 1, db =>
    match sql_insert_tasks db (new_task event_id tasks i) with
    | none => (db, some i)
    | some db1 => add_event_tasks event_id tasks (i + 1) n db1

/-- Store loop of `add_event`: iterations `i, i+1, ...`, of which `n` remain. -/
def add_event_items (event_id : Int) (items : Nat → item_input) :
    Nat → Nat → Db → Db × Option Nat
  | _, 0, db => (db, none)
  | i, n + 1, db =>
    match sql_insert_store db (new_store_item event_id items i) with
    | none => (db, some i)
    | some db1 => add_event_items event_id items (i + 1) n db1

/-- First step of `add_event`: the currency of the new event.  Without any currency
row one is created; otherwise the user chooses an id, `0` standing for a new currency.
The result is the database and the value of `new_event.currency_id`. -/
def add_event_currency (db : Db) (inp : add_event_input) (rc_currency : Bool) : Db × Int :=
  if (sql_select_currency db).length = 0 then
    create_new_currency db inp.currency_name inp.symbol rc_currency
  else if inp.currency_choice = 0 then
    create_new_currency db inp.currency_name inp.symbol rc_currency
  else (db, inp.currency_choice)

/-- Function `add_event`.  `rc_currency` is the result code of the currency insert,
should one run; the other inserts fail exactly when a constraint refuses them.  Both
loops run `i = 1 .. n` (no iteration for `n ≤ 0`); for `n = INT_MAX` the `++i` that
follows the last iteration overflows, which C leaves undefined and which has an outcome
of its own. -/
def add_event (db : Db) (inp : add_event_input) (rc_currency : Bool) :
    Db × add_event_result :=
  let chosen := add_event_currency db inp rc_currency
  if chosen.2 = -1 ∧ ((sql_select_currency db).length = 0 ∨ inp.currency_choice = 0) then
    (chosen.1, .failed_to_create_new_currency)
  else
    let start_time : Option Int :=
      if inp.is_time_limited ≠ 0 then some inp.start_time else none
    let end_time : Option Int :=
      if inp.is_time_limited ≠ 0 then some inp.end_time else none
    match sql_insert_events chosen.1 inp.event_name chosen.2 inp.is_time_limited
        start_time end_time 1 with
    | none => (chosen.1, .error_adding_event)
    | some db1 =>
      let event_id := to_int (next_rowid (chosen.1.events.map (fun e => e.event_id)))
      match add_event_tasks event_id inp.tasks 1 inp.num_tasks.toNat db1 with
      | (db2, some i) => (db2, .error_adding_task i)
      | (db2, none) =>
        if inp.num_tasks = INT_MAX then (db2, .undefined_increment)
        else
          match add_event_items event_id inp.items 1 inp.num_items.toNat db2 with
          | (db3, some i) => (db3, .error_adding_item i)
          | (db3, none) =>
            if inp.num_items = INT_MAX then (db3, .undefined_increment)
            else (db3, .added)

/-! ## Standard input -/

/-- Standard input between two reads of `add_event`: the lines not yet read, each
without the newline that ends it, the first of them possibly the rest of a line that an
`fgets` has cut.  A `Char` stands for one `char`.  Past the last line nothing is read:
an `fgets` leaves an empty text and a `scanf` assigns nothing. -/
abbrev stdin : Type := List (List Char)

/-- The C `isspace`: the space and the characters `\t`, `\n`, `\v`, `\f`, `\r`. -/
def isspace (c : Char) : Bool := decide (c.toNat = 32 ∨ (9 ≤ c.toNat ∧ c.toNat ≤ 13))

/-- The C `isdigit`. -/
def isdigit (c : Char) : Bool := decide (48 ≤ c.toNat ∧ c.toNat ≤ 57)

/-- The call `fgets(buf, size, stdin)` with the assignment `buf[strcspn(buf, "\n")] = 0`
that follows each of them: the text left in the buffer and the input left to read.
`fgets` stores at most `size - 1` characters.  A line that fits with its newline is
taken whole; of a longer line the first `size - 1` characters are taken and the rest,
with its newline, stays in the input. -/
def fgets (size : Nat) : stdin → List Char × stdin
  | [] => ([], [])
  | l :: rest =>
    if l.length + 2 ≤ size then (l, rest)
    else (l.take (size - 1), l.drop (size - 1) :: rest)

/-- Value of the decimal digits a text starts with, after the digits worth `acc`. -/
def digits (acc : Nat) : List Char → Nat
  | [] => acc
  | c :: cs => if isdigit c then digits (acc * 10 + (c.toNat - 48)) cs else acc

/-- The number that the conversion `%d` matches in a line: white space, then an optional
sign (`-` is character 45, `+` is 43), then at least one digit.  There is none when
something else comes first. -/
def typed_number (l : List Char) : Option Int :=
  match l.dropWhile isspace with
  | [] => none
  | c :: cs =>
    if c.toNat = 45 then
      match cs with
      | [] => none
      | d :: _ => if isdigit d then some (-(digits 0 cs : Int)) else none
    else if c.toNat = 43 then
      match cs with
      | [] => none
      | d :: _ => if isdigit d then some (digits 0 cs : Int) else none
    else if isdigit c then some (digits 0 (c :: cs) : Int)
    else none

/-- Smallest value of a C `long`. -/
def LONG_MIN : Int := -9223372036854775808

/-- Largest value of a C `long`. -/
def LONG_MAX : Int := 9223372036854775807

/-- The `int` that `scanf("%d", &x)` stores for a line: the typed number, converted as
the C library does, to a `long` (out of range: the nearest `long`) of which the `int`
keeps the low 32 bits.  A number in `int` range is stored as typed. -/
def scanf_d (l : List Char) : Option Int :=
  (typed_number l).map (fun v => to_int (max LONG_MIN (min LONG_MAX v)))

/-- The pair `scanf("%d", &x); flush_input_buffer();`: `scanf` skips white space, and
with it every line of white space only; at the first other line it stores the number
the line starts with, or stores nothing, and `flush_input_buffer` drops what is left of
that line.  The result is the value stored, if any, and the input left to read. -/
def scanf_d_flush_input_buffer : stdin → Option Int × stdin
  | [] => (none, [])
  | l :: rest =>
    if l.all isspace then scanf_d_flush_input_buffer rest else (scanf_d l, rest)

/-- The `int` variables of `add_event` that a `scanf("%d")` is to assign; no other
statement assigns them. -/
inductive add_event_variable where
  | currency_id
  | is_time_limited
  | num_tasks
  | currency_amount (i : Nat)
  | num_items
  | cost (i : Nat)
  | stock (i : Nat)

/-- The reads of the task loop of `add_event`: iterations `i, i+1, ...`, of which `n`
remain.  `unassigned v` is the value that the variable `v` holds when its `scanf` has
stored nothing. -/
def add_event_read_tasks (unassigned : add_event_variable → Int) :
    Nat → Nat → stdin → List task_input × stdin
  | _, 0, s => ([], s)
  | i, n + 1, s =>
    let task_description := fgets 256 s
    let currency_amount := scanf_d_flush_input_buffer task_description.2
    let later := add_event_read_tasks unassigned (i + 1) n currency_amount.2
    ({ task_description := String.mk task_description.1,
       currency_amount := currency_amount.1.getD (unassigned (.currency_amount i)) }
      :: later.1, later.2)

/-- The reads of the store loop of `add_event`: iterations `i, i+1, ...`, of which `n`
remain. -/
def add_event_read_items (unassigned : add_event_variable → Int) :
    Nat → Nat → stdin → List item_input × stdin
  | _, 0, s => ([], s)
  | i, n + 1, s =>
    let item_description := fgets 256 s
    let cost := scanf_d_flush_input_buffer item_description.2
    let stock := scanf_d_flush_input_buffer cost.2
    let category := fgets 50 stock.2
    let later := add_event_read_items unassigned (i + 1) n category.2
    ({ item_description := String.mk item_description.1,
       cost := cost.1.getD (unassigned (.cost i)),
       stock := stock.1.getD (unassigned (.stock i)),
       category := String.mk category.1 } :: later.1, later.2)

/-- The reads of `add_event` before the prompt for the number of tasks: the event name,
the currency choice when a currency exists, the name and symbol of a new currency, the
time-limited flag and, for a flag other than `0`, the two lines that
`strptime_mktime` turns into the two `mktime` values.  The result holds these values
(no task and no item yet) and the input left to read. -/
def add_event_read_event (db : Db) (strptime_mktime : List Char → List Char → Int × Int)
    (unassigned : add_event_variable → Int) (s : stdin) : add_event_input × stdin :=
  let event_name := fgets 100 s
  let choice : Option Int × stdin :=
    if (sql_select_currency db).length = 0 then (none, event_name.2)
    else scanf_d_flush_input_buffer event_name.2
  let currency_choice := choice.1.getD (unassigned .currency_id)
  let creates : Bool := decide ((sql_select_currency db).length = 0 ∨ currency_choice = 0)
  let currency_name := if creates then fgets 50 choice.2 else ([], choice.2)
  let symbol := if creates then fgets 10 currency_name.2 else ([], currency_name.2)
  let limited := scanf_d_flush_input_buffer symbol.2
  let is_time_limited := limited.1.getD (unassigned .is_time_limited)
  let start_time_str := if is_time_limited ≠ 0 then fgets 21 limited.2 else ([], limited.2)
  let end_time_str :=
    if is_time_limited ≠ 0 then fgets 21 start_time_str.2 else ([], start_time_str.2)
  let times := strptime_mktime start_time_str.1 end_time_str.1
  ({ event_name := String.mk event_name.1, currency_choice := currency_choice,
     currency_name := String.mk currency_name.1, symbol := String.mk symbol.1,
     is_time_limited := is_time_limited, start_time := times.1, end_time := times.2,
     num_tasks := 0, tasks := fun _ => { task_description := "", currency_amount := 0 },
     num_items := 0,
     items := fun _ => { item_description := "", cost := 0, stock := 0, category := "" } },
   end_time_str.2)

/-- All reads of one `add_event`, in the order of the source: those of
`add_event_read_event`, the number of tasks, the task loop, the number of items, the
store loop.  Iteration `i` of a loop uses entry `i - 1` of what its loop reads. -/
def add_event_reads (db : Db) (strptime_mktime : List Char → List Char → Int × Int)
    (unassigned : add_event_variable → Int) (s : stdin) : add_event_input :=
  let new_event := add_event_read_event db strptime_mktime unassigned s
  let num_tasks := scanf_d_flush_input_buffer new_event.2
  let n := num_tasks.1.getD (unassigned .num_tasks)
  let tasks := add_event_read_tasks unassigned 1 n.toNat num_tasks.2
  let num_items := scanf_d_flush_input_buffer tasks.2
  let m := num_items.1.getD (unassigned .num_items)
  let items := add_event_read_items unassigned 1 m.toNat num_items.2
  { new_event.1 with
    num_tasks := n,
    tasks := fun i => tasks.1.getD (i - 1) { task_description := "", currency_amount := 0 },
    num_items := m,
    items := fun i =>
      items.1.getD (i - 1) { item_description := "", cost := 0, stock := 0, category := "" } }

/-- Function `add_event` on standard input: the workflow `add_event` on the values that
its reads deliver.  A return before the end leaves the later reads undone; they have no
part in its result. -/
def add_event_from_stdin (db : Db) (strptime_mktime : List Char → List Char → Int × Int)
    (unassigned : add_event_variable → Int) (s : stdin) (rc_currency : Bool) :
    Db × add_event_result :=
  add_event db (add_event_reads db strptime_mktime unassigned s) rc_currency

/-- What is typed for one task: the line for its description and the line for its
amount. -/
structure typed_task where
  task_description : List Char
  currency_amount : List Char

/-- What is typed for one store item: a line for each of its four prompts. -/
structure typed_item where
  item_description : List Char
  cost : List Char
  stock : List Char
  category : List Char

/-- The lines typed for a list of tasks, in the order of the prompts. -/
def typed_task_lines : List typed_task → stdin
  | [] => []
  | t :: ts => t.task_description :: t.currency_amount :: typed_task_lines ts

/-- The lines typed for a list of store items, in the order of the prompts. -/
def typed_item_lines : List typed_item → stdin
  | [] => []
  | t :: ts => t.item_description :: t.cost :: t.stock :: t.category :: typed_item_lines ts

/-- A line that answers a number prompt with an `int`: it starts, after white space,
with a number in `int` range. -/
def is_number (l : List Char) : Bool :=
  match typed_number l with
  | some v => decide (is_int v)
  | none => false

/-- The number entered by a line. -/
def number_of (l : List Char) : Int := (typed_number l).getD 0

/-- A line that `fgets` takes whole, newline included, into a buffer of `size`
characters: it has at most `size - 2` characters. -/
def fits (size : Nat) (l : List Char) : Bool := decide (l.length + 2 ≤ size)

/-- The task row that carries what was typed for a task, under the ids given. -/
def typed_task.row (event_id : Int) (task_id : Nat) (t : typed_task) : task :=
  { event_id := event_id, task_id := (task_id : Int),
    task_description := String.mk t.task_description,
    currency_amount := number_of t.currency_amount, is_completed := 0 }

/-- The store row that carries what was typed for an item, under the ids given. -/
def typed_item.row (event_id : Int) (item_id : Nat) (t : typed_item) : store_item :=
  { item_id := (item_id : Int), item_description := String.mk t.item_description,
    cost := number_of t.cost, event_id := event_id, stock := number_of t.stock,
    category := String.mk t.category }

/-- The search loop shared by `mark_task_done` and `buy_item`: `chosen_currency_id`
starts at `-1` and takes the `currency_id` of the first event whose id was typed. -/
def find_currency_id (events : List event) (chosen_event_id : Int) : Int :=
  match events.find? (fun e => decide (e.event_id = chosen_event_id)) with
  | some e => e.currency_id
  | none => -1

/-- The search loop of `mark_task_done`: `currency_amount` starts at `-1` and takes the
amount of the first listed task whose id was typed. -/
def find_currency_amount (tasks : List task) (chosen_task_id : Int) : Int :=
  match tasks.find? (fun t => decide (t.task_id = chosen_task_id)) with
  | some t => t.currency_amount
  | none => -1

/-- Where `mark_task_done` returns: the five messages on an early return, the missing
currency row after both updates, or the balance table at the end. -/
inductive mark_task_done_result where
  | could_not_find_currency_id
  | no_tasks_left
  | could_not_find_currency_amount
  | failure_in_updating_completion
  | error_updating_balance
  | could_not_find_currency_index
  | happy_spending
deriving DecidableEq

/-- Function `mark_task_done` with the two numbers typed by the user and the result
codes of the two UPDATE steps. -/
def mark_task_done (db : Db) (chosen_event_id chosen_task_id : Int)
    (rc_completion rc_balance : Bool) : Db × mark_task_done_result :=
  let events := get_active_events db
  let chosen_currency_id := find_currency_id events chosen_event_id
  if chosen_currency_id = -1 then (db, .could_not_find_currency_id)
  else
    let tasks := get_incomplete_tasks_of_an_event db chosen_event_id
    if tasks.length = 0 then (db, .no_tasks_left)
    else
      let currency_amount := find_currency_amount tasks chosen_task_id
      if currency_amount = -1 then (db, .could_not_find_currency_amount)
      else if rc_completion = false then (db, .failure_in_updating_completion)
      else
        let db1 := sql_update_task_completion db chosen_task_id chosen_event_id
        if rc_balance = false then (db1, .error_updating_balance)
        else
          let db2 := sql_update_balance db1 currency_amount chosen_currency_id
          match (get_currencies db2).find?
              (fun c => decide (chosen_currency_id = c.currency_id)) with
          | none => (db2, .could_not_find_currency_index)
          | some _ => (db2, .happy_spending)

/-- Where `buy_item` returns: the messages on an early return, or the balance table at
the end. -/
inductive buy_item_result where
  | could_not_find_currency_id
  | could_not_find_currency_index
  | could_not_find_item_index
  | item_out_of_stock
  | insufficient_balance
  | error_in_updating_stock
  | error_in_updating_balance
  | bought
deriving DecidableEq

/-- Function `buy_item` with the two numbers typed by the user and the result codes of
the two UPDATE steps.  The amount bound to the balance update is the `int` value of
`-store_items[item_idx].cost`: the negated cost, and `INT_MIN` for a cost of
`INT_MIN`. -/
def buy_item (db : Db) (chosen_event_id chosen_item_id : Int)
    (rc_stock rc_balance : Bool) : Db × buy_item_result :=
  let currencies := get_currencies db
  let events := get_active_events db
  let chosen_currency_id := find_currency_id events chosen_event_id
  if chosen_currency_id = -1 then (db, .could_not_find_currency_id)
  else
    match currencies.find? (fun c => decide (c.currency_id = chosen_currency_id)) with
    | none => (db, .could_not_find_currency_index)
    | some cur =>
      let store_items := get_store_items_by_event db chosen_event_id
      match store_items.find? (fun s => decide (chosen_item_id = s.item_id)) with
      | none => (db, .could_not_find_item_index)
      | some item =>
        if item.stock = 0 then (db, .item_out_of_stock)
        else if cur.balance < item.cost then (db, .insufficient_balance)
        else if rc_stock = false then (db, .error_in_updating_stock)
        else
          let db1 := sql_update_store_stock db chosen_item_id chosen_event_id
          if rc_balance = false then (db1, .error_in_updating_balance)
          else (sql_update_balance db1 (to_int (-item.cost)) chosen_currency_id, .bought)

/-- One event row of the listing and the task rows printed under it. -/
structure listed_event where
  event : event
  tasks : List task
deriving DecidableEq

/-- The `for` loop of `list_events_and_tasks` over the events still to print:
`first_event_id` is `events[0].event_id`, the argument the loop body gives to
`get_all_tasks_of_an_event`.  An event whose currency is not found ends the function. -/
def list_events_and_tasks_loop (db : Db) (currencies : List currency)
    (first_event_id : Int) : List event → List listed_event
  | [] => []
  | ev :: rest =>
    match currencies.find? (fun c => decide (c.currency_id = ev.currency_id)) with
    | none => []
    | some _ =>
      { event := ev, tasks := get_all_tasks_of_an_event db first_event_id } ::
        list_events_and_tasks_loop db currencies first_event_id rest

/-- Function `list_events_and_tasks`: what is printed, event by event. -/
def list_events_and_tasks (db : Db) : List listed_event :=
  match get_active_events db with
  | [] => []
  | first :: rest =>
    list_events_and_tasks_loop db (get_currencies db) first.event_id (first :: rest)

/-- Function `main` up to the menu loop, on the content of `reward_system.db` if the
file exists: a missing file is created and `create_tables` switches foreign keys on for
the connection; an existing file is only opened, and the new connection has them off,
as SQLite connections do until the PRAGMA is run. -/
def main_open (file : Option Db) : Db :=
  match file with
  | none => Db.created
  | some stored => { stored with foreign_keys := false }

/-- A line typed at the menu, as `scanf("%d")` sees it: it starts with a number, or it
does not. -/
inductive menu_line where
  | number (n : Int)
  | not_a_number
deriving DecidableEq

/-- What one iteration of the menu loop does. -/
inductive menu_action where
  | add_event
  | mark_task_done
  | buy_item
  | list_events_and_tasks
  | list_stats
  | exiting
  | invalid_choice
  | indeterminate_choice
deriving DecidableEq

/-- The call `scanf("%d", &choice)` on the typed line: a number is stored; otherwise
nothing is stored and `choice` keeps what it held (`none`: never assigned). -/
def scanf_choice (choice : Option Int) : menu_line → Option Int
  | .number n => some n
  | .not_a_number => choice

/-- The `switch (choice)` of `main`. -/
def menu_switch (choice : Int) : menu_action :=
  if choice = 1 then .add_event
  else if choice = 2 then .mark_task_done
  else if choice = 3 then .buy_item
  else if choice = 4 then .list_events_and_tasks
  else if choice = 5 then .list_stats
  else if choice = 6 then .exiting
  else .invalid_choice

/-- One iteration of the `do ... while (choice != 6)` loop of `main`: the value of
`choice` before it and the typed line give the value after it, what the iteration does,
and whether the loop goes on. -/
def menu_iteration (choice : Option Int) (line : menu_line) :
    Option Int × menu_action × Bool :=
  match scanf_choice choice line with
  | none => (none, .indeterminate_choice, true)
  | some c => (some c, menu_switch c, decide (c ≠ 6))

/-- Function `list_stats`: the currency rows that are printed. -/
def list_stats (db : Db) : List currency := get_currencies db

/-- One thing that happens to the database file: a menu entry run to its end with what
the user types and the result codes of its statements, or the program being left and
started again on the file it wrote. -/
inductive step where
  | add_event (inp : add_event_input) (rc_currency : Bool)
  | mark_task_done (chosen_event_id chosen_task_id : Int) (rc_completion rc_balance : Bool)
  | buy_item (chosen_event_id chosen_item_id : Int) (rc_stock rc_balance : Bool)
  | list_events_and_tasks
  | list_stats
  | restart

/-- The database after one step.  The two listings only read. -/
def run_step (db : Db) : step → Db
  | .add_event inp rc_currency => (add_event db inp rc_currency).1
  | .mark_task_done chosen_event_id chosen_task_id rc_completion rc_balance =>
    (mark_task_done db chosen_event_id chosen_task_id rc_completion rc_balance).1
  | .buy_item chosen_event_id chosen_item_id rc_stock rc_balance =>
    (buy_item db chosen_event_id chosen_item_id rc_stock rc_balance).1
  | .list_events_and_tasks => db
  | .list_stats => db
  | .restart => main_open (some db)

/-- Whether a step is the program being started again. -/
def step.is_restart : step → Bool
  | .restart => true
  | _ => false

/-- The database after a sequence of steps. -/
def run_steps (db : Db) (steps : List step) : Db := steps.foldl run_step db

/-! ## Observations and the schema -/

/-- The event row that `add_event` binds and inserts, for the currency id it settled
on: `is_active` is bound to `1`, and the two timestamps are bound to the `mktime`
values when the event is time-limited and to NULL when it is not. -/
def new_event_row (db : Db) (inp : add_event_input) (currency_id : Int) : events_row :=
  { event_id := next_rowid (db.events.map (fun e => e.event_id)),
    event_name := inp.event_name, currency_id := currency_id,
    is_time_limited := inp.is_time_limited,
    start_time := if inp.is_time_limited ≠ 0 then some inp.start_time else none,
    end_time := if inp.is_time_limited ≠ 0 then some inp.end_time else none,
    is_active := 1 }

/-- The value of `new_event.event_id` in `add_event`: the generated id as an `int`. -/
def new_event_id (db : Db) : Int :=
  to_int (next_rowid (db.events.map (fun e => e.event_id)))

/-- Stored balance of the currency row with the given id. -/
def balance_of (db : Db) (currency_id : Int) : Option Int :=
  (db.currency.find? (fun c => decide (c.currency_id = currency_id))).map (fun c => c.balance)

/-- Stored stock of the store row with the given key. -/
def stock_of (db : Db) (event_id item_id : Int) : Option Int :=
  (db.store.find? (fun s => decide (s.event_id = event_id ∧ s.item_id = item_id))).map
    (fun s => s.stock)

/-- What the schema and the `int` binds guarantee of every database the program writes:
the four primary keys are unique, and every column the program only ever writes with
`sqlite3_bind_int` or from a generated id read as `int` is in `int` range.  The two
columns changed by SQL arithmetic, `balance` and `stock`, are left free. -/
def schema_ok (db : Db) : Prop :=
  (db.currency.map (fun c => c.currency_id)).Nodup ∧
  (db.events.map (fun e => e.event_id)).Nodup ∧
  (db.tasks.map (fun t => (t.event_id, t.task_id))).Nodup ∧
  (db.store.map (fun s => (s.event_id, s.item_id))).Nodup ∧
  (∀ c ∈ db.currency, is_int c.currency_id) ∧
  (∀ e ∈ db.events, is_int e.event_id ∧ is_int e.currency_id) ∧
  (∀ t ∈ db.tasks, is_int t.event_id ∧ is_int t.task_id ∧ is_int t.currency_amount) ∧
  (∀ s ∈ db.store, is_int s.event_id ∧ is_int s.item_id ∧ is_int s.cost)

instance (db : Db) : Decidable (schema_ok db) := by
  unfold schema_ok; infer_instance

/-- Every task row and every store row carries the id of an event row. -/
def children_reference_events (db : Db) : Prop :=
  (∀ t ∈ db.tasks, ∃ e ∈ db.events, e.event_id = t.event_id) ∧
  (∀ s ∈ db.store, ∃ e ∈ db.events, e.event_id = s.event_id)

/-- No two task rows share `(event_id, task_id)` and no two store rows share
`(event_id, item_id)`. -/
def composite_keys_unique (db : Db) : Prop :=
  (db.tasks.map (fun t => (t.event_id, t.task_id))).Nodup ∧
  (db.store.map (fun s => (s.event_id, s.item_id))).Nodup

/-- One attempt at `buy_item`: what the user types and the two result codes. -/
structure buy_attempt where
  chosen_event_id : Int
  chosen_item_id : Int
  rc_stock : Bool
  rc_balance : Bool

/-- Any number of `buy_item` attempts, one after the other. -/
def buy_items (db : Db) (attempts : List buy_attempt) : Db :=
  attempts.foldl (fun d a =>
    (buy_item d a.chosen_event_id a.chosen_item_id a.rc_stock a.rc_balance).1) db

/-- Any number of `sql_update_balance` steps: each pair is `(amount, currency_id)`. -/
def sql_update_balances (db : Db) (updates : List (Int × Int)) : Db :=
  updates.foldl (fun d u => sql_update_balance d u.1 u.2) db

/-! ## Example databases -/

/-- One task worth `10` and one item costing `5` with two in stock, on a new currency. -/
def sprint_input : add_event_input :=
  { event_name := "Sprint", currency_choice := 0, currency_name := "Gems", symbol := "G",
    is_time_limited := 0, start_time := 0, end_time := 0,
    num_tasks := 1, tasks := fun _ => { task_description := "Run", currency_amount := 10 },
    num_items := 1,
    items := fun _ => { item_description := "Potion", cost := 5, stock := 2,
                        category := "Boost" } }

/-- The new database after `add_event` with `sprint_input`. -/
def sprint_db : Db := (add_event Db.created sprint_input true).1

/-- One task whose reward is `-1`, on a new currency, and no store item. -/
def penalty_input : add_event_input :=
  { event_name := "Chores", currency_choice := 0, currency_name := "Points", symbol := "P",
    is_time_limited := 0, start_time := 0, end_time := 0,
    num_tasks := 1, tasks := fun _ => { task_description := "Late", currency_amount := -1 },
    num_items := 0,
    items := fun _ => { item_description := "", cost := 0, stock := 0, category := "" } }

/-- The new database after `add_event` with `penalty_input`. -/
def penalty_db : Db := (add_event Db.created penalty_input true).1

/-- The Sprint database after its task was completed: the balance is `10`. -/
def sprint_done_db : Db := (mark_task_done sprint_db 1 1 true true).1

/-- Two tasks with negative rewards `-2147483648` and `-2147483548`, and one item
costing `50` with one in stock, on a new currency. -/
def debt_input : add_event_input :=
  { event_name := "Fines", currency_choice := 0, currency_name := "Marks", symbol := "M",
    is_time_limited := 0, start_time := 0, end_time := 0,
    num_tasks := 2,
    tasks := fun i =>
      if i = 1 then { task_description := "First", currency_amount := -2147483648 }
      else { task_description := "Second", currency_amount := -2147483548 },
    num_items := 1,
    items := fun _ => { item_description := "Badge", cost := 50, stock := 1,
                        category := "Shop" } }

/-- The new database after `add_event` with `debt_input` and the completion of both
tasks: the stored balance is `-4294967196`, which an `int` reads as `100`. -/
def debt_db : Db :=
  (mark_task_done (mark_task_done (add_event Db.created debt_input true).1
    1 1 true true).1 1 2 true true).1

/-- One free item entered with stock `-2`, on a new currency, and no task. -/
def oversold_input : add_event_input :=
  { event_name := "Fair", currency_choice := 0, currency_name := "Coins", symbol := "C",
    is_time_limited := 0, start_time := 0, end_time := 0,
    num_tasks := 0, tasks := fun _ => { task_description := "", currency_amount := 0 },
    num_items := 1,
    items := fun _ => { item_description := "Flyer", cost := 0, stock := -2,
                        category := "Free" } }

/-- The new database after `add_event` with `oversold_input`. -/
def oversold_db : Db := (add_event Db.created oversold_input true).1

/-- One task worth `10` and one item costing `3` with unlimited stock, on a new
currency. -/
def unlimited_input : add_event_input :=
  { event_name := "League", currency_choice := 0, currency_name := "Stars", symbol := "S",
    is_time_limited := 0, start_time := 0, end_time := 0,
    num_tasks := 1, tasks := fun _ => { task_description := "Win", currency_amount := 10 },
    num_items := 1,
    items := fun _ => { item_description := "Sticker", cost := 3, stock := -1,
                        category := "Fun" } }

/-- The new database after `add_event` with `unlimited_input` and the completion of its
task: the balance is `10`. -/
def unlimited_db : Db :=
  (mark_task_done (add_event Db.created unlimited_input true).1 1 1 true true).1

/-- A second event on the currency of the Sprint event: two tasks worth `20` and `30`
and two items. -/
def marathon_input : add_event_input :=
  { event_name := "Marathon", currency_choice := 1, currency_name := "", symbol := "",
    is_time_limited := 1, start_time := 1700000000, end_time := 1700086400,
    num_tasks := 2,
    tasks := fun i =>
      if i = 1 then { task_description := "Swim", currency_amount := 20 }
      else { task_description := "Bike", currency_amount := 30 },
    num_items := 2,
    items := fun i =>
      if i = 1 then { item_description := "Towel", cost := 4, stock := 3, category := "Gear" }
      else { item_description := "Helmet", cost := 9, stock := 1, category := "Gear" } }

/-- The Sprint database after a second `add_event`, with `marathon_input`. -/
def two_events_db : Db := (add_event sprint_db marathon_input true).1

/-- An event on a currency id that no currency row has. -/
def dangling_input : add_event_input :=
  { event_name := "Ghost", currency_choice := 7, currency_name := "", symbol := "",
    is_time_limited := 0, start_time := 0, end_time := 0,
    num_tasks := 0, tasks := fun _ => { task_description := "", currency_amount := 0 },
    num_items := 0,
    items := fun _ => { item_description := "", cost := 0, stock := 0, category := "" } }

/-- The Sprint database after its task was completed and its item bought once. -/
def sprint_bought_once_db : Db := (buy_item sprint_done_db 1 1 true true).1

/-- The Sprint database after its task was completed and its item bought twice: the
balance is `0` and the stock is `0`. -/
def sprint_sold_out_db : Db := (buy_item sprint_bought_once_db 1 1 true true).1

/-- An event on the currency id `7`, which no currency row has, with one task worth `10`
and one task worth `-1`. -/
def ghost_input : add_event_input :=
  { event_name := "Ghost", currency_choice := 7, currency_name := "", symbol := "",
    is_time_limited := 0, start_time := 0, end_time := 0,
    num_tasks := 2,
    tasks := fun i =>
      if i = 1 then { task_description := "Haunt", currency_amount := 10 }
      else { task_description := "Vanish", currency_amount := -1 },
    num_items := 0,
    items := fun _ => { item_description := "", cost := 0, stock := 0, category := "" } }

/-- The Sprint database, stored and opened again by a new run of the program, after
`add_event` with `ghost_input`: event 2 has `currency_id = 7` and there is no currency
row with that id. -/
def ghost_db : Db := (add_event (main_open (some sprint_db)) ghost_input true).1

/-- Two tasks worth `2147483647` each and one item costing `5` with one in stock, on a
new currency. -/
def rich_input : add_event_input :=
  { event_name := "Jackpot", currency_choice := 0, currency_name := "Gold", symbol := "Au",
    is_time_limited := 0, start_time := 0, end_time := 0,
    num_tasks := 2,
    tasks := fun _ => { task_description := "Win", currency_amount := 2147483647 },
    num_items := 1,
    items := fun _ => { item_description := "Cup", cost := 5, stock := 1,
                        category := "Prize" } }

/-- The new database after `add_event` with `rich_input` and the completion of both
tasks: the stored balance is `4294967294`, which an `int` reads as `-2`. -/
def rich_db : Db :=
  (mark_task_done (mark_task_done (add_event Db.created rich_input true).1
    1 1 true true).1 1 2 true true).1

/-- No task and two items whose typed cost is `-2147483648`, on a new currency: item 1
with two in stock, item 2 with unlimited stock. -/
def refund_input : add_event_input :=
  { event_name := "Clearance", currency_choice := 0, currency_name := "Chips", symbol := "Ch",
    is_time_limited := 0, start_time := 0, end_time := 0,
    num_tasks := 0, tasks := fun _ => { task_description := "", currency_amount := 0 },
    num_items := 2,
    items := fun i =>
      if i = 1 then { item_description := "Crate", cost := -2147483648, stock := 2,
                      category := "Bulk" }
      else { item_description := "Pass", cost := -2147483648, stock := -1,
             category := "Bulk" } }

/-- The new database after `add_event` with `refund_input`: the balance is `0`. -/
def refund_db : Db := (add_event Db.created refund_input true).1

/-- No line is read for a start or an end time: both `mktime` values are `0`. -/
def epoch_times : List Char → List Char → Int × Int := fun _ _ => (0, 0)

/-- Every `int` of `add_event` holds `0` until a `scanf` assigns it. -/
def zero_unassigned : add_event_variable → Int := fun _ => 0

/-- Two items typed for the event Fair: the category typed for the first has 61
characters. -/
def fair_items : List typed_item :=
  [{ item_description := "Flyer".toList, cost := "1".toList, stock := "5".toList,
     category := "Printed matter handed out at the gate of the fairground, free".toList },
   { item_description := "Poster".toList, cost := "2".toList, stock := "7".toList,
     category := "Paper".toList }]

/-- The lines typed during an `add_event` on a new database: the event name, the name
and symbol of the new currency, `0` for not time-limited, `0` tasks, `2` items, and the
lines of `fair_items`. -/
def fair_stdin : stdin :=
  ["Fair".toList, "Coins".toList, "C".toList, "0".toList, "0".toList, "2".toList]
    ++ typed_item_lines fair_items

/-- One task typed for the event Gala. -/
def gala_tasks : List typed_task :=
  [{ task_description := "Sing".toList, currency_amount := "10".toList }]

/-- Two items typed for the event Gala. -/
def gala_items : List typed_item :=
  [{ item_description := "Mask".toList, cost := "4".toList, stock := "3".toList,
     category := "Costume".toList },
   { item_description := "Wig".toList, cost := "6".toList, stock := "-1".toList,
     category := "Costume".toList }]

/-- The lines typed during an `add_event` on a new database: the event name, the name
and symbol of the new currency, `0` for not time-limited, `1` task and the lines of
`gala_tasks`, `2` items and the lines of `gala_items`. -/
def gala_stdin : stdin :=
  ["Gala".toList, "Tokens".toList, "T".toList, "0".toList, "1".toList]
    ++ typed_task_lines gala_tasks ++ ["2".toList] ++ typed_item_lines gala_items

end RewardSystem

/-! ## Basic facts -/

namespace RewardSystem

theorem to_int_of_is_int {x : Int} (h : is_int x) : to_int x = x := by
  unfold is_int INT_MIN INT_MAX at h
  unfold to_int
  omega

/-- The `int` negation of a value other than `INT_MIN` is its negation. -/
theorem to_int_neg {x : Int} (h : is_int x) (hx : x ≠ INT_MIN) : to_int (-x) = -x := by
  unfold is_int INT_MIN INT_MAX at h
  unfold INT_MIN at hx
  unfold to_int
  omega

theorem is_int_to_int (x : Int) : is_int (to_int x) := by
  unfold is_int INT_MIN INT_MAX to_int
  omega

/-- A search returns the one element that satisfies the test. -/
theorem find?_of_unique {α : Type} {p : α → Bool} {a : α} :
    ∀ {l : List α}, a ∈ l → p a = true → (∀ x ∈ l, p x = true → x = a) →
      l.find? p = some a
  | [], h, _, _ => by cases h
  | y :: ys, h, hp, hu => by
    by_cases hy : p y = true
    · have : y = a := hu y (List.mem_cons_self _ _) hy
      simp [List.find?, this, hp]
    · have ha : a ∈ ys := by
        rcases List.mem_cons.mp h with rfl | h
        · exact absurd hp hy
        · exact h
      have ih := find?_of_unique ha hp (fun x hx => hu x (List.mem_cons_of_mem _ hx))
      simp [List.find?, hy, ih]

/-- Rows of a table with a unique key are equal when their keys are. -/
theorem eq_of_key_eq {α β : Type} {key : α → β} {l : List α}
    (hn : (l.map key).Nodup) {x y : α} (hx : x ∈ l) (hy : y ∈ l) (h : key x = key y) :
    x = y :=
  List.inj_on_of_nodup_map hn hx hy h

/-! ### The lookups of the workflows -/

theorem find_currency_id_of_active {db : Db} (hdb : schema_ok db) {e : events_row}
    (he : e ∈ db.events) (hact : e.is_active = 1) :
    find_currency_id (get_active_events db) e.event_id = e.currency_id := by
  obtain ⟨_, hev, _, _, _, hre, _, _⟩ := hdb
  have hfind : (get_active_events db).find? (fun x => decide (x.event_id = e.event_id))
      = some (read_event e) := by
    apply find?_of_unique
    · unfold get_active_events sql_select_active_events
      exact List.mem_map.mpr ⟨e, List.mem_filter.mpr ⟨he, by simp [hact]⟩, rfl⟩
    · simp [read_event, sqlite3_column_int, to_int_of_is_int (hre e he).1]
    · intro x hx hpx
      unfold get_active_events sql_select_active_events at hx
      obtain ⟨r, hr, rfl⟩ := List.mem_map.mp hx
      have hr' : r ∈ db.events := (List.mem_filter.mp hr).1
      have hid : r.event_id = e.event_id := by
        have := of_decide_eq_true hpx
        simpa [read_event, sqlite3_column_int, to_int_of_is_int (hre r hr').1] using this
      have : r = e := eq_of_key_eq hev hr' he hid
      subst this
      rfl
  unfold find_currency_id
  rw [hfind]
  simp [read_event, sqlite3_column_int, to_int_of_is_int (hre e he).2]

theorem find_currency_amount_of_incomplete {db : Db} (hdb : schema_ok db) {t : task}
    (ht : t ∈ db.tasks) (hinc : t.is_completed = 0) :
    find_currency_amount (get_incomplete_tasks_of_an_event db t.event_id) t.task_id
      = t.currency_amount := by
  obtain ⟨_, _, htk, _, _, _, hrt, _⟩ := hdb
  have hfind : (get_incomplete_tasks_of_an_event db t.event_id).find?
      (fun x => decide (x.task_id = t.task_id)) = some (read_task t) := by
    apply find?_of_unique
    · unfold get_incomplete_tasks_of_an_event sql_select_incomplete_tasks_of_an_event
      exact List.mem_map.mpr ⟨t, List.mem_filter.mpr ⟨ht, by simp [hinc]⟩, rfl⟩
    · simp [read_task, sqlite3_column_int, to_int_of_is_int (hrt t ht).2.1]
    · intro x hx hpx
      unfold get_incomplete_tasks_of_an_event sql_select_incomplete_tasks_of_an_event at hx
      obtain ⟨r, hr, rfl⟩ := List.mem_map.mp hx
      obtain ⟨hr', hsel⟩ := List.mem_filter.mp hr
      have hev : r.event_id = t.event_id := by simp at hsel; exact hsel.2
      have hid : r.task_id = t.task_id := by
        have := of_decide_eq_true hpx
        simpa [read_task, sqlite3_column_int, to_int_of_is_int (hrt r hr').2.1] using this
      have : r = t := eq_of_key_eq htk hr' ht (by simp [hev, hid])
      subst this
      rfl
  unfold find_currency_amount
  rw [hfind]
  simp [read_task, sqlite3_column_int, to_int_of_is_int (hrt t ht).2.2]

theorem find_currency_amount_of_completed {db : Db} (hdb : schema_ok db) {t : task}
    (ht : t ∈ db.tasks) (hc : t.is_completed ≠ 0) :
    find_currency_amount (get_incomplete_tasks_of_an_event db t.event_id) t.task_id
      = -1 := by
  obtain ⟨_, _, htk, _, _, _, hrt, _⟩ := hdb
  have hfind : (get_incomplete_tasks_of_an_event db t.event_id).find?
      (fun x => decide (x.task_id = t.task_id)) = none := by
    rw [List.find?_eq_none]
    intro x hx hpx
    unfold get_incomplete_tasks_of_an_event sql_select_incomplete_tasks_of_an_event at hx
    obtain ⟨r, hr, rfl⟩ := List.mem_map.mp hx
    obtain ⟨hr', hsel⟩ := List.mem_filter.mp hr
    simp at hsel
    have hid : r.task_id = t.task_id := by
      have := of_decide_eq_true hpx
      simpa [read_task, sqlite3_column_int, to_int_of_is_int (hrt r hr').2.1] using this
    have : r = t := eq_of_key_eq htk hr' ht (by simp [hsel.2, hid])
    subst this
    exact hc hsel.1
  unfold find_currency_amount
  rw [hfind]

/-! ### The updates -/

theorem mem_tasks_sql_update_task_completion {db : Db} {t : task} (ht : t ∈ db.tasks) :
    { t with is_completed := 1 } ∈
      (sql_update_task_completion db t.task_id t.event_id).tasks := by
  unfold sql_update_task_completion
  exact List.mem_map.mpr ⟨t, ht, by simp⟩

theorem balance_of_sql_update_balance (db : Db) (amount currency_id id : Int) :
    balance_of (sql_update_balance db amount currency_id) id =
      if id = currency_id then (balance_of db id).map (fun b => b + amount)
      else balance_of db id := by
  unfold balance_of sql_update_balance
  simp only
  induction db.currency with
  | nil => split <;> rfl
  | cons c cs ih =>
    rw [List.map_cons, List.find?_cons, List.find?_cons]
    by_cases hid : c.currency_id = id
    · by_cases hc : c.currency_id = currency_id
      · have h2 : id = currency_id := hid ▸ hc
        simp [hid, hc, h2]
      · have h2 : ¬ id = currency_id := fun h => hc (hid.trans h)
        simp [hid, hc, h2]
    · have hkeep : (if c.currency_id = currency_id
          then ({ c with balance := c.balance + amount } : currency) else c).currency_id
          = c.currency_id := by split <;> rfl
      rw [hkeep]
      simp only [hid, decide_False]
      exact ih

theorem balance_of_mem {db : Db} (hdb : schema_ok db) {c : currency} (hc : c ∈ db.currency) :
    balance_of db c.currency_id = some c.balance := by
  unfold balance_of
  rw [find?_of_unique hc (by simp)
    (fun x hx hp => eq_of_key_eq hdb.1 hx hc (of_decide_eq_true hp))]
  rfl

/-- The runs of `mark_task_done` that get past both UPDATE steps: what was found and
what was written. -/
theorem mark_task_done_updates {db : Db} {chosen_event_id chosen_task_id : Int}
    {rc_completion rc_balance : Bool}
    (h : (mark_task_done db chosen_event_id chosen_task_id rc_completion rc_balance).2
          = .happy_spending ∨
        (mark_task_done db chosen_event_id chosen_task_id rc_completion rc_balance).2
          = .could_not_find_currency_index) :
    find_currency_id (get_active_events db) chosen_event_id ≠ -1 ∧
    find_currency_amount (get_incomplete_tasks_of_an_event db chosen_event_id)
      chosen_task_id ≠ -1 ∧
    rc_completion = true ∧ rc_balance = true ∧
    (mark_task_done db chosen_event_id chosen_task_id rc_completion rc_balance).1 =
      sql_update_balance (sql_update_task_completion db chosen_task_id chosen_event_id)
        (find_currency_amount (get_incomplete_tasks_of_an_event db chosen_event_id)
          chosen_task_id)
        (find_currency_id (get_active_events db) chosen_event_id) := by
  unfold mark_task_done at h ⊢
  simp only at h ⊢
  split_ifs at h ⊢ with h1 h2 h3 h4 h5
  all_goals first
    | (simp at h)
    | (refine ⟨h1, h3, by simpa using h4, by simpa using h5, ?_⟩
       split <;> rfl)

/-! ## Completing a task -/

/-- C1: when `mark_task_done`, run on an active event `e` whose currency row `c` exists
and on a task `t` of `e`, gets past both UPDATE steps, the row of `t` is completed
afterwards and the balance of `c` is its previous value plus `t.currency_amount`. -/
theorem mark_task_done_completes_and_credits (db : Db) (e : events_row) (c : currency)
    (t : task) (rc_completion rc_balance : Bool)
    (hdb : schema_ok db)
    (he : e ∈ db.events) (hact : e.is_active = 1)
    (hc : c ∈ db.currency) (hce : c.currency_id = e.currency_id)
    (ht : t ∈ db.tasks) (hte : t.event_id = e.event_id)
    (hrun : (mark_task_done db e.event_id t.task_id rc_completion rc_balance).2
              = .happy_spending ∨
            (mark_task_done db e.event_id t.task_id rc_completion rc_balance).2
              = .could_not_find_currency_index) :
    { t with is_completed := 1 } ∈
        (mark_task_done db e.event_id t.task_id rc_completion rc_balance).1.tasks ∧
    balance_of (mark_task_done db e.event_id t.task_id rc_completion rc_balance).1
        c.currency_id = some (c.balance + t.currency_amount) := by
  obtain ⟨_, hamt, _, _, hdb'⟩ := mark_task_done_updates hrun
  rw [hdb']
  rw [← hte] at hamt ⊢
  have hinc : t.is_completed = 0 := by
    by_contra hne
    exact hamt (find_currency_amount_of_completed hdb ht hne)
  rw [find_currency_amount_of_incomplete hdb ht hinc, hte,
    find_currency_id_of_active hdb he hact, ← hte]
  refine ⟨mem_tasks_sql_update_task_completion ht, ?_⟩
  rw [balance_of_sql_update_balance, if_pos hce]
  have : balance_of (sql_update_task_completion db t.task_id t.event_id) c.currency_id
      = balance_of db c.currency_id := rfl
  rw [this, balance_of_mem hdb hc]
  rfl

/-- C1 at the Sprint database: completing task 1 of event 1 credits `10`. -/
theorem mark_task_done_completes_and_credits_witness :
    ({ event_id := 1, task_id := 1, task_description := "Run", currency_amount := 10,
       is_completed := 1 } : task) ∈ (mark_task_done sprint_db 1 1 true true).1.tasks ∧
    balance_of (mark_task_done sprint_db 1 1 true true).1 1 = some (0 + 10) :=
  mark_task_done_completes_and_credits sprint_db
    { event_id := 1, event_name := "Sprint", currency_id := 1, is_time_limited := 0,
      start_time := none, end_time := none, is_active := 1 }
    { currency_id := 1, currency_name := "Gems", symbol := "G", balance := 0 }
    { event_id := 1, task_id := 1, task_description := "Run", currency_amount := 10,
      is_completed := 0 }
    true true (by decide) (by decide) rfl (by decide) rfl (by decide) rfl
    (Or.inl (by decide))

/-- The runs of `mark_task_done` on an incomplete task of an active event: unless the
event's currency id or the task's amount is `-1`, both UPDATE steps run. -/
theorem mark_task_done_of_incomplete {db : Db} (hdb : schema_ok db) {e : events_row}
    {t : task} (he : e ∈ db.events) (hact : e.is_active = 1) (hcur : e.currency_id ≠ -1)
    (ht : t ∈ db.tasks) (hte : t.event_id = e.event_id) (hinc : t.is_completed = 0)
    (hamt : t.currency_amount ≠ -1) :
    (mark_task_done db e.event_id t.task_id true true).1 =
      sql_update_balance (sql_update_task_completion db t.task_id t.event_id)
        t.currency_amount e.currency_id ∧
    ((mark_task_done db e.event_id t.task_id true true).2 = .happy_spending ∨
     (mark_task_done db e.event_id t.task_id true true).2
        = .could_not_find_currency_index) := by
  have h1 := find_currency_id_of_active hdb he hact
  have h2 := find_currency_amount_of_incomplete hdb ht hinc
  have h3 : (get_incomplete_tasks_of_an_event db e.event_id).length ≠ 0 := by
    have hm : read_task t ∈ get_incomplete_tasks_of_an_event db e.event_id := by
      unfold get_incomplete_tasks_of_an_event sql_select_incomplete_tasks_of_an_event
      exact List.mem_map.mpr ⟨t, List.mem_filter.mpr ⟨ht, by simp [hinc, hte]⟩, rfl⟩
    intro h0
    rw [List.length_eq_zero.mp h0] at hm
    cases hm
  rw [hte] at h2
  unfold mark_task_done
  simp only [h1, h2, hcur, hamt, h3, if_false, hte, Bool.true_eq_false]
  constructor
  · split <;> rfl
  · split
    · exact Or.inr rfl
    · exact Or.inl rfl

/-- C2 at its failing input: the one task of the Chores event is incomplete and its
event is active, yet picking it is answered with "could not find currency amount" and
nothing is written, because its reward `-1` is the value the search starts from. -/
theorem mark_task_done_reward_minus_one_not_found :
    penalty_db.events.map (fun e => (e.event_id, e.is_active)) = [(1, 1)] ∧
    penalty_db.tasks =
      [{ event_id := 1, task_id := 1, task_description := "Late", currency_amount := -1,
         is_completed := 0 }] ∧
    mark_task_done penalty_db 1 1 true true
      = (penalty_db, .could_not_find_currency_amount) := by
  decide

/-- C3: picking the event and the id of a task that is already completed writes
nothing, whatever the result codes would be: the database after `mark_task_done` is the
database before it, so no balance and no task row has changed. -/
theorem mark_task_done_completed_unchanged (db : Db) (t : task)
    (rc_completion rc_balance : Bool) (hdb : schema_ok db) (ht : t ∈ db.tasks)
    (hdone : t.is_completed = 1) :
    (mark_task_done db t.event_id t.task_id rc_completion rc_balance).1 = db := by
  have hamt := find_currency_amount_of_completed hdb ht (by rw [hdone]; decide)
  unfold mark_task_done
  simp only [hamt, if_true]
  split_ifs <;> rfl

/-- C3 at the Sprint database once task 1 is completed: a second pick changes nothing. -/
theorem mark_task_done_completed_unchanged_witness :
    (mark_task_done sprint_done_db 1 1 true true).1 = sprint_done_db :=
  mark_task_done_completed_unchanged sprint_done_db
    { event_id := 1, task_id := 1, task_description := "Run", currency_amount := 10,
      is_completed := 1 }
    true true (by decide) (by decide) rfl

/-! ## The completion update as a statement -/

/-- A filter keeps exactly one element when one element of a duplicate-free list passes
the test. -/
theorem length_filter_of_unique {α : Type} {p : α → Bool} {a : α} :
    ∀ {l : List α}, l.Nodup → a ∈ l → p a = true → (∀ x ∈ l, p x = true → x = a) →
      (l.filter p).length = 1
  | [], _, h, _, _ => by cases h
  | y :: ys, hn, h, hp, hu => by
    obtain ⟨hy, hn'⟩ := List.nodup_cons.mp hn
    by_cases hpy : p y = true
    · have hya : y = a := hu y (List.mem_cons_self _ _) hpy
      have hnone : ys.filter p = [] := by
        rw [List.filter_eq_nil_iff]
        intro x hx hpx
        have : x = a := hu x (List.mem_cons_of_mem _ hx) hpx
        exact hy (hya ▸ this ▸ hx)
      simp [List.filter, hpy, hnone]
    · have ha : a ∈ ys := by
        rcases List.mem_cons.mp h with rfl | h
        · exact absurd hp hpy
        · exact h
      have ih := length_filter_of_unique hn' ha hp
        (fun x hx => hu x (List.mem_cons_of_mem _ hx))
      simp [List.filter, hpy, ih]

/-- C4, the counterexample: in the Sprint database whose task 1 is already completed,
the completion update for `(task_id, event_id) = (1, 1)` still selects and rewrites that
row, so its row count is one and not zero. -/
theorem sql_update_task_completion_changes_completed_row :
    ({ event_id := 1, task_id := 1, task_description := "Run", currency_amount := 10,
       is_completed := 1 } : task) ∈ sprint_done_db.tasks ∧
    sql_update_task_completion_changes sprint_done_db 1 1 = 1 ∧
    sql_update_task_completion_changes sprint_done_db 1 1 ≠ 0 := by
  decide

/-- C4 as amended: the completion update selects by `(task_id, event_id)` alone.  Its
row count is zero when no task has that key, and one when a task has it, completed or
not; when there is no such task, or it is already completed, the table is left as it
was. -/
theorem sql_update_task_completion_changes_by_key (db : Db) (task_id event_id : Int)
    (hdb : schema_ok db) :
    ((∀ t ∈ db.tasks, ¬ (t.task_id = task_id ∧ t.event_id = event_id)) →
      sql_update_task_completion_changes db task_id event_id = 0 ∧
      sql_update_task_completion db task_id event_id = db) ∧
    (∀ t ∈ db.tasks, t.task_id = task_id → t.event_id = event_id →
      sql_update_task_completion_changes db task_id event_id = 1 ∧
      { t with is_completed := 1 } ∈ (sql_update_task_completion db task_id event_id).tasks ∧
      (t.is_completed = 1 → sql_update_task_completion db task_id event_id = db)) := by
  have hkey := hdb.2.2.1
  constructor
  · intro hnone
    constructor
    · unfold sql_update_task_completion_changes
      rw [List.length_eq_zero, List.filter_eq_nil_iff]
      intro t ht hp
      exact hnone t ht (of_decide_eq_true hp)
    · unfold sql_update_task_completion
      have : db.tasks.map (fun t =>
          if t.task_id = task_id ∧ t.event_id = event_id
          then ({ t with is_completed := 1 } : task) else t) = db.tasks := by
        conv_rhs => rw [← List.map_id db.tasks]
        apply List.map_congr_left
        intro t ht
        rw [if_neg (hnone t ht)]
        rfl
      rw [this]
  · intro t ht hid hev
    have huniq : ∀ x ∈ db.tasks, x.task_id = task_id ∧ x.event_id = event_id → x = t := by
      intro x hx hx'
      exact eq_of_key_eq hkey hx ht (by simp [hx'.1, hx'.2, hid, hev])
    refine ⟨?_, ?_, ?_⟩
    · unfold sql_update_task_completion_changes
      exact length_filter_of_unique (List.Nodup.of_map _ hkey) ht (by simp [hid, hev])
        (fun x hx hp => huniq x hx (of_decide_eq_true hp))
    · subst hid hev
      exact mem_tasks_sql_update_task_completion ht
    · intro hdone
      unfold sql_update_task_completion
      have : db.tasks.map (fun t =>
          if t.task_id = task_id ∧ t.event_id = event_id
          then ({ t with is_completed := 1 } : task) else t) = db.tasks := by
        conv_rhs => rw [← List.map_id db.tasks]
        apply List.map_congr_left
        intro x hx
        by_cases hx' : x.task_id = task_id ∧ x.event_id = event_id
        · rw [if_pos hx', huniq x hx hx', ← hdone]
          rfl
        · rw [if_neg hx']
          rfl
      rw [this]

/-- C4 as amended, at the Sprint database once task 1 is completed: the update for key
`(1, 1)` counts one row, the row is completed afterwards, and the table is as it was. -/
theorem sql_update_task_completion_changes_by_key_witness :
    sql_update_task_completion_changes sprint_done_db 1 1 = 1 ∧
    ({ event_id := 1, task_id := 1, task_description := "Run", currency_amount := 10,
       is_completed := 1 } : task) ∈ (sql_update_task_completion sprint_done_db 1 1).tasks ∧
    sql_update_task_completion sprint_done_db 1 1 = sprint_done_db :=
  have h := (sql_update_task_completion_changes_by_key sprint_done_db 1 1 (by decide)).2
    { event_id := 1, task_id := 1, task_description := "Run", currency_amount := 10,
      is_completed := 1 } (by decide) rfl rfl
  ⟨h.1, h.2.1, h.2.2 rfl⟩

/-! ## Buying an item -/

theorem find_currency_of_mem {db : Db} (hdb : schema_ok db) {c : currency}
    (hc : c ∈ db.currency) :
    (get_currencies db).find? (fun x => decide (x.currency_id = c.currency_id))
      = some (read_currency c) := by
  obtain ⟨hck, _, _, _, hrc, _, _, _⟩ := hdb
  apply find?_of_unique
  · unfold get_currencies sql_select_currency
    exact List.mem_map.mpr ⟨c, hc, rfl⟩
  · simp [read_currency, sqlite3_column_int, to_int_of_is_int (hrc c hc)]
  · intro x hx hpx
    unfold get_currencies sql_select_currency at hx
    obtain ⟨r, hr, rfl⟩ := List.mem_map.mp hx
    have hid : r.currency_id = c.currency_id := by
      have := of_decide_eq_true hpx
      simpa [read_currency, sqlite3_column_int, to_int_of_is_int (hrc r hr)] using this
    have : r = c := eq_of_key_eq hck hr hc hid
    subst this
    rfl

theorem find_item_of_mem {db : Db} (hdb : schema_ok db) {s : store_item}
    (hs : s ∈ db.store) :
    (get_store_items_by_event db s.event_id).find? (fun x => decide (s.item_id = x.item_id))
      = some (read_store_item s) := by
  obtain ⟨_, _, _, hsk, _, _, _, hrs⟩ := hdb
  apply find?_of_unique
  · unfold get_store_items_by_event sql_select_store_items_of_an_event
    exact List.mem_map.mpr ⟨s, List.mem_filter.mpr ⟨hs, by simp⟩, rfl⟩
  · simp [read_store_item, sqlite3_column_int, to_int_of_is_int (hrs s hs).2.1]
  · intro x hx hpx
    unfold get_store_items_by_event sql_select_store_items_of_an_event at hx
    obtain ⟨r, hr, rfl⟩ := List.mem_map.mp hx
    obtain ⟨hr', hsel⟩ := List.mem_filter.mp hr
    have hev : r.event_id = s.event_id := of_decide_eq_true hsel
    have hid : r.item_id = s.item_id := by
      have := of_decide_eq_true hpx
      simp only [read_store_item, sqlite3_column_int,
        to_int_of_is_int (hrs r hr').2.1] at this
      exact this.symm
    have : r = s := eq_of_key_eq hsk hr' hs (by simp [hev, hid])
    subst this
    rfl

/-- The runs of `buy_item` that end with the balance table: what was found, which checks
were passed and what was written. -/
theorem buy_item_bought {db : Db} {chosen_event_id chosen_item_id : Int}
    {rc_stock rc_balance : Bool}
    (h : (buy_item db chosen_event_id chosen_item_id rc_stock rc_balance).2 = .bought) :
    ∃ cur item,
      (get_currencies db).find? (fun c => decide (c.currency_id =
          find_currency_id (get_active_events db) chosen_event_id)) = some cur ∧
      (get_store_items_by_event db chosen_event_id).find?
          (fun s => decide (chosen_item_id = s.item_id)) = some item ∧
      item.stock ≠ 0 ∧ ¬ cur.balance < item.cost ∧
      (buy_item db chosen_event_id chosen_item_id rc_stock rc_balance).1 =
        sql_update_balance (sql_update_store_stock db chosen_item_id chosen_event_id)
          (to_int (-item.cost))
          (find_currency_id (get_active_events db) chosen_event_id) := by
  unfold buy_item at h ⊢
  simp only at h ⊢
  by_cases h1 : find_currency_id (get_active_events db) chosen_event_id = -1
  · simp [h1] at h
  · simp only [h1, if_false] at h ⊢
    cases hcur : (get_currencies db).find? (fun c => decide (c.currency_id =
        find_currency_id (get_active_events db) chosen_event_id)) with
    | none => simp [hcur] at h
    | some cur =>
      simp only [hcur] at h ⊢
      cases hitem : (get_store_items_by_event db chosen_event_id).find?
          (fun s => decide (chosen_item_id = s.item_id)) with
      | none => simp [hitem] at h
      | some item =>
        simp only [hitem] at h ⊢
        split_ifs at h ⊢ with h2 h3 h4 h5
        exact ⟨cur, item, rfl, rfl, h2, h3, rfl⟩

/-- Function `buy_item` on an active event, its currency row and one of its store rows:
the two checks on what was read, then the two UPDATE steps. -/
theorem buy_item_of_rows {db : Db} (hdb : schema_ok db) {e : events_row} {c : currency}
    {s : store_item} (he : e ∈ db.events) (hact : e.is_active = 1)
    (hc : c ∈ db.currency) (hce : c.currency_id = e.currency_id)
    (hs : s ∈ db.store) (hse : s.event_id = e.event_id) (hcur : e.currency_id ≠ -1)
    (rc_stock rc_balance : Bool) :
    buy_item db e.event_id s.item_id rc_stock rc_balance =
      if to_int s.stock = 0 then (db, .item_out_of_stock)
      else if to_int c.balance < s.cost then (db, .insufficient_balance)
      else if rc_stock = false then (db, .error_in_updating_stock)
      else if rc_balance = false then
        (sql_update_store_stock db s.item_id e.event_id, .error_in_updating_balance)
      else
        (sql_update_balance (sql_update_store_stock db s.item_id e.event_id)
          (to_int (-s.cost)) e.currency_id, .bought) := by
  have h1 := find_currency_id_of_active hdb he hact
  have h2 := find_currency_of_mem hdb hc
  have h3 := find_item_of_mem hdb hs
  rw [hce] at h2
  rw [hse] at h3
  unfold buy_item
  simp only [h1, h2, h3, hcur, if_false]
  simp only [read_store_item, read_currency, sqlite3_column_int,
    to_int_of_is_int (hdb.2.2.2.2.2.2.2 s hs).2.2]

/-- An event whose `currency_id` is `-1` is answered like an event that is not listed. -/
theorem buy_item_of_currency_id_minus_one {db : Db} (hdb : schema_ok db) {e : events_row}
    (he : e ∈ db.events) (hact : e.is_active = 1) (hcur : e.currency_id = -1)
    (chosen_item_id : Int) (rc_stock rc_balance : Bool) :
    buy_item db e.event_id chosen_item_id rc_stock rc_balance
      = (db, .could_not_find_currency_id) := by
  have h1 := find_currency_id_of_active hdb he hact
  unfold buy_item
  simp only [h1, hcur, if_true]

theorem mem_store_sql_update_store_stock {db : Db} {s : store_item} (hs : s ∈ db.store)
    (hfin : s.stock ≠ -1) :
    { s with stock := s.stock - 1 } ∈ (sql_update_store_stock db s.item_id s.event_id).store := by
  unfold sql_update_store_stock
  exact List.mem_map.mpr ⟨s, hs, by simp [hfin]⟩

/-- Away from the cost `INT_MIN`: after a `buy_item` that ends with the purchase made,
of an item with finite stock `s.stock > 0` and a cost `s.cost` other than `INT_MIN` in
an active event whose currency row is `c`, the item's row has stock `s.stock - 1` and
the balance of `c` is `c.balance - s.cost`. -/
theorem buy_item_decrements_and_debits (db : Db) (e : events_row) (c : currency)
    (s : store_item) (rc_stock rc_balance : Bool)
    (hdb : schema_ok db)
    (he : e ∈ db.events) (hact : e.is_active = 1)
    (hc : c ∈ db.currency) (hce : c.currency_id = e.currency_id)
    (hs : s ∈ db.store) (hse : s.event_id = e.event_id)
    (hstock : 0 < s.stock) (hcost : s.cost ≠ INT_MIN)
    (hrun : (buy_item db e.event_id s.item_id rc_stock rc_balance).2 = .bought) :
    { s with stock := s.stock - 1 } ∈
        (buy_item db e.event_id s.item_id rc_stock rc_balance).1.store ∧
    balance_of (buy_item db e.event_id s.item_id rc_stock rc_balance).1 c.currency_id
      = some (c.balance - s.cost) := by
  by_cases hcur : e.currency_id = -1
  · rw [buy_item_of_currency_id_minus_one hdb he hact hcur] at hrun
    cases hrun
  · rw [buy_item_of_rows hdb he hact hc hce hs hse hcur] at hrun ⊢
    rw [to_int_neg (hdb.2.2.2.2.2.2.2 s hs).2.2 hcost] at hrun ⊢
    split_ifs at hrun ⊢
    refine ⟨?_, ?_⟩
    · rw [← hse]
      exact mem_store_sql_update_store_stock hs (by omega)
    · rw [balance_of_sql_update_balance, if_pos hce]
      have : balance_of (sql_update_store_stock db s.item_id e.event_id) c.currency_id
          = balance_of db c.currency_id := rfl
      rw [this, balance_of_mem hdb hc]
      rfl

/-- At the Sprint database once task 1 is completed (balance `10`, stock `2`,
cost `5`): the purchase leaves stock `1` and balance `5`. -/
theorem buy_item_decrements_and_debits_witness :
    ({ item_id := 1, item_description := "Potion", cost := 5, event_id := 1,
       stock := 2 - 1, category := "Boost" } : store_item) ∈
        (buy_item sprint_done_db 1 1 true true).1.store ∧
    balance_of (buy_item sprint_done_db 1 1 true true).1 1 = some (10 - 5) :=
  buy_item_decrements_and_debits sprint_done_db
    { event_id := 1, event_name := "Sprint", currency_id := 1, is_time_limited := 0,
      start_time := none, end_time := none, is_active := 1 }
    { currency_id := 1, currency_name := "Gems", symbol := "G", balance := 10 }
    { item_id := 1, item_description := "Potion", cost := 5, event_id := 1, stock := 2,
      category := "Boost" }
    true true (by decide) (by decide) rfl (by decide) rfl (by decide) rfl (by decide)
    (by decide) (by decide)

/-- C6 at its failing input: in `refund_db` the currency's balance is `0` and item 1 has
stock `2` and cost `-2147483648`, which the balance is not below.  The purchase is made
and the stock becomes `2 - 1`, but the amount bound to the balance update is the `int`
negation of the cost, again `-2147483648`, so the balance afterwards is `-2147483648`
and not `0 - (-2147483648)`. -/
theorem buy_item_debit_of_cost_int_min :
    balance_of refund_db 1 = some 0 ∧
    refund_db.store =
      [{ item_id := 1, item_description := "Crate", cost := -2147483648, event_id := 1,
         stock := 2, category := "Bulk" },
       { item_id := 2, item_description := "Pass", cost := -2147483648, event_id := 1,
         stock := -1, category := "Bulk" }] ∧
    (0 : Int) ≥ -2147483648 ∧
    (buy_item refund_db 1 1 true true).2 = .bought ∧
    stock_of (buy_item refund_db 1 1 true true).1 1 1 = some (2 - 1) ∧
    balance_of (buy_item refund_db 1 1 true true).1 1 = some (-2147483648) ∧
    (-2147483648 : Int) ≠ 0 - (-2147483648) := by
  decide

/-- Function `buy_item` either leaves the store table as it was, or it found the picked
item with a stock read other than `0` and ran the stock update. -/
theorem buy_item_store (db : Db) (chosen_event_id chosen_item_id : Int)
    (rc_stock rc_balance : Bool) :
    (buy_item db chosen_event_id chosen_item_id rc_stock rc_balance).1.store = db.store ∨
    ∃ item,
      (get_store_items_by_event db chosen_event_id).find?
          (fun s => decide (chosen_item_id = s.item_id)) = some item ∧
      item.stock ≠ 0 ∧
      (buy_item db chosen_event_id chosen_item_id rc_stock rc_balance).1.store =
        (sql_update_store_stock db chosen_item_id chosen_event_id).store := by
  unfold buy_item
  simp only
  by_cases h1 : find_currency_id (get_active_events db) chosen_event_id = -1
  · simp [h1]
  · simp only [h1, if_false]
    cases hcur : (get_currencies db).find? (fun c => decide (c.currency_id =
        find_currency_id (get_active_events db) chosen_event_id)) with
    | none => simp
    | some cur =>
      simp only
      cases hitem : (get_store_items_by_event db chosen_event_id).find?
          (fun s => decide (chosen_item_id = s.item_id)) with
      | none => simp
      | some item =>
        simp only
        split_ifs with h2 h3 h4 h5
        · exact Or.inl rfl
        · exact Or.inl rfl
        · exact Or.inl rfl
        · exact Or.inr ⟨item, rfl, h2, rfl⟩
        · exact Or.inr ⟨item, rfl, h2, rfl⟩

/-- Where the stored balance is in `int` range, a failed precondition of `buy_item`
(stored stock `0`, or stored balance below the cost) leaves the database as it was. -/
theorem buy_item_precondition_failure_of_int_balance {db : Db} (hdb : schema_ok db)
    {e : events_row} {c : currency} {s : store_item}
    (he : e ∈ db.events) (hact : e.is_active = 1)
    (hc : c ∈ db.currency) (hce : c.currency_id = e.currency_id)
    (hs : s ∈ db.store) (hse : s.event_id = e.event_id)
    (hbal : is_int c.balance) (hpre : s.stock = 0 ∨ c.balance < s.cost)
    (rc_stock rc_balance : Bool) :
    (buy_item db e.event_id s.item_id rc_stock rc_balance).1 = db := by
  by_cases hcur : e.currency_id = -1
  · rw [buy_item_of_currency_id_minus_one hdb he hact hcur]
  · rw [buy_item_of_rows hdb he hact hc hce hs hse hcur]
    rw [to_int_of_is_int hbal]
    split_ifs with h1 h2 h3 h4
    · rfl
    · rfl
    · rfl
    all_goals
      rcases hpre with h0 | hlt
      · rw [h0] at h1
        exact absurd rfl h1
      · exact absurd hlt h2

/-- C5 at its failing input: in `debt_db` the stored balance `-4294967196` is below the
cost `50` of item 1, yet `buy_item` reads the balance as the `int` `100`, passes the
balance check, takes the item's stock from `1` to `0` and debits `50`. -/
theorem buy_item_writes_despite_balance_below_cost :
    balance_of debt_db 1 = some (-4294967196) ∧
    debt_db.store = [{ item_id := 1, item_description := "Badge", cost := 50,
                       event_id := 1, stock := 1, category := "Shop" }] ∧
    (-4294967196 : Int) < 50 ∧
    (buy_item debt_db 1 1 true true).2 = .bought ∧
    stock_of (buy_item debt_db 1 1 true true).1 1 1 = some 0 ∧
    balance_of (buy_item debt_db 1 1 true true).1 1 = some (-4294967246) ∧
    (buy_item debt_db 1 1 true true).1 ≠ debt_db := by
  decide

/-! ### Stock never below zero -/

/-- C7, the counterexample: `add_event` stores the stock `-2` typed for an item as it
is, and a `buy_item` of that item succeeds and changes its stock to `-3`. -/
theorem buy_item_decrements_negative_stock :
    stock_of oversold_db 1 1 = some (-2) ∧
    (buy_item oversold_db 1 1 true true).2 = .bought ∧
    stock_of (buy_item oversold_db 1 1 true true).1 1 1 = some (-3) ∧
    (-3 : Int) < 0 := by
  decide

/-- C7 as amended: a store row whose stock is `-1` or at least `0` is never changed to a
stock below `0` by a `buy_item` attempt: the row in its place afterwards has the same
key, is the same row or has a stock of at least `0`, and its stock is again `-1` or at
least `0`. -/
theorem buy_item_stock_not_below_zero (db : Db) (chosen_event_id chosen_item_id : Int)
    (rc_stock rc_balance : Bool) (n : Nat) (r : store_item) (hdb : schema_ok db)
    (hr : db.store[n]? = some r) (hstock : -1 ≤ r.stock) :
    ∃ r', (buy_item db chosen_event_id chosen_item_id rc_stock rc_balance).1.store[n]?
        = some r' ∧
      r'.item_id = r.item_id ∧ r'.event_id = r.event_id ∧
      (r' = r ∨ 0 ≤ r'.stock) ∧ -1 ≤ r'.stock := by
  rcases buy_item_store db chosen_event_id chosen_item_id rc_stock rc_balance with
    h | ⟨item, hfind, hne, h⟩
  · rw [h]
    exact ⟨r, hr, rfl, rfl, Or.inl rfl, hstock⟩
  · rw [h]
    unfold sql_update_store_stock
    simp only [List.getElem?_map, hr, Option.map_some']
    have hmem : r ∈ db.store := List.getElem?_mem hr
    by_cases hsel : r.item_id = chosen_item_id ∧ r.event_id = chosen_event_id ∧
        r.stock ≠ -1
    · rw [if_pos hsel]
      obtain ⟨hid, hev, hfin⟩ := hsel
      have hitem := find_item_of_mem hdb hmem
      rw [hid, hev, hfind] at hitem
      have hread : item.stock = to_int r.stock := by
        rw [Option.some.inj hitem]
        rfl
      have hr0 : r.stock ≠ 0 := by
        intro h0
        rw [hread, h0] at hne
        exact hne rfl
      have h1 : (0 : Int) ≤ r.stock - 1 := by omega
      exact ⟨_, rfl, rfl, rfl, Or.inr h1, by show -1 ≤ r.stock - 1; omega⟩
    · rw [if_neg hsel]
      exact ⟨r, rfl, rfl, rfl, Or.inl rfl, hstock⟩

/-- C7 as amended, at the Sprint database once task 1 is completed: the purchase takes
the stock of the only item, in place `0` of the table, from `2` to `1`. -/
theorem buy_item_stock_not_below_zero_witness :
    ∃ r', (buy_item sprint_done_db 1 1 true true).1.store[0]? = some r' ∧
      r'.item_id = 1 ∧ r'.event_id = 1 ∧
      (r' = { item_id := 1, item_description := "Potion", cost := 5, event_id := 1,
              stock := 2, category := "Boost" } ∨ 0 ≤ r'.stock) ∧ -1 ≤ r'.stock :=
  buy_item_stock_not_below_zero sprint_done_db 1 1 true true 0
    { item_id := 1, item_description := "Potion", cost := 5, event_id := 1, stock := 2,
      category := "Boost" } (by decide) (by decide) (by decide)

/-! ### Balance never below zero -/

/-- Where the stored balance is in `int` range and the cost is not `INT_MIN`, a purchase
leaves a balance of at least `0`. -/
theorem buy_item_balance_nonneg_of_int_balance {db : Db} (hdb : schema_ok db)
    {e : events_row} {c : currency} {s : store_item} {rc_stock rc_balance : Bool}
    (he : e ∈ db.events) (hact : e.is_active = 1)
    (hc : c ∈ db.currency) (hce : c.currency_id = e.currency_id)
    (hs : s ∈ db.store) (hse : s.event_id = e.event_id)
    (hbal : is_int c.balance) (hcost : s.cost ≠ INT_MIN)
    (hrun : (buy_item db e.event_id s.item_id rc_stock rc_balance).2 = .bought) :
    ∃ b, balance_of (buy_item db e.event_id s.item_id rc_stock rc_balance).1 c.currency_id
      = some b ∧ 0 ≤ b := by
  by_cases hcur : e.currency_id = -1
  · rw [buy_item_of_currency_id_minus_one hdb he hact hcur] at hrun
    cases hrun
  · rw [buy_item_of_rows hdb he hact hc hce hs hse hcur] at hrun ⊢
    rw [to_int_of_is_int hbal, to_int_neg (hdb.2.2.2.2.2.2.2 s hs).2.2 hcost] at hrun ⊢
    split_ifs at hrun ⊢ with h1 h2 h3 h4
    refine ⟨c.balance + -s.cost, ?_, by omega⟩
    rw [balance_of_sql_update_balance, if_pos hce]
    have : balance_of (sql_update_store_stock db s.item_id e.event_id) c.currency_id
        = balance_of db c.currency_id := rfl
    rw [this, balance_of_mem hdb hc]
    rfl

/-- C8 at its failing input: in `debt_db` the currency's stored balance
`-4294967196` is read as the `int` `100`, the purchase of the item costing `50` performs
the debit, and the balance afterwards is `-4294967246`, below `0`. -/
theorem buy_item_debit_leaves_negative_balance :
    (get_currencies debt_db).map (fun c => c.balance) = [100] ∧
    (buy_item debt_db 1 1 true true).2 = .bought ∧
    balance_of (buy_item debt_db 1 1 true true).1 1 = some (-4294967246) ∧
    ¬ (0 : Int) ≤ -4294967246 := by
  decide

/-! ### The schema is kept by the updates -/

theorem schema_ok_sql_update_store_stock {db : Db} (hdb : schema_ok db)
    (item_id event_id : Int) : schema_ok (sql_update_store_stock db item_id event_id) := by
  obtain ⟨h1, h2, h3, h4, h5, h6, h7, h8⟩ := hdb
  refine ⟨h1, h2, h3, ?_, h5, h6, h7, ?_⟩
  · unfold sql_update_store_stock
    simp only [List.map_map]
    have : db.store.map ((fun s : store_item => (s.event_id, s.item_id)) ∘ fun s =>
        if s.item_id = item_id ∧ s.event_id = event_id ∧ s.stock ≠ -1
        then { s with stock := s.stock - 1 } else s)
        = db.store.map (fun s => (s.event_id, s.item_id)) := by
      apply List.map_congr_left
      intro s _
      simp only [Function.comp]
      split <;> rfl
    rw [this]
    exact h4
  · intro s hs
    unfold sql_update_store_stock at hs
    obtain ⟨r, hr, rfl⟩ := List.mem_map.mp hs
    split
    · exact h8 r hr
    · exact h8 r hr

theorem schema_ok_sql_update_balance {db : Db} (hdb : schema_ok db)
    (amount currency_id : Int) : schema_ok (sql_update_balance db amount currency_id) := by
  obtain ⟨h1, h2, h3, h4, h5, h6, h7, h8⟩ := hdb
  refine ⟨?_, h2, h3, h4, ?_, h6, h7, h8⟩
  · unfold sql_update_balance
    simp only [List.map_map]
    have : db.currency.map ((fun c : currency => c.currency_id) ∘ fun c =>
        if c.currency_id = currency_id then { c with balance := c.balance + amount } else c)
        = db.currency.map (fun c => c.currency_id) := by
      apply List.map_congr_left
      intro c _
      simp only [Function.comp]
      split <;> rfl
    rw [this]
    exact h1
  · intro c hc
    unfold sql_update_balance at hc
    obtain ⟨r, hr, rfl⟩ := List.mem_map.mp hc
    split
    · exact h5 r hr
    · exact h5 r hr

/-- The three databases a `buy_item` can leave behind. -/
theorem buy_item_cases (db : Db) (chosen_event_id chosen_item_id : Int)
    (rc_stock rc_balance : Bool) :
    (buy_item db chosen_event_id chosen_item_id rc_stock rc_balance).1 = db ∨
    (buy_item db chosen_event_id chosen_item_id rc_stock rc_balance).1 =
      sql_update_store_stock db chosen_item_id chosen_event_id ∨
    ∃ amount currency_id,
      (buy_item db chosen_event_id chosen_item_id rc_stock rc_balance).1 =
        sql_update_balance (sql_update_store_stock db chosen_item_id chosen_event_id)
          amount currency_id := by
  unfold buy_item
  simp only
  by_cases h1 : find_currency_id (get_active_events db) chosen_event_id = -1
  · simp [h1]
  · simp only [h1, if_false]
    cases hcur : (get_currencies db).find? (fun c => decide (c.currency_id =
        find_currency_id (get_active_events db) chosen_event_id)) with
    | none => simp
    | some cur =>
      simp only
      cases hitem : (get_store_items_by_event db chosen_event_id).find?
          (fun s => decide (chosen_item_id = s.item_id)) with
      | none => simp
      | some item =>
        simp only
        split_ifs
        · exact Or.inl rfl
        · exact Or.inl rfl
        · exact Or.inl rfl
        · exact Or.inr (Or.inl rfl)
        · exact Or.inr (Or.inr ⟨_, _, rfl⟩)

theorem schema_ok_buy_item {db : Db} (hdb : schema_ok db)
    (chosen_event_id chosen_item_id : Int) (rc_stock rc_balance : Bool) :
    schema_ok (buy_item db chosen_event_id chosen_item_id rc_stock rc_balance).1 := by
  rcases buy_item_cases db chosen_event_id chosen_item_id rc_stock rc_balance with
    h | h | ⟨a, cid, h⟩
  · rw [h]; exact hdb
  · rw [h]; exact schema_ok_sql_update_store_stock hdb _ _
  · rw [h]
    exact schema_ok_sql_update_balance (schema_ok_sql_update_store_stock hdb _ _) _ _

theorem events_buy_item (db : Db) (chosen_event_id chosen_item_id : Int)
    (rc_stock rc_balance : Bool) :
    (buy_item db chosen_event_id chosen_item_id rc_stock rc_balance).1.events = db.events := by
  rcases buy_item_cases db chosen_event_id chosen_item_id rc_stock rc_balance with
    h | h | ⟨a, cid, h⟩ <;> rw [h] <;> rfl

/-- A store row with stock `-1` is still there, as it was, after a `buy_item`. -/
theorem mem_store_buy_item_of_unlimited {db : Db} {s : store_item} (hs : s ∈ db.store)
    (hunl : s.stock = -1) (chosen_event_id chosen_item_id : Int)
    (rc_stock rc_balance : Bool) :
    s ∈ (buy_item db chosen_event_id chosen_item_id rc_stock rc_balance).1.store := by
  rcases buy_item_store db chosen_event_id chosen_item_id rc_stock rc_balance with
    h | ⟨_, _, _, h⟩
  · rw [h]; exact hs
  · rw [h]
    unfold sql_update_store_stock
    exact List.mem_map.mpr ⟨s, hs, by simp [hunl]⟩

/-- Any number of `buy_item` attempts keeps the schema, the event rows and every store
row with stock `-1`. -/
theorem buy_items_keeps (attempts : List buy_attempt) :
    ∀ (db : Db), schema_ok db →
      schema_ok (buy_items db attempts) ∧
      (buy_items db attempts).events = db.events ∧
      ∀ s ∈ db.store, s.stock = -1 → s ∈ (buy_items db attempts).store := by
  induction attempts with
  | nil => intro db hdb; exact ⟨hdb, rfl, fun s hs _ => hs⟩
  | cons a rest ih =>
    intro db hdb
    obtain ⟨h1, h2, h3⟩ := ih
      (buy_item db a.chosen_event_id a.chosen_item_id a.rc_stock a.rc_balance).1
      (schema_ok_buy_item hdb _ _ _ _)
    refine ⟨h1, ?_, ?_⟩
    · exact h2.trans (events_buy_item db _ _ _ _)
    · intro s hs hunl
      exact h3 s (mem_store_buy_item_of_unlimited hs hunl _ _ _ _) hunl

/-- An item `s` with stock `-1` keeps that stock through any number of `buy_item`
attempts, and each purchase of it that is made debits its cost when the cost is not
`INT_MIN`: in the database left by the attempts the row `s` is unchanged, and a further
`buy_item` of `s` that ends with the purchase made leaves `s` unchanged again and, for
a cost other than `INT_MIN`, takes `s.cost` from the balance of the event's currency. -/
theorem buy_item_unlimited_stock_invariant (db : Db) (attempts : List buy_attempt)
    (e : events_row) (s : store_item) (rc_stock rc_balance : Bool)
    (hdb : schema_ok db) (he : e ∈ db.events) (hact : e.is_active = 1)
    (hs : s ∈ db.store) (hse : s.event_id = e.event_id) (hunl : s.stock = -1) :
    s ∈ (buy_items db attempts).store ∧
    ∀ c ∈ (buy_items db attempts).currency, c.currency_id = e.currency_id →
      (buy_item (buy_items db attempts) e.event_id s.item_id rc_stock rc_balance).2
        = .bought →
      s ∈ (buy_item (buy_items db attempts) e.event_id s.item_id
            rc_stock rc_balance).1.store ∧
      (s.cost ≠ INT_MIN →
        balance_of (buy_item (buy_items db attempts) e.event_id s.item_id
            rc_stock rc_balance).1 c.currency_id = some (c.balance - s.cost)) := by
  obtain ⟨hdb', hev', hs'⟩ := buy_items_keeps attempts db hdb
  have hs1 := hs' s hs hunl
  refine ⟨hs1, ?_⟩
  intro c hc hce hrun
  have he' : e ∈ (buy_items db attempts).events := hev' ▸ he
  refine ⟨mem_store_buy_item_of_unlimited hs1 hunl _ _ _ _, ?_⟩
  intro hcost
  by_cases hcur : e.currency_id = -1
  · rw [buy_item_of_currency_id_minus_one hdb' he' hact hcur] at hrun
    cases hrun
  · rw [buy_item_of_rows hdb' he' hact hc hce hs1 hse hcur] at hrun ⊢
    rw [to_int_neg (hdb'.2.2.2.2.2.2.2 s hs1).2.2 hcost] at hrun ⊢
    split_ifs at hrun ⊢
    rw [balance_of_sql_update_balance, if_pos hce]
    have : balance_of (sql_update_store_stock (buy_items db attempts) s.item_id e.event_id)
        c.currency_id = balance_of (buy_items db attempts) c.currency_id := rfl
    rw [this, balance_of_mem hdb' hc]
    rfl

/-- At `unlimited_db` (balance `10`, cost `3`, stock `-1`): after two purchases the
stock is still `-1`, and a third purchase leaves it at `-1` and takes the balance from
`4` to `1`. -/
theorem buy_item_unlimited_stock_invariant_witness :
    ({ item_id := 1, item_description := "Sticker", cost := 3, event_id := 1, stock := -1,
       category := "Fun" } : store_item) ∈
      (buy_items unlimited_db [⟨1, 1, true, true⟩, ⟨1, 1, true, true⟩]).store ∧
    ({ item_id := 1, item_description := "Sticker", cost := 3, event_id := 1, stock := -1,
       category := "Fun" } : store_item) ∈
      (buy_item (buy_items unlimited_db [⟨1, 1, true, true⟩, ⟨1, 1, true, true⟩])
        1 1 true true).1.store ∧
    balance_of (buy_item (buy_items unlimited_db [⟨1, 1, true, true⟩, ⟨1, 1, true, true⟩])
        1 1 true true).1 1 = some (4 - 3) :=
  have h := buy_item_unlimited_stock_invariant unlimited_db
    [⟨1, 1, true, true⟩, ⟨1, 1, true, true⟩]
    { event_id := 1, event_name := "League", currency_id := 1, is_time_limited := 0,
      start_time := none, end_time := none, is_active := 1 }
    { item_id := 1, item_description := "Sticker", cost := 3, event_id := 1, stock := -1,
      category := "Fun" }
    true true (by decide) (by decide) rfl (by decide) rfl rfl
  have h2 := h.2 { currency_id := 1, currency_name := "Stars", symbol := "S", balance := 4 }
    (by decide) rfl (by decide)
  ⟨h.1, h2.1, h2.2 (by decide)⟩

/-- C9 at its failing input: in `refund_db` the currency's balance is `0` and item 2 has
stock `-1` and cost `-2147483648`.  Each of two purchases of it is made and leaves the
stock at `-1`, but each moves the balance by the `int` negation of the cost, again
`-2147483648`: the balance is `-2147483648` after the first and `-4294967296` after the
second, where a debit of the cost gives `0 - (-2147483648)`. -/
theorem buy_item_unlimited_debit_of_cost_int_min :
    balance_of refund_db 1 = some 0 ∧
    stock_of refund_db 1 2 = some (-1) ∧
    (get_store_items_by_event refund_db 1).map (fun s => s.cost)
      = [-2147483648, -2147483648] ∧
    (buy_item refund_db 1 2 true true).2 = .bought ∧
    stock_of (buy_item refund_db 1 2 true true).1 1 2 = some (-1) ∧
    balance_of (buy_item refund_db 1 2 true true).1 1 = some (-2147483648) ∧
    (-2147483648 : Int) ≠ 0 - (-2147483648) ∧
    (buy_item (buy_item refund_db 1 2 true true).1 1 2 true true).2 = .bought ∧
    stock_of (buy_item (buy_item refund_db 1 2 true true).1 1 2 true true).1 1 2
      = some (-1) ∧
    balance_of (buy_item (buy_item refund_db 1 2 true true).1 1 2 true true).1 1
      = some (-4294967296) := by
  decide

/-! ## Balances -/

theorem le_foldl_max (ids : List Int) :
    ∀ init : Int, init ≤ ids.foldl max init ∧ ∀ x ∈ ids, x ≤ ids.foldl max init := by
  induction ids with
  | nil => intro init; exact ⟨le_refl _, fun x hx => by cases hx⟩
  | cons y ys ih =>
    intro init
    obtain ⟨h1, h2⟩ := ih (max init y)
    refine ⟨le_trans (le_max_left _ _) h1, ?_⟩
    intro x hx
    rcases List.mem_cons.mp hx with rfl | hx
    · exact le_trans (le_max_right _ _) h1
    · exact h2 x hx

/-- The generated id is an id no row of the table has. -/
theorem next_rowid_not_mem (ids : List Int) : next_rowid ids ∉ ids := by
  intro h
  have := (le_foldl_max ids 0).2 _ h
  unfold next_rowid at this
  omega

theorem balance_of_sql_insert_currency (db : Db) (currency_name symbol : String)
    (balance : Int) :
    balance_of (sql_insert_currency db currency_name symbol balance)
      (next_rowid (db.currency.map (fun c => c.currency_id))) = some balance := by
  have hnone : db.currency.find? (fun c => decide (c.currency_id =
      next_rowid (db.currency.map (fun c => c.currency_id)))) = none := by
    rw [List.find?_eq_none]
    intro c hc hp
    have hmem : c.currency_id ∈ db.currency.map (fun c => c.currency_id) :=
      List.mem_map.mpr ⟨c, hc, rfl⟩
    rw [of_decide_eq_true hp] at hmem
    exact next_rowid_not_mem _ hmem
  unfold balance_of sql_insert_currency
  simp only [List.find?_append, hnone, Option.none_or]
  simp [List.find?]

/-- Sum of the amounts among `updates` that are addressed to `currency_id`. -/
theorem balance_of_sql_update_balances (updates : List (Int × Int)) (currency_id : Int) :
    ∀ (db : Db) (b : Int), balance_of db currency_id = some b →
      balance_of (sql_update_balances db updates) currency_id =
        some (b + ((updates.filter (fun u => decide (u.2 = currency_id))).map
          (fun u => u.1)).sum) := by
  induction updates with
  | nil => intro db b h; simpa [sql_update_balances] using h
  | cons u us ih =>
    intro db b h
    have hstep : sql_update_balances db (u :: us)
        = sql_update_balances (sql_update_balance db u.1 u.2) us := rfl
    rw [hstep]
    by_cases hu : u.2 = currency_id
    · have h1 : balance_of (sql_update_balance db u.1 u.2) currency_id = some (b + u.1) := by
        rw [balance_of_sql_update_balance, if_pos hu.symm, h]
        rfl
      rw [ih _ _ h1]
      simp [List.filter, hu, add_assoc]
    · have h1 : balance_of (sql_update_balance db u.1 u.2) currency_id = some b := by
        rw [balance_of_sql_update_balance, if_neg (fun h' => hu h'.symm), h]
      rw [ih _ _ h1]
      simp [List.filter, hu]

/-- C10: the currency row that `create_new_currency` inserts starts with balance `0`;
after any finite sequence of balance updates its balance is the sum of the amounts of
those updates that were addressed to it, and an update addressed to another currency
leaves its balance as it was. -/
theorem balance_is_sum_of_deltas (db : Db) (currency_name symbol : String)
    (updates : List (Int × Int)) :
    (create_new_currency db currency_name symbol true).2
      = to_int (next_rowid (db.currency.map (fun c => c.currency_id))) ∧
    balance_of (create_new_currency db currency_name symbol true).1
      (next_rowid (db.currency.map (fun c => c.currency_id))) = some 0 ∧
    balance_of (sql_update_balances (create_new_currency db currency_name symbol true).1
        updates) (next_rowid (db.currency.map (fun c => c.currency_id)))
      = some (((updates.filter (fun u => decide
          (u.2 = next_rowid (db.currency.map (fun c => c.currency_id))))).map
            (fun u => u.1)).sum) ∧
    ∀ (d : Db) (amount other : Int),
      other ≠ next_rowid (db.currency.map (fun c => c.currency_id)) →
      balance_of (sql_update_balance d amount other)
          (next_rowid (db.currency.map (fun c => c.currency_id)))
        = balance_of d (next_rowid (db.currency.map (fun c => c.currency_id))) := by
  have h0 : balance_of (create_new_currency db currency_name symbol true).1
      (next_rowid (db.currency.map (fun c => c.currency_id))) = some 0 :=
    balance_of_sql_insert_currency db currency_name symbol 0
  refine ⟨rfl, h0, ?_, ?_⟩
  · rw [balance_of_sql_update_balances updates _ _ 0 h0, zero_add]
  · intro d amount other hne
    rw [balance_of_sql_update_balance, if_neg (fun h => hne h.symm)]

/-- C10 on a new database: the first currency gets id `1`, and after the updates
`+10` to currency 1, `+7` to currency 2 and `-5` to currency 1 its balance is `5`. -/
theorem balance_is_sum_of_deltas_witness :
    balance_of (sql_update_balances (create_new_currency Db.created "Gems" "G" true).1
        [(10, 1), (7, 2), (-5, 1)]) 1 = some 5 :=
  (balance_is_sum_of_deltas Db.created "Gems" "G" [(10, 1), (7, 2), (-5, 1)]).2.2.1

/-! ## The order of the purchase checks and the Sprint scenario -/

/-- C11: when the picked item of an active event has stock `0`, `buy_item` answers
"item out of stock" and writes nothing, whatever the balance of the event's currency is,
so also when that balance is below the item's cost: the stock check comes first. -/
theorem buy_item_out_of_stock_first (db : Db) (e : events_row) (c : currency)
    (s : store_item) (rc_stock rc_balance : Bool)
    (hdb : schema_ok db)
    (he : e ∈ db.events) (hact : e.is_active = 1) (hcur : e.currency_id ≠ -1)
    (hc : c ∈ db.currency) (hce : c.currency_id = e.currency_id)
    (hs : s ∈ db.store) (hse : s.event_id = e.event_id)
    (hstock : s.stock = 0) :
    buy_item db e.event_id s.item_id rc_stock rc_balance = (db, .item_out_of_stock) := by
  rw [buy_item_of_rows hdb he hact hc hce hs hse hcur, hstock]
  rfl

/-- C11 at the sold-out Sprint database, where the stock is `0` and the balance `0` is
below the cost `5`: the answer is "item out of stock". -/
theorem buy_item_out_of_stock_first_witness :
    stock_of sprint_sold_out_db 1 1 = some 0 ∧
    balance_of sprint_sold_out_db 1 = some 0 ∧ (0 : Int) < 5 ∧
    buy_item sprint_sold_out_db 1 1 true true = (sprint_sold_out_db, .item_out_of_stock) :=
  ⟨by decide, by decide, by decide,
   buy_item_out_of_stock_first sprint_sold_out_db
    { event_id := 1, event_name := "Sprint", currency_id := 1, is_time_limited := 0,
      start_time := none, end_time := none, is_active := 1 }
    { currency_id := 1, currency_name := "Gems", symbol := "G", balance := 0 }
    { item_id := 1, item_description := "Potion", cost := 5, event_id := 1, stock := 0,
      category := "Boost" }
    true true (by decide) (by decide) rfl (by decide) (by decide) rfl (by decide) rfl rfl⟩

/-- C12: from a new database, `add_event` creates the currency (Gems, G) and the event
Sprint, not time-limited, with task 1 worth `10` and item 1 (cost `5`, stock `2`,
category Boost).  Completing task 1 makes the balance `10`; the first purchase of item 1
gives balance `5` and stock `1`; the second gives balance `0` and stock `0`; the third
is answered "item out of stock" and leaves balance `0` and stock `0`. -/
theorem sprint_scenario :
    add_event Db.created sprint_input true = (sprint_db, .added) ∧
    sprint_db.currency = [{ currency_id := 1, currency_name := "Gems", symbol := "G",
                            balance := 0 }] ∧
    sprint_db.events = [{ event_id := 1, event_name := "Sprint", currency_id := 1,
                          is_time_limited := 0, start_time := none, end_time := none,
                          is_active := 1 }] ∧
    sprint_db.tasks = [{ event_id := 1, task_id := 1, task_description := "Run",
                         currency_amount := 10, is_completed := 0 }] ∧
    sprint_db.store = [{ item_id := 1, item_description := "Potion", cost := 5,
                         event_id := 1, stock := 2, category := "Boost" }] ∧
    mark_task_done sprint_db 1 1 true true = (sprint_done_db, .happy_spending) ∧
    balance_of sprint_done_db 1 = some 10 ∧
    buy_item sprint_done_db 1 1 true true = (sprint_bought_once_db, .bought) ∧
    balance_of sprint_bought_once_db 1 = some 5 ∧
    stock_of sprint_bought_once_db 1 1 = some 1 ∧
    buy_item sprint_bought_once_db 1 1 true true = (sprint_sold_out_db, .bought) ∧
    balance_of sprint_sold_out_db 1 = some 0 ∧
    stock_of sprint_sold_out_db 1 1 = some 0 ∧
    buy_item sprint_sold_out_db 1 1 true true
      = (sprint_sold_out_db, .item_out_of_stock) := by
  decide

/-! ## Foreign keys, the listing and the menu -/

/-- With foreign keys enforced, `add_event` on a typed currency id that is neither `0`
nor the id of a currency row is refused at the event insert and writes nothing. -/
theorem add_event_dangling_refused {db : Db} (hfk : db.foreign_keys = true)
    (inp : add_event_input) (rc_currency : Bool) (hsome : db.currency ≠ [])
    (hchoice : inp.currency_choice ≠ 0)
    (hdangling : ∀ c ∈ db.currency, c.currency_id ≠ inp.currency_choice) :
    add_event db inp rc_currency = (db, .error_adding_event) := by
  have hlen : ¬ (sql_select_currency db).length = 0 := by
    intro h
    exact hsome (List.length_eq_zero.mp h)
  have hch : add_event_currency db inp rc_currency = (db, inp.currency_choice) := by
    unfold add_event_currency
    rw [if_neg hlen, if_neg hchoice]
  have hins : sql_insert_events db inp.event_name inp.currency_choice inp.is_time_limited
      (if inp.is_time_limited ≠ 0 then some inp.start_time else none)
      (if inp.is_time_limited ≠ 0 then some inp.end_time else none) 1 = none := by
    unfold sql_insert_events
    rw [if_pos]
    refine ⟨hfk, ?_⟩
    rintro ⟨c, hc, hid⟩
    exact hdangling c hc hid
  unfold add_event
  simp only [hch, hlen, hchoice, or_self, and_false, if_false, hins]

/-- C13 at its failing input: the Sprint database is stored in the file and the
program is started again, so `main` only opens it.  The typed currency id `7` is not
`0` and no currency row has it (the only id is `1`), yet `add_event` inserts the event
Ghost with `currency_id = 7`; on the connection that created the file the same input is
refused. -/
theorem add_event_dangling_currency_on_existing_file :
    (main_open (some sprint_db)).currency.map (fun c => c.currency_id) = [1] ∧
    dangling_input.currency_choice = 7 ∧
    (add_event (main_open (some sprint_db)) dangling_input true).2 = .added ∧
    (add_event (main_open (some sprint_db)) dangling_input true).1.events =
      sprint_db.events ++
        [{ event_id := 2, event_name := "Ghost", currency_id := 7, is_time_limited := 0,
           start_time := none, end_time := none, is_active := 1 }] ∧
    add_event sprint_db dangling_input true = (sprint_db, .error_adding_event) := by
  decide

/-- C14 at its failing input: with the two active events Sprint and Marathon, the tasks
of event 2 are Swim and Bike, yet the listing prints under event 2 the task of event 1,
because every iteration asks for the tasks of `events[0]`. -/
theorem list_events_and_tasks_repeats_first_event :
    (get_active_events two_events_db).map (fun e => e.event_id) = [1, 2] ∧
    (get_all_tasks_of_an_event two_events_db 1).map (fun t => t.task_description)
      = ["Run"] ∧
    (get_all_tasks_of_an_event two_events_db 2).map (fun t => t.task_description)
      = ["Swim", "Bike"] ∧
    (list_events_and_tasks two_events_db).map
        (fun l => (l.event.event_id, l.tasks.map (fun t => t.task_description)))
      = [(1, ["Run"]), (2, ["Run"])] := by
  decide

/-- A typed number outside `1 .. 6` is answered "invalid choice", runs no workflow, and
the loop goes on. -/
theorem menu_iteration_of_number_out_of_range (choice : Option Int) (n : Int)
    (h : n < 1 ∨ 6 < n) :
    menu_iteration choice (.number n) = (some n, .invalid_choice, true) := by
  have h1 : n ≠ 1 := by omega
  have h2 : n ≠ 2 := by omega
  have h3 : n ≠ 3 := by omega
  have h4 : n ≠ 4 := by omega
  have h5 : n ≠ 5 := by omega
  have h6 : n ≠ 6 := by omega
  simp [menu_iteration, scanf_choice, menu_switch, h1, h2, h3, h4, h5, h6]

/-- C18 at its failing input: the user picks `2` and, at the next prompt, types a line
that is not a number.  The failed `scanf` leaves `choice` at `2`, so the iteration runs
`mark_task_done` again instead of answering "invalid choice".  As the very first line,
such an input leaves `choice` unassigned. -/
theorem menu_iteration_not_a_number_repeats_choice :
    menu_iteration none (.number 2) = (some 2, .mark_task_done, true) ∧
    menu_iteration (some 2) .not_a_number = (some 2, .mark_task_done, true) ∧
    (menu_iteration (some 2) .not_a_number).2.1 ≠ .invalid_choice ∧
    menu_iteration none .not_a_number = (none, .indeterminate_choice, true) := by
  decide

/-! ## The not-found paths -/

theorem find_currency_id_of_not_active {db : Db} (hdb : schema_ok db) {chosen_event_id : Int}
    (h : ∀ e ∈ db.events, e.is_active = 1 → e.event_id ≠ chosen_event_id) :
    find_currency_id (get_active_events db) chosen_event_id = -1 := by
  have hre := hdb.2.2.2.2.2.1
  have hfind : (get_active_events db).find?
      (fun x => decide (x.event_id = chosen_event_id)) = none := by
    rw [List.find?_eq_none]
    intro x hx hpx
    unfold get_active_events sql_select_active_events at hx
    obtain ⟨r, hr, rfl⟩ := List.mem_map.mp hx
    obtain ⟨hr', hsel⟩ := List.mem_filter.mp hr
    have hid : r.event_id = chosen_event_id := by
      have := of_decide_eq_true hpx
      simpa [read_event, sqlite3_column_int, to_int_of_is_int (hre r hr').1] using this
    exact h r hr' (of_decide_eq_true hsel) hid
  unfold find_currency_id
  rw [hfind]

theorem find_currency_amount_of_not_listed {db : Db} (hdb : schema_ok db)
    {chosen_event_id chosen_task_id : Int}
    (h : ∀ t ∈ db.tasks, t.event_id = chosen_event_id → t.is_completed = 0 →
      t.task_id ≠ chosen_task_id) :
    find_currency_amount (get_incomplete_tasks_of_an_event db chosen_event_id)
      chosen_task_id = -1 := by
  have hrt := hdb.2.2.2.2.2.2.1
  have hfind : (get_incomplete_tasks_of_an_event db chosen_event_id).find?
      (fun x => decide (x.task_id = chosen_task_id)) = none := by
    rw [List.find?_eq_none]
    intro x hx hpx
    unfold get_incomplete_tasks_of_an_event sql_select_incomplete_tasks_of_an_event at hx
    obtain ⟨r, hr, rfl⟩ := List.mem_map.mp hx
    obtain ⟨hr', hsel⟩ := List.mem_filter.mp hr
    simp at hsel
    have hid : r.task_id = chosen_task_id := by
      have := of_decide_eq_true hpx
      simpa [read_task, sqlite3_column_int, to_int_of_is_int (hrt r hr').2.1] using this
    exact h r hr' hsel.2 hsel.1 hid
  unfold find_currency_amount
  rw [hfind]

/-- C19: `mark_task_done` returns on a not-found message and leaves the database as it
was (no task row and no balance changed) when the picked event id is the id of no
active event, or the picked event has no incomplete task, or the picked task id is the
id of no incomplete task of the picked event. -/
theorem mark_task_done_not_found_unchanged (db : Db) (chosen_event_id chosen_task_id : Int)
    (rc_completion rc_balance : Bool) (hdb : schema_ok db)
    (h : (∀ e ∈ db.events, e.is_active = 1 → e.event_id ≠ chosen_event_id) ∨
         (∀ t ∈ db.tasks, t.event_id = chosen_event_id → t.is_completed ≠ 0) ∨
         (∀ t ∈ db.tasks, t.event_id = chosen_event_id → t.is_completed = 0 →
            t.task_id ≠ chosen_task_id)) :
    (mark_task_done db chosen_event_id chosen_task_id rc_completion rc_balance).1 = db ∧
    ((mark_task_done db chosen_event_id chosen_task_id rc_completion rc_balance).2
        = .could_not_find_currency_id ∨
     (mark_task_done db chosen_event_id chosen_task_id rc_completion rc_balance).2
        = .no_tasks_left ∨
     (mark_task_done db chosen_event_id chosen_task_id rc_completion rc_balance).2
        = .could_not_find_currency_amount) := by
  have hamt : (∀ e ∈ db.events, e.is_active = 1 → e.event_id ≠ chosen_event_id) ∨
      find_currency_amount (get_incomplete_tasks_of_an_event db chosen_event_id)
        chosen_task_id = -1 := by
    rcases h with h | h | h
    · exact Or.inl h
    · exact Or.inr (find_currency_amount_of_not_listed hdb
        (fun t ht hev hinc _ => h t ht hev hinc))
    · exact Or.inr (find_currency_amount_of_not_listed hdb h)
  unfold mark_task_done
  simp only
  rcases hamt with h | h
  · rw [if_pos (find_currency_id_of_not_active hdb h)]
    exact ⟨rfl, Or.inl rfl⟩
  · split_ifs with h1 h2
    · exact ⟨rfl, Or.inl rfl⟩
    · exact ⟨rfl, Or.inr (Or.inl rfl)⟩
    · exact ⟨rfl, Or.inr (Or.inr rfl)⟩

/-- C19 at the Sprint database: event 9 is not listed, and task 5 is no task of
event 1; both picks leave the database as it was. -/
theorem mark_task_done_not_found_unchanged_witness :
    (mark_task_done sprint_db 9 1 true true).1 = sprint_db ∧
    (mark_task_done sprint_db 1 5 true true).1 = sprint_db :=
  ⟨(mark_task_done_not_found_unchanged sprint_db 9 1 true true (by decide)
      (Or.inl (by decide))).1,
   (mark_task_done_not_found_unchanged sprint_db 1 5 true true (by decide)
      (Or.inr (Or.inr (by decide)))).1⟩

/-- C20: `buy_item` returns on a not-found message and leaves the database as it was
(no stock and no balance changed) when the picked event id is the id of no active
event, or the picked item id is the id of no store row of the picked event, be it the
id of an item of another event. -/
theorem buy_item_not_found_unchanged (db : Db) (chosen_event_id chosen_item_id : Int)
    (rc_stock rc_balance : Bool) (hdb : schema_ok db)
    (h : (∀ e ∈ db.events, e.is_active = 1 → e.event_id ≠ chosen_event_id) ∨
         (∀ s ∈ db.store, s.event_id = chosen_event_id → s.item_id ≠ chosen_item_id)) :
    (buy_item db chosen_event_id chosen_item_id rc_stock rc_balance).1 = db ∧
    ((buy_item db chosen_event_id chosen_item_id rc_stock rc_balance).2
        = .could_not_find_currency_id ∨
     (buy_item db chosen_event_id chosen_item_id rc_stock rc_balance).2
        = .could_not_find_currency_index ∨
     (buy_item db chosen_event_id chosen_item_id rc_stock rc_balance).2
        = .could_not_find_item_index) := by
  unfold buy_item
  simp only
  rcases h with h | h
  · rw [if_pos (find_currency_id_of_not_active hdb h)]
    exact ⟨rfl, Or.inl rfl⟩
  · have hrs := hdb.2.2.2.2.2.2.2
    have hfind : (get_store_items_by_event db chosen_event_id).find?
        (fun s => decide (chosen_item_id = s.item_id)) = none := by
      rw [List.find?_eq_none]
      intro x hx hpx
      unfold get_store_items_by_event sql_select_store_items_of_an_event at hx
      obtain ⟨r, hr, rfl⟩ := List.mem_map.mp hx
      obtain ⟨hr', hsel⟩ := List.mem_filter.mp hr
      have hid : chosen_item_id = r.item_id := by
        have := of_decide_eq_true hpx
        simpa [read_store_item, sqlite3_column_int,
          to_int_of_is_int (hrs r hr').2.1] using this
      exact h r hr' (of_decide_eq_true hsel) hid.symm
    by_cases h1 : find_currency_id (get_active_events db) chosen_event_id = -1
    · rw [if_pos h1]
      exact ⟨rfl, Or.inl rfl⟩
    · rw [if_neg h1]
      cases hcur : (get_currencies db).find? (fun c => decide (c.currency_id =
          find_currency_id (get_active_events db) chosen_event_id)) with
      | none => exact ⟨rfl, Or.inr (Or.inl rfl)⟩
      | some cur => simp [hfind]

/-- C20 at the database with two events: event 9 is not listed, and item 2 is an item
of event 2 only; picking it for event 1 leaves the database as it was. -/
theorem buy_item_not_found_unchanged_witness :
    stock_of two_events_db 2 2 = some 1 ∧
    (buy_item two_events_db 9 1 true true).1 = two_events_db ∧
    (buy_item two_events_db 1 2 true true).1 = two_events_db :=
  ⟨by decide,
   (buy_item_not_found_unchanged two_events_db 9 1 true true (by decide)
      (Or.inl (by decide))).1,
   (buy_item_not_found_unchanged two_events_db 1 2 true true (by decide)
      (Or.inr (by decide))).1⟩

/-! ## Adding an event -/

theorem add_event_currency_keeps (db : Db) (inp : add_event_input) (rc_currency : Bool) :
    (add_event_currency db inp rc_currency).1.events = db.events ∧
    (add_event_currency db inp rc_currency).1.tasks = db.tasks ∧
    (add_event_currency db inp rc_currency).1.store = db.store := by
  unfold add_event_currency create_new_currency sql_insert_currency
  split_ifs <;> exact ⟨rfl, rfl, rfl⟩

theorem sql_insert_events_eq_some {db db1 : Db} {event_name : String}
    {currency_id is_time_limited : Int} {start_time end_time : Option Int} {is_active : Int}
    (h : sql_insert_events db event_name currency_id is_time_limited start_time end_time
      is_active = some db1) :
    db1.events = db.events ++
      [{ event_id := next_rowid (db.events.map (fun e => e.event_id)),
         event_name := event_name, currency_id := currency_id,
         is_time_limited := is_time_limited, start_time := start_time,
         end_time := end_time, is_active := is_active }] ∧
    db1.tasks = db.tasks ∧ db1.store = db.store := by
  unfold sql_insert_events at h
  split_ifs at h
  cases h
  exact ⟨rfl, rfl, rfl⟩

/-- The task loop appends task rows only; when every insert succeeds they are the rows
of iterations `i, ..., i + n - 1`, in that order. -/
theorem add_event_tasks_spec (event_id : Int) (tasks : Nat → task_input) :
    ∀ (n i : Nat) (db : Db),
      (add_event_tasks event_id tasks i n db).1.events = db.events ∧
      (add_event_tasks event_id tasks i n db).1.store = db.store ∧
      ((add_event_tasks event_id tasks i n db).2 = none →
        (add_event_tasks event_id tasks i n db).1.tasks =
          db.tasks ++ (List.range n).map (fun k => new_task event_id tasks (i + k))) := by
  intro n
  induction n with
  | zero => intro i db; simp [add_event_tasks]
  | succ n ih =>
    intro i db
    unfold add_event_tasks
    cases hins : sql_insert_tasks db (new_task event_id tasks i) with
    | none => simp
    | some db1 =>
      have h1 : db1 = { db with tasks := db.tasks ++ [new_task event_id tasks i] } := by
        unfold sql_insert_tasks at hins
        split_ifs at hins
        cases hins
        rfl
      obtain ⟨he, hs, ht⟩ := ih (i + 1) db1
      simp only
      refine ⟨by rw [he, h1], by rw [hs, h1], ?_⟩
      intro hnone
      rw [ht hnone, h1, List.range_succ_eq_map, List.map_cons, List.map_map]
      simp only [List.append_assoc, List.singleton_append, Nat.add_zero]
      congr 2
      apply List.map_congr_left
      intro k _
      simp only [Function.comp, Nat.succ_eq_add_one]
      congr 1
      omega

/-- The store loop appends store rows only; when every insert succeeds they are the
rows of iterations `i, ..., i + n - 1`, in that order. -/
theorem add_event_items_spec (event_id : Int) (items : Nat → item_input) :
    ∀ (n i : Nat) (db : Db),
      (add_event_items event_id items i n db).1.events = db.events ∧
      (add_event_items event_id items i n db).1.tasks = db.tasks ∧
      ((add_event_items event_id items i n db).2 = none →
        (add_event_items event_id items i n db).1.store =
          db.store ++ (List.range n).map (fun k => new_store_item event_id items (i + k))) := by
  intro n
  induction n with
  | zero => intro i db; simp [add_event_items]
  | succ n ih =>
    intro i db
    unfold add_event_items
    cases hins : sql_insert_store db (new_store_item event_id items i) with
    | none => simp
    | some db1 =>
      have h1 : db1 = { db with store := db.store ++ [new_store_item event_id items i] } := by
        unfold sql_insert_store at hins
        split_ifs at hins
        cases hins
        rfl
      obtain ⟨he, ht, hs⟩ := ih (i + 1) db1
      simp only
      refine ⟨by rw [he, h1], by rw [ht, h1], ?_⟩
      intro hnone
      rw [hs hnone, h1, List.range_succ_eq_map, List.map_cons, List.map_map]
      simp only [List.append_assoc, List.singleton_append, Nat.add_zero]
      congr 2
      apply List.map_congr_left
      intro k _
      simp only [Function.comp, Nat.succ_eq_add_one]
      congr 1
      omega

/-- Function `add_event`, table by table.  Either it returns before an event row is
written and the events, tasks and store tables are as they were; or exactly the row
`new_event_row` is appended to the events, and when it returns at its end the tasks of
iterations `1 .. num_tasks` and the store rows of iterations `1 .. num_items` are
appended, in that order, under the id held in `new_event.event_id`. -/
theorem add_event_spec (db : Db) (inp : add_event_input) (rc_currency : Bool) :
    (((add_event db inp rc_currency).2 = .failed_to_create_new_currency ∨
      (add_event db inp rc_currency).2 = .error_adding_event) ∧
     (add_event db inp rc_currency).1.events = db.events ∧
     (add_event db inp rc_currency).1.tasks = db.tasks ∧
     (add_event db inp rc_currency).1.store = db.store) ∨
    ((add_event db inp rc_currency).2 ≠ .failed_to_create_new_currency ∧
     (add_event db inp rc_currency).2 ≠ .error_adding_event ∧
     (add_event db inp rc_currency).1.events = db.events ++
        [new_event_row db inp (add_event_currency db inp rc_currency).2] ∧
     ((add_event db inp rc_currency).2 = .added →
        (add_event db inp rc_currency).1.tasks = db.tasks ++
          (List.range inp.num_tasks.toNat).map
            (fun k => new_task (new_event_id db) inp.tasks (1 + k)) ∧
        (add_event db inp rc_currency).1.store = db.store ++
          (List.range inp.num_items.toNat).map
            (fun k => new_store_item (new_event_id db) inp.items (1 + k)))) := by
  obtain ⟨hce, hct, hcs⟩ := add_event_currency_keeps db inp rc_currency
  unfold add_event
  simp only [hce]
  by_cases hfail : (add_event_currency db inp rc_currency).2 = -1 ∧
      ((sql_select_currency db).length = 0 ∨ inp.currency_choice = 0)
  · rw [if_pos hfail]
    exact Or.inl ⟨Or.inl rfl, hce, hct, hcs⟩
  · rw [if_neg hfail]
    cases hins : sql_insert_events (add_event_currency db inp rc_currency).1 inp.event_name
        (add_event_currency db inp rc_currency).2 inp.is_time_limited
        (if inp.is_time_limited ≠ 0 then some inp.start_time else none)
        (if inp.is_time_limited ≠ 0 then some inp.end_time else none) 1 with
    | none => exact Or.inl ⟨Or.inr rfl, hce, hct, hcs⟩
    | some db1 =>
      obtain ⟨h1e, h1t, h1s⟩ := sql_insert_events_eq_some hins
      rw [hce] at h1e
      rw [hct] at h1t
      rw [hcs] at h1s
      have hT := add_event_tasks_spec (new_event_id db) inp.tasks inp.num_tasks.toNat 1 db1
      right
      simp only
      change _ ∧ _ ∧ _ ∧ _
      unfold new_event_id at hT ⊢
      rcases hres : add_event_tasks
          (to_int (next_rowid (db.events.map (fun e => e.event_id))))
          inp.tasks 1 inp.num_tasks.toNat db1 with ⟨db2, r2⟩
      rw [hres] at hT ⊢
      obtain ⟨hTe, hTs, hTt⟩ := hT
      simp only at hTe hTs hTt
      cases r2 with
      | some i =>
        refine ⟨by simp, by simp, ?_, by simp⟩
        simp only
        rw [hTe, h1e]
        rfl
      | none =>
        simp only
        by_cases hmax : inp.num_tasks = INT_MAX
        · rw [if_pos hmax]
          refine ⟨by simp, by simp, ?_, by simp⟩
          simp only
          rw [hTe, h1e]
          rfl
        · rw [if_neg hmax]
          have hI := add_event_items_spec
            (to_int (next_rowid (db.events.map (fun e => e.event_id))))
            inp.items inp.num_items.toNat 1 db2
          rcases hres2 : add_event_items
              (to_int (next_rowid (db.events.map (fun e => e.event_id))))
              inp.items 1 inp.num_items.toNat db2 with ⟨db3, r3⟩
          rw [hres2] at hI ⊢
          obtain ⟨hIe, hIt, hIs⟩ := hI
          simp only at hIe hIt hIs
          have hev : db3.events = db.events ++
              [new_event_row db inp (add_event_currency db inp rc_currency).2] := by
            rw [hIe, hTe, h1e]
            rfl
          cases r3 with
          | some i => exact ⟨by simp, by simp, hev, by simp⟩
          | none =>
            simp only
            by_cases hmax2 : inp.num_items = INT_MAX
            · rw [if_pos hmax2]
              exact ⟨by simp, by simp, hev, by simp⟩
            · rw [if_neg hmax2]
              refine ⟨by simp, by simp, hev, fun _ => ⟨?_, ?_⟩⟩
              · show db3.tasks = _
                rw [hIt, hTt rfl, h1t]
              · show db3.store = _
                rw [hIs rfl, hTs, h1s]

/-- C15: whenever `add_event` inserts its event (it does not return on the failed
currency or the refused event insert), exactly one event row is appended; it has
`is_active = 1`, and its `start_time` and `end_time` are both NULL when the typed
`is_time_limited` is `0` and both present, holding the two `mktime` values, when it is
any other number. -/
theorem add_event_event_row (db : Db) (inp : add_event_input) (rc_currency : Bool)
    (h1 : (add_event db inp rc_currency).2 ≠ .failed_to_create_new_currency)
    (h2 : (add_event db inp rc_currency).2 ≠ .error_adding_event) :
    ∃ row, (add_event db inp rc_currency).1.events = db.events ++ [row] ∧
      row.event_name = inp.event_name ∧
      row.is_time_limited = inp.is_time_limited ∧
      row.is_active = 1 ∧
      (inp.is_time_limited = 0 → row.start_time = none ∧ row.end_time = none) ∧
      (inp.is_time_limited ≠ 0 →
        row.start_time = some inp.start_time ∧ row.end_time = some inp.end_time) := by
  rcases add_event_spec db inp rc_currency with ⟨hf | hf, _⟩ | ⟨_, _, hev, _⟩
  · exact absurd hf h1
  · exact absurd hf h2
  · refine ⟨_, hev, rfl, rfl, rfl, ?_, ?_⟩
    · intro h0
      simp [new_event_row, h0]
    · intro h0
      simp [new_event_row, h0]

/-- C15 at the second event of `two_events_db`, typed as time-limited: the appended row
is active and holds both timestamps. -/
theorem add_event_event_row_witness :
    ∃ row, (add_event sprint_db marathon_input true).1.events = sprint_db.events ++ [row] ∧
      row.event_name = marathon_input.event_name ∧
      row.is_time_limited = marathon_input.is_time_limited ∧
      row.is_active = 1 ∧
      (marathon_input.is_time_limited = 0 → row.start_time = none ∧ row.end_time = none) ∧
      (marathon_input.is_time_limited ≠ 0 →
        row.start_time = some marathon_input.start_time ∧
        row.end_time = some marathon_input.end_time) :=
  add_event_event_row sprint_db marathon_input true (by decide) (by decide)

/-- On the values that the reads deliver: when `add_event` returns at its end with the
counts `num_tasks` and `num_items`, the tasks table has gained exactly `max(num_tasks, 0)` rows, with
`task_id` `1, 2, ...` in that order, `is_completed = 0` and the description and amount
of their iteration, and the store table exactly `max(num_items, 0)` rows, with `item_id`
`1, 2, ...` in that order and the description, cost, stock and category of their
iteration; all carry the id of the one event row that was appended. -/
theorem add_event_rows_in_order (db : Db) (inp : add_event_input) (rc_currency : Bool)
    (h : (add_event db inp rc_currency).2 = .added) :
    (add_event db inp rc_currency).1.tasks = db.tasks ++
      (List.range inp.num_tasks.toNat).map
        (fun k => new_task (new_event_id db) inp.tasks (k + 1)) ∧
    (add_event db inp rc_currency).1.store = db.store ++
      (List.range inp.num_items.toNat).map
        (fun k => new_store_item (new_event_id db) inp.items (k + 1)) ∧
    (inp.num_tasks.toNat : Int) = max inp.num_tasks 0 ∧
    (inp.num_items.toNat : Int) = max inp.num_items 0 ∧
    ∃ row, (add_event db inp rc_currency).1.events = db.events ++ [row] ∧
      (is_int row.event_id → row.event_id = new_event_id db) := by
  rcases add_event_spec db inp rc_currency with ⟨hf | hf, _⟩ | ⟨_, _, hev, hrows⟩
  · rw [h] at hf
    cases hf
  · rw [h] at hf
    cases hf
  · obtain ⟨ht, hs⟩ := hrows h
    have e1 : (fun k => new_task (new_event_id db) inp.tasks (1 + k))
        = (fun k => new_task (new_event_id db) inp.tasks (k + 1)) := by
      funext k
      rw [Nat.add_comm]
    have e2 : (fun k => new_store_item (new_event_id db) inp.items (1 + k))
        = (fun k => new_store_item (new_event_id db) inp.items (k + 1)) := by
      funext k
      rw [Nat.add_comm]
    rw [e1] at ht
    rw [e2] at hs
    refine ⟨ht, hs, Int.toNat_eq_max _, Int.toNat_eq_max _, _, hev, ?_⟩
    intro hint
    exact (to_int_of_is_int hint).symm

/-- At the second event of `two_events_db`, read with two tasks and two items. -/
theorem add_event_rows_in_order_witness :
    two_events_db.tasks = sprint_db.tasks ++
      [{ event_id := 2, task_id := 1, task_description := "Swim", currency_amount := 20,
         is_completed := 0 },
       { event_id := 2, task_id := 2, task_description := "Bike", currency_amount := 30,
         is_completed := 0 }] ∧
    two_events_db.store = sprint_db.store ++
      [{ item_id := 1, item_description := "Towel", cost := 4, event_id := 2, stock := 3,
         category := "Gear" },
       { item_id := 2, item_description := "Helmet", cost := 9, event_id := 2, stock := 1,
         category := "Gear" }] :=
  have h := add_event_rows_in_order sprint_db marathon_input true (by decide)
  ⟨h.1, h.2.1⟩

/-! ### The rows of `add_event` and the lines typed -/

theorem fgets_of_fits {size : Nat} {l : List Char} (h : fits size l = true) (rest : stdin) :
    fgets size (l :: rest) = (l, rest) := by
  unfold fits at h
  simp only [fgets]
  rw [if_pos (of_decide_eq_true h)]

theorem scanf_d_flush_input_buffer_of_is_number {l : List Char} (h : is_number l = true)
    (rest : stdin) :
    scanf_d_flush_input_buffer (l :: rest) = (some (number_of l), rest) := by
  unfold is_number at h
  cases hv : typed_number l with
  | none => rw [hv] at h; cases h
  | some v =>
    rw [hv] at h
    have hint : is_int v := of_decide_eq_true h
    have hblank : ¬ (l.all isspace = true) := by
      intro hall
      have hnil : l.dropWhile isspace = [] :=
        List.dropWhile_eq_nil_iff.mpr (List.all_eq_true.mp hall)
      unfold typed_number at hv
      rw [hnil] at hv
      cases hv
    unfold scanf_d_flush_input_buffer
    rw [if_neg hblank]
    unfold scanf_d number_of
    rw [hv]
    have hclamp : max LONG_MIN (min LONG_MAX v) = v := by
      unfold is_int INT_MIN INT_MAX at hint
      unfold LONG_MIN LONG_MAX
      omega
    simp only [Option.map_some', Option.getD_some, hclamp, to_int_of_is_int hint]

/-- The reads of the task loop deliver the lines typed when every description fits
its buffer and every amount is a number. -/
theorem add_event_read_tasks_of_typed (unassigned : add_event_variable → Int)
    (rest : stdin) :
    ∀ (tasks : List typed_task) (i : Nat),
      (∀ t ∈ tasks, fits 256 t.task_description = true ∧
        is_number t.currency_amount = true) →
      add_event_read_tasks unassigned i tasks.length (typed_task_lines tasks ++ rest) =
        (tasks.map (fun t =>
          ({ task_description := String.mk t.task_description,
             currency_amount := number_of t.currency_amount } : task_input)), rest) := by
  intro tasks
  induction tasks with
  | nil => intro i _; rfl
  | cons t ts ih =>
    intro i h
    obtain ⟨hd, ha⟩ := h t (List.mem_cons_self _ _)
    have ih' := ih (i + 1) (fun x hx => h x (List.mem_cons_of_mem _ hx))
    simp only [List.length_cons, typed_task_lines, List.cons_append, add_event_read_tasks,
      fgets_of_fits hd, scanf_d_flush_input_buffer_of_is_number ha, ih', List.map_cons,
      Option.getD_some]

/-- The reads of the store loop deliver the lines typed when every description and
category fits its buffer and every cost and stock is a number. -/
theorem add_event_read_items_of_typed (unassigned : add_event_variable → Int)
    (rest : stdin) :
    ∀ (items : List typed_item) (i : Nat),
      (∀ t ∈ items, fits 256 t.item_description = true ∧ is_number t.cost = true ∧
        is_number t.stock = true ∧ fits 50 t.category = true) →
      add_event_read_items unassigned i items.length (typed_item_lines items ++ rest) =
        (items.map (fun t =>
          ({ item_description := String.mk t.item_description,
             cost := number_of t.cost, stock := number_of t.stock,
             category := String.mk t.category } : item_input)), rest) := by
  intro items
  induction items with
  | nil => intro i _; rfl
  | cons t ts ih =>
    intro i h
    obtain ⟨hd, hc, hk, hg⟩ := h t (List.mem_cons_self _ _)
    have ih' := ih (i + 1) (fun x hx => h x (List.mem_cons_of_mem _ hx))
    simp only [List.length_cons, typed_item_lines, List.cons_append, add_event_read_items,
      fgets_of_fits hd, scanf_d_flush_input_buffer_of_is_number hc,
      scanf_d_flush_input_buffer_of_is_number hk, fgets_of_fits hg, ih', List.map_cons,
      Option.getD_some]

/-- The task rows of the iterations `1 .. n`, filled from what the task loop read of
the lines typed, are the rows of the typed tasks numbered `1, 2, ...` in order. -/
theorem new_task_rows_of_typed (event_id : Int) (tasks : List typed_task) :
    (List.range tasks.length).map (fun k => new_task event_id
        (fun i => (tasks.map (fun t =>
          ({ task_description := String.mk t.task_description,
             currency_amount := number_of t.currency_amount } : task_input))).getD (i - 1)
          { task_description := "", currency_amount := 0 }) (k + 1))
      = (tasks.enumFrom 1).map (fun p => typed_task.row event_id p.1 p.2) := by
  apply List.ext_getElem
  · simp
  · intro k h1 h2
    have hk : k < tasks.length := by simpa using h1
    simp only [List.getElem_map, List.getElem_range, List.getElem_enumFrom, new_task,
      typed_task.row, Nat.add_sub_cancel]
    rw [List.getD_eq_getElem _ _ (by simpa using hk)]
    simp [Nat.add_comm]

/-- The store rows of the iterations `1 .. n`, filled from what the store loop read of
the lines typed, are the rows of the typed items numbered `1, 2, ...` in order. -/
theorem new_store_item_rows_of_typed (event_id : Int) (items : List typed_item) :
    (List.range items.length).map (fun k => new_store_item event_id
        (fun i => (items.map (fun t =>
          ({ item_description := String.mk t.item_description,
             cost := number_of t.cost, stock := number_of t.stock,
             category := String.mk t.category } : item_input))).getD (i - 1)
          { item_description := "", cost := 0, stock := 0, category := "" }) (k + 1))
      = (items.enumFrom 1).map (fun p => typed_item.row event_id p.1 p.2) := by
  apply List.ext_getElem
  · simp
  · intro k h1 h2
    have hk : k < items.length := by simpa using h1
    simp only [List.getElem_map, List.getElem_range, List.getElem_enumFrom, new_store_item,
      typed_item.row, Nat.add_sub_cancel]
    rw [List.getD_eq_getElem _ _ (by simpa using hk)]
    simp [Nat.add_comm]

/-- What `add_event_reads` delivers when the lines left for the prompt of the number of
tasks and for all that follows are the two counts and the lines typed for as many tasks
and items, each line read whole by its own prompt. -/
theorem add_event_reads_of_typed (db : Db)
    (strptime_mktime : List Char → List Char → Int × Int)
    (unassigned : add_event_variable → Int) (s : stdin)
    (num_tasks num_items : List Char) (tasks : List typed_task) (items : List typed_item)
    (rest : stdin)
    (hs : (add_event_read_event db strptime_mktime unassigned s).2 =
      num_tasks :: (typed_task_lines tasks ++ num_items :: (typed_item_lines items ++ rest)))
    (hN : is_number num_tasks = true) (hM : is_number num_items = true)
    (hNt : tasks.length = (number_of num_tasks).toNat)
    (hMi : items.length = (number_of num_items).toNat)
    (htasks : ∀ t ∈ tasks, fits 256 t.task_description = true ∧
      is_number t.currency_amount = true)
    (hitems : ∀ t ∈ items, fits 256 t.item_description = true ∧ is_number t.cost = true ∧
      is_number t.stock = true ∧ fits 50 t.category = true) :
    add_event_reads db strptime_mktime unassigned s =
      { (add_event_read_event db strptime_mktime unassigned s).1 with
        num_tasks := number_of num_tasks,
        tasks := fun i => (tasks.map (fun t =>
          ({ task_description := String.mk t.task_description,
             currency_amount := number_of t.currency_amount } : task_input))).getD (i - 1)
          { task_description := "", currency_amount := 0 },
        num_items := number_of num_items,
        items := fun i => (items.map (fun t =>
          ({ item_description := String.mk t.item_description,
             cost := number_of t.cost, stock := number_of t.stock,
             category := String.mk t.category } : item_input))).getD (i - 1)
          { item_description := "", cost := 0, stock := 0, category := "" } } := by
  unfold add_event_reads
  simp only [hs, scanf_d_flush_input_buffer_of_is_number hN, Option.getD_some, ← hNt,
    add_event_read_tasks_of_typed unassigned _ tasks 1 htasks,
    scanf_d_flush_input_buffer_of_is_number hM, ← hMi,
    add_event_read_items_of_typed unassigned _ items 1 hitems]

/-- C16, the counterexample: on a new database the lines `fair_stdin` are typed, with
the counts `0` and `2` and, for the two items, the lines of `fair_items`.  The category
typed for item 1 has 61 characters; `fgets` takes 49 of them and the prompt for the
description of item 2 reads the remaining `ground, free`.  The line `Poster`, typed as
that description, meets the `scanf` for the cost, which assigns nothing; the typed cost
`2` is read as the stock and the typed stock `7` as the category.  `add_event` returns
at its end, and the two store rows are not the rows with the cost, stock and category as
entered: item 2 has stock `2` and category `7` where `7` and `Paper` were entered. -/
theorem add_event_from_stdin_cuts_long_category :
    (add_event_from_stdin Db.created epoch_times zero_unassigned fair_stdin true).2
      = .added ∧
    (add_event_from_stdin Db.created epoch_times zero_unassigned fair_stdin true).1.store.map
        (fun r => (r.item_id, r.item_description, r.stock, r.category)) =
      [(1, "Flyer", 5, "Printed matter handed out at the gate of the fair"),
       (2, "ground, free", 2, "7")] ∧
    (fair_items.enumFrom 1).map (fun p =>
        ((typed_item.row 1 p.1 p.2).item_id, (typed_item.row 1 p.1 p.2).item_description,
         (typed_item.row 1 p.1 p.2).stock, (typed_item.row 1 p.1 p.2).category)) =
      [(1, "Flyer", 5, "Printed matter handed out at the gate of the fairground, free"),
       (2, "Poster", 7, "Paper")] ∧
    (add_event_from_stdin Db.created epoch_times zero_unassigned fair_stdin true).1.store ≠
      Db.created.store ++
        (fair_items.enumFrom 1).map
          (fun p => typed_item.row (new_event_id Db.created) p.1 p.2) := by
  decide

/-- C16 as amended: let the lines left for the prompt of the number of tasks and for
all that follows be a line with the number `N`, the lines typed for `max(N,0)` tasks, a
line with the number `M` and the lines typed for `max(M,0)` store items, where every
number line starts with a number in `int` range, every description has at most 254
characters and every category at most 48, so that every prompt reads, whole, the line
typed for it.  When `add_event` returns at its end, the tasks table has gained exactly
one row for each typed task, with `task_id` `1, 2, ...` in that order,
`is_completed = 0` and the description and amount as typed, and the store table exactly
one row for each typed item, with `item_id` `1, 2, ...` in that order and the
description, cost, stock and category as typed; all carry the id of the one event row
that was appended. -/
theorem add_event_from_stdin_rows_as_typed (db : Db)
    (strptime_mktime : List Char → List Char → Int × Int)
    (unassigned : add_event_variable → Int) (s : stdin) (rc_currency : Bool)
    (num_tasks num_items : List Char) (tasks : List typed_task) (items : List typed_item)
    (rest : stdin)
    (hs : (add_event_read_event db strptime_mktime unassigned s).2 =
      num_tasks :: (typed_task_lines tasks ++ num_items :: (typed_item_lines items ++ rest)))
    (hN : is_number num_tasks = true) (hM : is_number num_items = true)
    (hNt : tasks.length = (number_of num_tasks).toNat)
    (hMi : items.length = (number_of num_items).toNat)
    (htasks : ∀ t ∈ tasks, fits 256 t.task_description = true ∧
      is_number t.currency_amount = true)
    (hitems : ∀ t ∈ items, fits 256 t.item_description = true ∧ is_number t.cost = true ∧
      is_number t.stock = true ∧ fits 50 t.category = true)
    (h : (add_event_from_stdin db strptime_mktime unassigned s rc_currency).2 = .added) :
    (add_event_from_stdin db strptime_mktime unassigned s rc_currency).1.tasks =
      db.tasks ++ (tasks.enumFrom 1).map (fun p => typed_task.row (new_event_id db) p.1 p.2) ∧
    (add_event_from_stdin db strptime_mktime unassigned s rc_currency).1.store =
      db.store ++ (items.enumFrom 1).map (fun p => typed_item.row (new_event_id db) p.1 p.2) ∧
    (tasks.length : Int) = max (number_of num_tasks) 0 ∧
    (items.length : Int) = max (number_of num_items) 0 ∧
    ∃ row, (add_event_from_stdin db strptime_mktime unassigned s rc_currency).1.events =
        db.events ++ [row] ∧
      (is_int row.event_id → row.event_id = new_event_id db) := by
  have hinp := add_event_reads_of_typed db strptime_mktime unassigned s num_tasks num_items
    tasks items rest hs hN hM hNt hMi htasks hitems
  unfold add_event_from_stdin at h ⊢
  rw [hinp] at h ⊢
  obtain ⟨ht, hst, hn, hm, hrow⟩ := add_event_rows_in_order db _ rc_currency h
  simp only at ht hst hn hm
  rw [← hNt] at ht hn
  rw [← hMi] at hst hm
  rw [new_task_rows_of_typed] at ht
  rw [new_store_item_rows_of_typed] at hst
  exact ⟨ht, hst, hn, hm, hrow⟩

/-- C16 as amended, at the lines `gala_stdin` typed on a new database: one task and two
items, every line read by its own prompt. -/
theorem add_event_from_stdin_rows_as_typed_witness :
    (add_event_from_stdin Db.created epoch_times zero_unassigned gala_stdin true).1.tasks =
      [{ event_id := 1, task_id := 1, task_description := "Sing", currency_amount := 10,
         is_completed := 0 }] ∧
    (add_event_from_stdin Db.created epoch_times zero_unassigned gala_stdin true).1.store =
      [{ item_id := 1, item_description := "Mask", cost := 4, event_id := 1, stock := 3,
         category := "Costume" },
       { item_id := 2, item_description := "Wig", cost := 6, event_id := 1, stock := -1,
         category := "Costume" }] :=
  have h := add_event_from_stdin_rows_as_typed Db.created epoch_times zero_unassigned
    gala_stdin true "1".toList "2".toList gala_tasks gala_items [] (by decide) (by decide)
    (by decide) (by decide) (by decide) (by decide) (by decide) (by decide)
  ⟨h.1, h.2.1⟩

/-- C17: `get_active_events` returns exactly the event rows with `is_active = 1` of
any database `d`: every struct it returns is read from such a row, and every such row
is returned.  After two `add_event` calls that return at their end, two event rows with
different ids have been appended, and both are in its result. -/
theorem get_active_events_exact (d db : Db) (inp1 inp2 : add_event_input)
    (rc1 rc2 : Bool)
    (h1 : (add_event db inp1 rc1).2 = .added)
    (h2 : (add_event (add_event db inp1 rc1).1 inp2 rc2).2 = .added) :
    (∀ x ∈ get_active_events d, ∃ r ∈ d.events, r.is_active = 1 ∧ x = read_event r) ∧
    (∀ r ∈ d.events, r.is_active = 1 → read_event r ∈ get_active_events d) ∧
    ∃ e1 e2,
      (add_event (add_event db inp1 rc1).1 inp2 rc2).1.events = db.events ++ [e1, e2] ∧
      e1.event_name = inp1.event_name ∧ e2.event_name = inp2.event_name ∧
      e1.event_id ≠ e2.event_id ∧
      read_event e1 ∈ get_active_events (add_event (add_event db inp1 rc1).1 inp2 rc2).1 ∧
      read_event e2 ∈ get_active_events (add_event (add_event db inp1 rc1).1 inp2 rc2).1 := by
  have hmem : ∀ (d : Db) (r : events_row), r ∈ d.events → r.is_active = 1 →
      read_event r ∈ get_active_events d := by
    intro d r hr hact
    unfold get_active_events sql_select_active_events
    exact List.mem_map.mpr ⟨r, List.mem_filter.mpr ⟨hr, by simp [hact]⟩, rfl⟩
  refine ⟨?_, hmem d, ?_⟩
  · intro x hx
    unfold get_active_events sql_select_active_events at hx
    obtain ⟨r, hr, rfl⟩ := List.mem_map.mp hx
    obtain ⟨hr', hsel⟩ := List.mem_filter.mp hr
    exact ⟨r, hr', of_decide_eq_true hsel, rfl⟩
  · rcases add_event_spec db inp1 rc1 with ⟨hf | hf, _⟩ | ⟨_, _, hev1, _⟩
    · rw [h1] at hf
      cases hf
    · rw [h1] at hf
      cases hf
    · rcases add_event_spec (add_event db inp1 rc1).1 inp2 rc2 with
        ⟨hf | hf, _⟩ | ⟨_, _, hev2, _⟩
      · rw [h2] at hf
        cases hf
      · rw [h2] at hf
        cases hf
      · have hall : (add_event (add_event db inp1 rc1).1 inp2 rc2).1.events =
            db.events ++
              [new_event_row db inp1 (add_event_currency db inp1 rc1).2,
               new_event_row (add_event db inp1 rc1).1 inp2
                 (add_event_currency (add_event db inp1 rc1).1 inp2 rc2).2] := by
          rw [hev2, hev1, List.append_assoc]
          rfl
        refine ⟨_, _, hall, rfl, rfl, ?_, ?_, ?_⟩
        · intro heq
          have hmem1 : (new_event_row db inp1 (add_event_currency db inp1 rc1).2).event_id ∈
              (add_event db inp1 rc1).1.events.map (fun e => e.event_id) := by
            rw [hev1]
            simp
          rw [heq] at hmem1
          exact next_rowid_not_mem _ hmem1
        · apply hmem
          · rw [hall]
            simp
          · rfl
        · apply hmem
          · rw [hall]
            simp
          · rfl

/-- C17 at `two_events_db`, built by two `add_event` calls on a new database: both
events are returned. -/
theorem get_active_events_exact_witness :
    ∃ e1 e2,
      two_events_db.events = Db.created.events ++ [e1, e2] ∧
      e1.event_name = "Sprint" ∧ e2.event_name = "Marathon" ∧
      e1.event_id ≠ e2.event_id ∧
      read_event e1 ∈ get_active_events two_events_db ∧
      read_event e2 ∈ get_active_events two_events_db :=
  (get_active_events_exact two_events_db Db.created sprint_input marathon_input true true
    (by decide) (by decide)).2.2

/-! ## The frame of a purchase -/

/-- C24: a `buy_item` of an active event `e` that ends with the purchase made leaves
the events and the tasks as they were; every store row stays in its place and keeps all
fields but `stock`, and is unchanged unless its key is the chosen `(event_id, item_id)`,
a key that at most one row has; every currency row stays in its place and keeps all
fields but `balance`, and is unchanged unless it is the currency of `e`. -/
theorem buy_item_frame (db : Db) (e : events_row) (chosen_item_id : Int)
    (rc_stock rc_balance : Bool) (hdb : schema_ok db)
    (he : e ∈ db.events) (hact : e.is_active = 1)
    (hrun : (buy_item db e.event_id chosen_item_id rc_stock rc_balance).2 = .bought) :
    (buy_item db e.event_id chosen_item_id rc_stock rc_balance).1.events = db.events ∧
    (buy_item db e.event_id chosen_item_id rc_stock rc_balance).1.tasks = db.tasks ∧
    (∀ (n : Nat) (s : store_item), db.store[n]? = some s →
      ∃ s', (buy_item db e.event_id chosen_item_id rc_stock rc_balance).1.store[n]?
          = some s' ∧
        s' = { s with stock := s'.stock } ∧
        (¬ (s.event_id = e.event_id ∧ s.item_id = chosen_item_id) → s' = s)) ∧
    (∀ s1 ∈ db.store, ∀ s2 ∈ db.store,
      s1.event_id = e.event_id ∧ s1.item_id = chosen_item_id →
      s2.event_id = e.event_id ∧ s2.item_id = chosen_item_id → s1 = s2) ∧
    (∀ (n : Nat) (c : currency), db.currency[n]? = some c →
      ∃ c', (buy_item db e.event_id chosen_item_id rc_stock rc_balance).1.currency[n]?
          = some c' ∧
        c' = { c with balance := c'.balance } ∧
        (c.currency_id ≠ e.currency_id → c' = c)) ∧
    (buy_item db e.event_id chosen_item_id rc_stock rc_balance).1.store.length
      = db.store.length ∧
    (buy_item db e.event_id chosen_item_id rc_stock rc_balance).1.currency.length
      = db.currency.length := by
  obtain ⟨cur, item, _, _, _, _, hdb'⟩ := buy_item_bought hrun
  rw [hdb', find_currency_id_of_active hdb he hact]
  refine ⟨rfl, rfl, ?_, ?_, ?_, ?_, ?_⟩
  · intro n s hs
    unfold sql_update_balance sql_update_store_stock
    simp only [List.getElem?_map, hs, Option.map_some']
    by_cases hsel : s.item_id = chosen_item_id ∧ s.event_id = e.event_id ∧ s.stock ≠ -1
    · rw [if_pos hsel]
      refine ⟨_, rfl, rfl, ?_⟩
      intro hne
      exact absurd ⟨hsel.2.1, hsel.1⟩ hne
    · rw [if_neg hsel]
      exact ⟨s, rfl, rfl, fun _ => rfl⟩
  · intro s1 hs1 s2 hs2 h1 h2
    exact eq_of_key_eq hdb.2.2.2.1 hs1 hs2 (by simp [h1.1, h1.2, h2.1, h2.2])
  · intro n c hc
    unfold sql_update_balance sql_update_store_stock
    simp only [List.getElem?_map, hc, Option.map_some']
    by_cases hsel : c.currency_id = e.currency_id
    · rw [if_pos hsel]
      exact ⟨_, rfl, rfl, fun hne => absurd hsel hne⟩
    · rw [if_neg hsel]
      exact ⟨c, rfl, rfl, fun _ => rfl⟩
  · unfold sql_update_balance sql_update_store_stock
    simp only [List.length_map]
  · unfold sql_update_balance sql_update_store_stock
    simp only [List.length_map]

/-- C24 at the database with two events, once task 1 of event 1 is completed: buying
item 1 of event 1 leaves the events, the tasks and the store row in place `1` (item 1 of
event 2, which has the same `item_id`) as they were. -/
theorem buy_item_frame_witness :
    (buy_item (mark_task_done two_events_db 1 1 true true).1 1 1 true true).1.events
      = (mark_task_done two_events_db 1 1 true true).1.events ∧
    (buy_item (mark_task_done two_events_db 1 1 true true).1 1 1 true true).1.tasks
      = (mark_task_done two_events_db 1 1 true true).1.tasks ∧
    ∃ s', (buy_item (mark_task_done two_events_db 1 1 true true).1 1 1 true true).1.store[1]?
        = some s' ∧
      s' = { item_id := 1, item_description := "Towel", cost := 4, event_id := 2,
             stock := 3, category := "Gear" } :=
  have h := buy_item_frame (mark_task_done two_events_db 1 1 true true).1
    { event_id := 1, event_name := "Sprint", currency_id := 1, is_time_limited := 0,
      start_time := none, end_time := none, is_active := 1 }
    1 true true (by decide) (by decide) rfl (by decide)
  ⟨h.1, h.2.1,
    (h.2.2.1 1 { item_id := 1, item_description := "Towel", cost := 4, event_id := 2,
                 stock := 3, category := "Gear" } (by decide)).imp
      (fun _ hs => ⟨hs.1, hs.2.2 (by decide)⟩)⟩

/-! ## Partial failure and the dangling currency in `mark_task_done` -/

/-- The runs of `mark_task_done` that stop at the failed balance update: the completion
update ran and nothing else was written. -/
theorem mark_task_done_error_updating_balance {db : Db}
    {chosen_event_id chosen_task_id : Int} {rc_completion rc_balance : Bool}
    (h : (mark_task_done db chosen_event_id chosen_task_id rc_completion rc_balance).2
          = .error_updating_balance) :
    find_currency_amount (get_incomplete_tasks_of_an_event db chosen_event_id)
      chosen_task_id ≠ -1 ∧
    rc_completion = true ∧ rc_balance = false ∧
    (mark_task_done db chosen_event_id chosen_task_id rc_completion rc_balance).1 =
      sql_update_task_completion db chosen_task_id chosen_event_id := by
  unfold mark_task_done at h ⊢
  simp only at h ⊢
  split_ifs at h ⊢ with h1 h2 h3 h4 h5
  · exact ⟨h3, by simpa using h4, h5, rfl⟩
  · split at h <;> cases h

/-- A task lookup that does not end on `-1` found an incomplete task of the picked
event with the picked id. -/
theorem exists_incomplete_of_find_currency_amount {db : Db} (hdb : schema_ok db)
    {chosen_event_id chosen_task_id : Int}
    (h : find_currency_amount (get_incomplete_tasks_of_an_event db chosen_event_id)
      chosen_task_id ≠ -1) :
    ∃ t ∈ db.tasks, t.event_id = chosen_event_id ∧ t.task_id = chosen_task_id ∧
      t.is_completed = 0 := by
  by_contra hnone
  apply h
  apply find_currency_amount_of_not_listed hdb
  intro t ht hev hinc hid
  exact hnone ⟨t, ht, hev, hid, hinc⟩

/-- C25: when `mark_task_done` stops at "error updating balance" (its completion update
succeeded and its balance update failed), the picked task, until then an incomplete task
of the picked event, is completed, and the currency table, so every balance, is as it
was: the completion is not undone. -/
theorem mark_task_done_partial_failure (db : Db) (chosen_event_id chosen_task_id : Int)
    (rc_completion rc_balance : Bool) (hdb : schema_ok db)
    (hrun : (mark_task_done db chosen_event_id chosen_task_id rc_completion rc_balance).2
              = .error_updating_balance) :
    rc_completion = true ∧ rc_balance = false ∧
    (mark_task_done db chosen_event_id chosen_task_id rc_completion rc_balance).1.currency
      = db.currency ∧
    ∃ t ∈ db.tasks, t.event_id = chosen_event_id ∧ t.task_id = chosen_task_id ∧
      t.is_completed = 0 ∧
      { t with is_completed := 1 } ∈
        (mark_task_done db chosen_event_id chosen_task_id rc_completion rc_balance).1.tasks := by
  obtain ⟨hamt, h1, h2, hdb'⟩ := mark_task_done_error_updating_balance hrun
  obtain ⟨t, ht, hev, hid, hinc⟩ := exists_incomplete_of_find_currency_amount hdb hamt
  rw [hdb']
  refine ⟨h1, h2, rfl, t, ht, hev, hid, hinc, ?_⟩
  rw [← hev, ← hid]
  exact mem_tasks_sql_update_task_completion ht

/-- C25 at the Sprint database, with the balance update failing: task 1 is completed
and the balance is still `0`. -/
theorem mark_task_done_partial_failure_witness :
    (mark_task_done sprint_db 1 1 true false).1.currency = sprint_db.currency ∧
    ∃ t ∈ sprint_db.tasks, t.event_id = 1 ∧ t.task_id = 1 ∧ t.is_completed = 0 ∧
      { t with is_completed := 1 } ∈ (mark_task_done sprint_db 1 1 true false).1.tasks :=
  (mark_task_done_partial_failure sprint_db 1 1 true false (by decide) (by decide)).2.2

/-- On an active event whose `currency_id` is not `-1` and is the id of no currency row,
picking an incomplete task whose amount is not `-1` completes the task, changes no
currency row, and ends on "could not find currency index". -/
theorem mark_task_done_dangling_currency {db : Db} (hdb : schema_ok db) {e : events_row}
    {t : task} (he : e ∈ db.events) (hact : e.is_active = 1) (hcur : e.currency_id ≠ -1)
    (hdangling : ∀ c ∈ db.currency, c.currency_id ≠ e.currency_id)
    (ht : t ∈ db.tasks) (hte : t.event_id = e.event_id) (hinc : t.is_completed = 0)
    (hamt : t.currency_amount ≠ -1) :
    (mark_task_done db e.event_id t.task_id true true).2 = .could_not_find_currency_index ∧
    (mark_task_done db e.event_id t.task_id true true).1.currency = db.currency ∧
    { t with is_completed := 1 } ∈ (mark_task_done db e.event_id t.task_id true true).1.tasks := by
  obtain ⟨hdb', hres⟩ := mark_task_done_of_incomplete hdb he hact hcur ht hte hinc hamt
  have hcurrency : (sql_update_balance (sql_update_task_completion db t.task_id t.event_id)
      t.currency_amount e.currency_id).currency = db.currency := by
    unfold sql_update_balance sql_update_task_completion
    simp only
    conv_rhs => rw [← List.map_id db.currency]
    apply List.map_congr_left
    intro c hc
    rw [if_neg (hdangling c hc)]
    rfl
  refine ⟨?_, ?_, ?_⟩
  · rcases hres with h | h
    · exfalso
      have h1 := find_currency_id_of_active hdb he hact
      have h2 := find_currency_amount_of_incomplete hdb ht hinc
      rw [hte] at h2
      unfold mark_task_done at h
      simp only [h1, h2] at h
      split_ifs at h
      split at h
      · cases h
      · rename_i c hfind
        have hmem := List.mem_of_find?_eq_some hfind
        have hp := List.find?_some hfind
        unfold get_currencies sql_select_currency at hmem
        obtain ⟨r, hr, rfl⟩ := List.mem_map.mp hmem
        have hr' : r ∈ db.currency := by
          have : (sql_update_balance (sql_update_task_completion db t.task_id e.event_id)
              t.currency_amount e.currency_id).currency = db.currency := by
            rw [← hte]; exact hcurrency
          rw [this] at hr
          exact hr
        have hid := of_decide_eq_true hp
        simp only [read_currency, sqlite3_column_int,
          to_int_of_is_int (hdb.2.2.2.2.1 r hr')] at hid
        exact hdangling r hr' hid.symm
    · exact h
  · rw [hdb']
    exact hcurrency
  · rw [hdb']
    exact mem_tasks_sql_update_task_completion ht

/-- C26 at its failing input: in `ghost_db` the active event 2 has `currency_id = 7`,
no currency row has the id `7`, and tasks 1 and 2 of event 2 are incomplete.  Picking
task 1 (worth `10`) completes it and changes no balance; picking task 2, whose amount is
`-1`, is answered "could not find currency amount" and the task is not completed. -/
theorem mark_task_done_dangling_currency_reward_minus_one :
    ghost_db.events.map (fun e => (e.event_id, e.currency_id, e.is_active))
      = [(1, 1, 1), (2, 7, 1)] ∧
    ghost_db.currency.map (fun c => c.currency_id) = [1] ∧
    (sql_select_incomplete_tasks_of_an_event ghost_db 2).map
      (fun t => (t.task_id, t.currency_amount)) = [(1, 10), (2, -1)] ∧
    (mark_task_done ghost_db 2 1 true true).2 = .could_not_find_currency_index ∧
    (mark_task_done ghost_db 2 1 true true).1.currency = ghost_db.currency ∧
    (sql_select_incomplete_tasks_of_an_event (mark_task_done ghost_db 2 1 true true).1 2).map
      (fun t => t.task_id) = [2] ∧
    mark_task_done ghost_db 2 2 true true = (ghost_db, .could_not_find_currency_amount) := by
  decide

/-! ## The balance that `buy_item` compares -/

/-- Where the stored balance is in `int` range, `buy_item` of an item in stock answers
"insufficient balance" exactly when the stored balance is below the cost. -/
theorem buy_item_insufficient_iff_of_int_balance {db : Db} (hdb : schema_ok db)
    {e : events_row} {c : currency} {s : store_item}
    (he : e ∈ db.events) (hact : e.is_active = 1) (hcur : e.currency_id ≠ -1)
    (hc : c ∈ db.currency) (hce : c.currency_id = e.currency_id)
    (hs : s ∈ db.store) (hse : s.event_id = e.event_id)
    (hstock : to_int s.stock ≠ 0) (hbal : is_int c.balance)
    (rc_stock rc_balance : Bool) :
    (buy_item db e.event_id s.item_id rc_stock rc_balance).2 = .insufficient_balance ↔
      c.balance < s.cost := by
  rw [buy_item_of_rows hdb he hact hc hce hs hse hcur, to_int_of_is_int hbal, if_neg hstock]
  constructor
  · intro h
    by_contra hlt
    rw [if_neg hlt] at h
    split_ifs at h
  · intro h
    rw [if_pos h]

/-- C27 at its failing inputs: in `rich_db` the stored balance is `4294967294`, well
above the cost `5` of item 1, which is in stock; `get_currencies` reads the balance as
the `int` `-2`, and `buy_item` answers "insufficient balance".  In `debt_db` the stored
balance `-4294967196` is below the cost `50`, it is read as `100`, and `buy_item` does
not answer "insufficient balance". -/
theorem buy_item_rejects_balance_above_cost :
    balance_of rich_db 1 = some 4294967294 ∧
    rich_db.store = [{ item_id := 1, item_description := "Cup", cost := 5, event_id := 1,
                       stock := 1, category := "Prize" }] ∧
    ¬ (4294967294 : Int) < 5 ∧
    (get_currencies rich_db).map (fun c => c.balance) = [-2] ∧
    buy_item rich_db 1 1 true true = (rich_db, .insufficient_balance) ∧
    balance_of debt_db 1 = some (-4294967196) ∧
    (-4294967196 : Int) < 50 ∧
    (get_currencies debt_db).map (fun c => c.balance) = [100] ∧
    (buy_item debt_db 1 1 true true).2 ≠ .insufficient_balance := by
  decide

/-! ## Invariants of the tables -/

theorem sql_insert_tasks_eq_some {db db1 : Db} {t : task}
    (h : sql_insert_tasks db t = some db1) :
    db1 = { db with tasks := db.tasks ++ [t] } ∧
    (∀ r ∈ db.tasks, ¬ (r.event_id = t.event_id ∧ r.task_id = t.task_id)) ∧
    (db.foreign_keys = true → ∃ e ∈ db.events, e.event_id = t.event_id) := by
  unfold sql_insert_tasks at h
  split_ifs at h with h1 h2
  cases h
  refine ⟨rfl, fun r hr hk => h1 ⟨r, hr, hk⟩, fun hfk => ?_⟩
  by_contra hne
  exact h2 ⟨hfk, hne⟩

theorem sql_insert_store_eq_some {db db1 : Db} {s : store_item}
    (h : sql_insert_store db s = some db1) :
    db1 = { db with store := db.store ++ [s] } ∧
    (∀ r ∈ db.store, ¬ (r.event_id = s.event_id ∧ r.item_id = s.item_id)) ∧
    (db.foreign_keys = true → ∃ e ∈ db.events, e.event_id = s.event_id) := by
  unfold sql_insert_store at h
  split_ifs at h with h1 h2
  cases h
  refine ⟨rfl, fun r hr hk => h1 ⟨r, hr, hk⟩, fun hfk => ?_⟩
  by_contra hne
  exact h2 ⟨hfk, hne⟩

/-- Whatever its outcome, the task loop only appends task rows: they carry the event id
it was given, they keep the key `(event_id, task_id)` unique, and with foreign keys
enforced a row is appended only if an event row has that id. -/
theorem add_event_tasks_appends (event_id : Int) (tasks : Nat → task_input) :
    ∀ (n i : Nat) (db : Db), ∃ ts,
      (add_event_tasks event_id tasks i n db).1 = { db with tasks := db.tasks ++ ts } ∧
      (∀ t ∈ ts, t.event_id = event_id) ∧
      ((db.tasks.map (fun t => (t.event_id, t.task_id))).Nodup →
        ((db.tasks ++ ts).map (fun t => (t.event_id, t.task_id))).Nodup) ∧
      (ts ≠ [] → db.foreign_keys = true → ∃ e ∈ db.events, e.event_id = event_id) := by
  intro n
  induction n with
  | zero =>
    intro i db
    exact ⟨[], by simp [add_event_tasks], by simp, by simp, by simp⟩
  | succ n ih =>
    intro i db
    unfold add_event_tasks
    cases hins : sql_insert_tasks db (new_task event_id tasks i) with
    | none => exact ⟨[], by simp, by simp, by simp, by simp⟩
    | some db1 =>
      obtain ⟨h1, hfresh, hfk⟩ := sql_insert_tasks_eq_some hins
      obtain ⟨ts, hts, hev, hnd, _⟩ := ih (i + 1) db1
      refine ⟨new_task event_id tasks i :: ts, ?_, ?_, ?_, ?_⟩
      · simp only
        rw [hts, h1]
        simp
      · intro t ht
        rcases List.mem_cons.mp ht with rfl | ht
        · rfl
        · exact hev t ht
      · intro hn
        have h2 : (db1.tasks.map (fun t => (t.event_id, t.task_id))).Nodup := by
          rw [h1]
          simp only [List.map_append, List.map_cons, List.map_nil]
          refine List.Nodup.append hn (List.nodup_singleton _) ?_
          intro k hk1 hk2
          obtain ⟨r, hr, rfl⟩ := List.mem_map.mp hk1
          have := List.mem_singleton.mp hk2
          simp only [Prod.mk.injEq] at this
          exact hfresh r hr this
        have h3 := hnd h2
        rw [h1] at h3
        simpa using h3
      · intro _ hfkon
        exact hfk hfkon

/-- Whatever its outcome, the store loop only appends store rows: they carry the event
id it was given, they keep the key `(event_id, item_id)` unique, and with foreign keys
enforced a row is appended only if an event row has that id. -/
theorem add_event_items_appends (event_id : Int) (items : Nat → item_input) :
    ∀ (n i : Nat) (db : Db), ∃ ss,
      (add_event_items event_id items i n db).1 = { db with store := db.store ++ ss } ∧
      (∀ s ∈ ss, s.event_id = event_id) ∧
      ((db.store.map (fun s => (s.event_id, s.item_id))).Nodup →
        ((db.store ++ ss).map (fun s => (s.event_id, s.item_id))).Nodup) ∧
      (ss ≠ [] → db.foreign_keys = true → ∃ e ∈ db.events, e.event_id = event_id) := by
  intro n
  induction n with
  | zero =>
    intro i db
    exact ⟨[], by simp [add_event_items], by simp, by simp, by simp⟩
  | succ n ih =>
    intro i db
    unfold add_event_items
    cases hins : sql_insert_store db (new_store_item event_id items i) with
    | none => exact ⟨[], by simp, by simp, by simp, by simp⟩
    | some db1 =>
      obtain ⟨h1, hfresh, hfk⟩ := sql_insert_store_eq_some hins
      obtain ⟨ss, hss, hev, hnd, _⟩ := ih (i + 1) db1
      refine ⟨new_store_item event_id items i :: ss, ?_, ?_, ?_, ?_⟩
      · simp only
        rw [hss, h1]
        simp
      · intro s hs
        rcases List.mem_cons.mp hs with rfl | hs
        · rfl
        · exact hev s hs
      · intro hn
        have h2 : (db1.store.map (fun s => (s.event_id, s.item_id))).Nodup := by
          rw [h1]
          simp only [List.map_append, List.map_cons, List.map_nil]
          refine List.Nodup.append hn (List.nodup_singleton _) ?_
          intro k hk1 hk2
          obtain ⟨r, hr, rfl⟩ := List.mem_map.mp hk1
          have := List.mem_singleton.mp hk2
          simp only [Prod.mk.injEq] at this
          exact hfresh r hr this
        have h3 := hnd h2
        rw [h1] at h3
        simpa using h3
      · intro _ hfkon
        exact hfk hfkon

theorem add_event_currency_foreign_keys (db : Db) (inp : add_event_input)
    (rc_currency : Bool) :
    (add_event_currency db inp rc_currency).1.foreign_keys = db.foreign_keys := by
  unfold add_event_currency create_new_currency sql_insert_currency
  split_ifs <;> rfl

/-- The databases an `add_event` can leave behind: the one after its currency step, the
one after its task loop, or the one after its store loop. -/
theorem add_event_shape (db : Db) (inp : add_event_input) (rc_currency : Bool) :
    (add_event db inp rc_currency).1 = (add_event_currency db inp rc_currency).1 ∨
    ∃ db1,
      sql_insert_events (add_event_currency db inp rc_currency).1 inp.event_name
        (add_event_currency db inp rc_currency).2 inp.is_time_limited
        (if inp.is_time_limited ≠ 0 then some inp.start_time else none)
        (if inp.is_time_limited ≠ 0 then some inp.end_time else none) 1 = some db1 ∧
      ((add_event db inp rc_currency).1 =
          (add_event_tasks
            (to_int (next_rowid ((add_event_currency db inp rc_currency).1.events.map
              (fun e => e.event_id))))
            inp.tasks 1 inp.num_tasks.toNat db1).1 ∨
       (add_event db inp rc_currency).1 =
          (add_event_items
            (to_int (next_rowid ((add_event_currency db inp rc_currency).1.events.map
              (fun e => e.event_id))))
            inp.items 1 inp.num_items.toNat
            (add_event_tasks
              (to_int (next_rowid ((add_event_currency db inp rc_currency).1.events.map
                (fun e => e.event_id))))
              inp.tasks 1 inp.num_tasks.toNat db1).1).1) := by
  unfold add_event
  simp only
  by_cases hfail : (add_event_currency db inp rc_currency).2 = -1 ∧
      ((sql_select_currency db).length = 0 ∨ inp.currency_choice = 0)
  · rw [if_pos hfail]
    exact Or.inl rfl
  · rw [if_neg hfail]
    cases hins : sql_insert_events (add_event_currency db inp rc_currency).1 inp.event_name
        (add_event_currency db inp rc_currency).2 inp.is_time_limited
        (if inp.is_time_limited ≠ 0 then some inp.start_time else none)
        (if inp.is_time_limited ≠ 0 then some inp.end_time else none) 1 with
    | none => exact Or.inl rfl
    | some db1 =>
      refine Or.inr ⟨db1, rfl, ?_⟩
      simp only
      rcases hres : add_event_tasks
          (to_int (next_rowid ((add_event_currency db inp rc_currency).1.events.map
            (fun e => e.event_id))))
          inp.tasks 1 inp.num_tasks.toNat db1 with ⟨db2, r2⟩
      rw [hres]
      cases r2 with
      | some i => exact Or.inl rfl
      | none =>
        simp only
        by_cases hmax : inp.num_tasks = INT_MAX
        · rw [if_pos hmax]
          exact Or.inl rfl
        · rw [if_neg hmax]
          rcases hres2 : add_event_items
              (to_int (next_rowid ((add_event_currency db inp rc_currency).1.events.map
                (fun e => e.event_id))))
              inp.items 1 inp.num_items.toNat db2 with ⟨db3, r3⟩
          rw [hres2]
          cases r3 with
          | some i => exact Or.inr rfl
          | none =>
            simp only
            split_ifs <;> exact Or.inr rfl

/-- Function `add_event` only appends rows, whatever its outcome.  At most one event
row is appended; task and store rows are appended only after it and carry the id held
in `new_event.event_id`; the composite keys stay unique; and with foreign keys enforced
a task or store row is appended only if an event row has its `event_id`. -/
theorem add_event_tables (db : Db) (inp : add_event_input) (rc_currency : Bool) :
    ∃ es ts ss,
      (add_event db inp rc_currency).1.events = db.events ++ es ∧
      (add_event db inp rc_currency).1.tasks = db.tasks ++ ts ∧
      (add_event db inp rc_currency).1.store = db.store ++ ss ∧
      (add_event db inp rc_currency).1.foreign_keys = db.foreign_keys ∧
      (es = [] ∨ es = [new_event_row db inp (add_event_currency db inp rc_currency).2]) ∧
      (es = [] → ts = [] ∧ ss = []) ∧
      (∀ t ∈ ts, t.event_id = new_event_id db) ∧
      (∀ s ∈ ss, s.event_id = new_event_id db) ∧
      ((db.tasks.map (fun t => (t.event_id, t.task_id))).Nodup →
        ((db.tasks ++ ts).map (fun t => (t.event_id, t.task_id))).Nodup) ∧
      ((db.store.map (fun s => (s.event_id, s.item_id))).Nodup →
        ((db.store ++ ss).map (fun s => (s.event_id, s.item_id))).Nodup) ∧
      ((ts ≠ [] ∨ ss ≠ []) → db.foreign_keys = true →
        ∃ e ∈ db.events ++ es, e.event_id = new_event_id db) := by
  obtain ⟨hce, hct, hcs⟩ := add_event_currency_keeps db inp rc_currency
  have hcf := add_event_currency_foreign_keys db inp rc_currency
  rcases add_event_shape db inp rc_currency with h | ⟨db1, hins, h⟩
  · refine ⟨[], [], [], ?_, ?_, ?_, ?_, Or.inl rfl, fun _ => ⟨rfl, rfl⟩,
      by simp, by simp, by simp, by simp, by simp⟩
    · rw [h, hce]; simp
    · rw [h, hct]; simp
    · rw [h, hcs]; simp
    · rw [h, hcf]
  · rw [hce] at h
    change (add_event db inp rc_currency).1 =
        (add_event_tasks (new_event_id db) inp.tasks 1 inp.num_tasks.toNat db1).1 ∨
      (add_event db inp rc_currency).1 =
        (add_event_items (new_event_id db) inp.items 1 inp.num_items.toNat
          (add_event_tasks (new_event_id db) inp.tasks 1 inp.num_tasks.toNat db1).1).1 at h
    have h1 : db1 = { (add_event_currency db inp rc_currency).1 with
        events := (add_event_currency db inp rc_currency).1.events ++
          [new_event_row db inp (add_event_currency db inp rc_currency).2] } := by
      unfold sql_insert_events at hins
      by_cases hc : (add_event_currency db inp rc_currency).1.foreign_keys = true ∧
          ¬ ∃ c ∈ (add_event_currency db inp rc_currency).1.currency,
            c.currency_id = (add_event_currency db inp rc_currency).2
      · rw [if_pos hc] at hins
        cases hins
      · rw [if_neg hc] at hins
        rw [← Option.some.inj hins, hce]
        rfl
    have h1e : db1.events = db.events ++
        [new_event_row db inp (add_event_currency db inp rc_currency).2] := by
      rw [h1, hce]
    have h1t : db1.tasks = db.tasks := by rw [h1]; exact hct
    have h1s : db1.store = db.store := by rw [h1]; exact hcs
    have h1f : db1.foreign_keys = db.foreign_keys := by rw [h1]; exact hcf
    obtain ⟨ts, hts, htev, htnd, htfk⟩ :=
      add_event_tasks_appends (new_event_id db) inp.tasks inp.num_tasks.toNat 1 db1
    simp only [h1t, h1f, h1e] at htnd htfk
    have h2e : (add_event_tasks (new_event_id db) inp.tasks 1 inp.num_tasks.toNat db1).1.events
        = db.events ++ [new_event_row db inp (add_event_currency db inp rc_currency).2] := by
      rw [hts]; exact h1e
    have h2t : (add_event_tasks (new_event_id db) inp.tasks 1 inp.num_tasks.toNat db1).1.tasks
        = db.tasks ++ ts := by
      rw [hts, ← h1t]
    have h2s : (add_event_tasks (new_event_id db) inp.tasks 1 inp.num_tasks.toNat db1).1.store
        = db.store := by
      rw [hts]; exact h1s
    have h2f : (add_event_tasks (new_event_id db) inp.tasks 1 inp.num_tasks.toNat
        db1).1.foreign_keys = db.foreign_keys := by
      rw [hts]; exact h1f
    rcases h with h | h
    · refine ⟨_, ts, [], ?_, ?_, ?_, ?_, Or.inr rfl, by simp, htev, by simp, htnd, by simp, ?_⟩
      · rw [h]; exact h2e
      · rw [h]; exact h2t
      · rw [h, h2s]; simp
      · rw [h]; exact h2f
      · intro hne hfk
        rcases hne with hne | hne
        · exact htfk hne hfk
        · exact absurd rfl hne
    · obtain ⟨ss, hss, hsev, hsnd, hsfk⟩ :=
        add_event_items_appends (new_event_id db) inp.items inp.num_items.toNat 1
          (add_event_tasks (new_event_id db) inp.tasks 1 inp.num_tasks.toNat db1).1
      simp only [h2s, h2f, h2e] at hsnd hsfk
      refine ⟨_, ts, ss, ?_, ?_, ?_, ?_, Or.inr rfl, by simp, htev, hsev, htnd, hsnd, ?_⟩
      · rw [h, hss]; exact h2e
      · rw [h, hss]; exact h2t
      · rw [h, hss]; simp [h2s]
      · rw [h, hss]; exact h2f
      · intro hne hfk
        rcases hne with hne | hne
        · exact htfk hne hfk
        · exact hsfk hne hfk

/-- The three databases a `mark_task_done` can leave behind. -/
theorem mark_task_done_cases (db : Db) (chosen_event_id chosen_task_id : Int)
    (rc_completion rc_balance : Bool) :
    (mark_task_done db chosen_event_id chosen_task_id rc_completion rc_balance).1 = db ∨
    (mark_task_done db chosen_event_id chosen_task_id rc_completion rc_balance).1 =
      sql_update_task_completion db chosen_task_id chosen_event_id ∨
    ∃ amount currency_id,
      (mark_task_done db chosen_event_id chosen_task_id rc_completion rc_balance).1 =
        sql_update_balance (sql_update_task_completion db chosen_task_id chosen_event_id)
          amount currency_id := by
  unfold mark_task_done
  simp only
  split_ifs
  · exact Or.inl rfl
  · exact Or.inl rfl
  · exact Or.inl rfl
  · exact Or.inl rfl
  · exact Or.inr (Or.inl rfl)
  · split
    · exact Or.inr (Or.inr ⟨_, _, rfl⟩)
    · exact Or.inr (Or.inr ⟨_, _, rfl⟩)

theorem task_keys_sql_update_task_completion (db : Db) (task_id event_id : Int) :
    (sql_update_task_completion db task_id event_id).tasks.map
        (fun t => (t.event_id, t.task_id))
      = db.tasks.map (fun t => (t.event_id, t.task_id)) := by
  unfold sql_update_task_completion
  simp only [List.map_map]
  apply List.map_congr_left
  intro t _
  simp only [Function.comp]
  split <;> rfl

theorem store_keys_sql_update_store_stock (db : Db) (item_id event_id : Int) :
    (sql_update_store_stock db item_id event_id).store.map
        (fun s => (s.event_id, s.item_id))
      = db.store.map (fun s => (s.event_id, s.item_id)) := by
  unfold sql_update_store_stock
  simp only [List.map_map]
  apply List.map_congr_left
  intro s _
  simp only [Function.comp]
  split <;> rfl

/-- Function `mark_task_done` leaves the events, the store and the foreign-key setting
as they were, keeps the keys of the task rows in their places, and keeps every task row
that is completed. -/
theorem mark_task_done_tables (db : Db) (chosen_event_id chosen_task_id : Int)
    (rc_completion rc_balance : Bool) :
    (mark_task_done db chosen_event_id chosen_task_id rc_completion rc_balance).1.events
      = db.events ∧
    (mark_task_done db chosen_event_id chosen_task_id rc_completion rc_balance).1.store
      = db.store ∧
    (mark_task_done db chosen_event_id chosen_task_id rc_completion
      rc_balance).1.foreign_keys = db.foreign_keys ∧
    (mark_task_done db chosen_event_id chosen_task_id rc_completion rc_balance).1.tasks.map
        (fun t => (t.event_id, t.task_id))
      = db.tasks.map (fun t => (t.event_id, t.task_id)) ∧
    (∀ t ∈ db.tasks, t.is_completed = 1 →
      t ∈ (mark_task_done db chosen_event_id chosen_task_id rc_completion
        rc_balance).1.tasks) := by
  have hkeep : ∀ t ∈ db.tasks, t.is_completed = 1 →
      t ∈ (sql_update_task_completion db chosen_task_id chosen_event_id).tasks := by
    intro t ht hdone
    unfold sql_update_task_completion
    refine List.mem_map.mpr ⟨t, ht, ?_⟩
    split
    · rw [← hdone]
    · rfl
  rcases mark_task_done_cases db chosen_event_id chosen_task_id rc_completion rc_balance
    with h | h | ⟨a, cid, h⟩
  · rw [h]
    exact ⟨rfl, rfl, rfl, rfl, fun t ht _ => ht⟩
  · rw [h]
    exact ⟨rfl, rfl, rfl, task_keys_sql_update_task_completion db _ _, hkeep⟩
  · rw [h]
    exact ⟨rfl, rfl, rfl, task_keys_sql_update_task_completion db _ _, hkeep⟩

/-- Function `buy_item` leaves the events, the tasks and the foreign-key setting as
they were and keeps the keys of the store rows in their places. -/
theorem buy_item_tables (db : Db) (chosen_event_id chosen_item_id : Int)
    (rc_stock rc_balance : Bool) :
    (buy_item db chosen_event_id chosen_item_id rc_stock rc_balance).1.events = db.events ∧
    (buy_item db chosen_event_id chosen_item_id rc_stock rc_balance).1.tasks = db.tasks ∧
    (buy_item db chosen_event_id chosen_item_id rc_stock rc_balance).1.foreign_keys
      = db.foreign_keys ∧
    (buy_item db chosen_event_id chosen_item_id rc_stock rc_balance).1.store.map
        (fun s => (s.event_id, s.item_id))
      = db.store.map (fun s => (s.event_id, s.item_id)) := by
  rcases buy_item_cases db chosen_event_id chosen_item_id rc_stock rc_balance with
    h | h | ⟨a, cid, h⟩
  · rw [h]
    exact ⟨rfl, rfl, rfl, rfl⟩
  · rw [h]
    exact ⟨rfl, rfl, rfl, store_keys_sql_update_store_stock db _ _⟩
  · rw [h]
    exact ⟨rfl, rfl, rfl, store_keys_sql_update_store_stock db _ _⟩

/-! ### Completion is one-directional -/

theorem completed_stays_run_step (db : Db) (st : step) (t : task) (ht : t ∈ db.tasks)
    (hdone : t.is_completed = 1) : t ∈ (run_step db st).tasks := by
  cases st with
  | add_event inp rc =>
    obtain ⟨es, ts, ss, _, htasks, _⟩ := add_event_tables db inp rc
    show t ∈ (add_event db inp rc).1.tasks
    rw [htasks]
    exact List.mem_append_left _ ht
  | mark_task_done eid tid rc1 rc2 =>
    exact (mark_task_done_tables db eid tid rc1 rc2).2.2.2.2 t ht hdone
  | buy_item eid iid rc1 rc2 =>
    show t ∈ (buy_item db eid iid rc1 rc2).1.tasks
    rw [(buy_item_tables db eid iid rc1 rc2).2.1]
    exact ht
  | list_events_and_tasks => exact ht
  | list_stats => exact ht
  | restart => exact ht

/-- C21: a task row that is completed is still there, as it was and so still completed,
after any one step (`add_event`, `mark_task_done`, `buy_item`, a listing, or the program
being started again) from any database, and so after any sequence of steps. -/
theorem completed_stays (db : Db) (st : step) (steps : List step) (t : task)
    (ht : t ∈ db.tasks) (hdone : t.is_completed = 1) :
    t ∈ (run_step db st).tasks ∧ t ∈ (run_steps db steps).tasks := by
  refine ⟨completed_stays_run_step db st t ht hdone, ?_⟩
  induction steps generalizing db with
  | nil => exact ht
  | cons s rest ih =>
    exact ih (run_step db s) (completed_stays_run_step db s t ht hdone)

/-- C21 at the Sprint database once task 1 is completed: the completed row is still
there after a second pick of it, and after a purchase, a second `add_event`, another
pick and a listing. -/
theorem completed_stays_witness :
    ({ event_id := 1, task_id := 1, task_description := "Run", currency_amount := 10,
       is_completed := 1 } : task) ∈
      (run_step sprint_done_db (.mark_task_done 1 1 true true)).tasks ∧
    ({ event_id := 1, task_id := 1, task_description := "Run", currency_amount := 10,
       is_completed := 1 } : task) ∈
      (run_steps sprint_done_db
        [.buy_item 1 1 true true, .add_event marathon_input true,
         .mark_task_done 2 1 true true, .list_events_and_tasks]).tasks :=
  completed_stays sprint_done_db (.mark_task_done 1 1 true true)
    [.buy_item 1 1 true true, .add_event marathon_input true,
     .mark_task_done 2 1 true true, .list_events_and_tasks]
    { event_id := 1, task_id := 1, task_description := "Run", currency_amount := 10,
      is_completed := 1 } (by decide) rfl

/-! ### Composite keys -/

theorem composite_keys_unique_run_step (db : Db) (st : step)
    (h : composite_keys_unique db) : composite_keys_unique (run_step db st) := by
  obtain ⟨ht, hs⟩ := h
  cases st with
  | add_event inp rc =>
    obtain ⟨es, ts, ss, _, htasks, hstore, _, _, _, _, _, hnt, hns, _⟩ :=
      add_event_tables db inp rc
    show (List.map _ (add_event db inp rc).1.tasks).Nodup ∧
      (List.map _ (add_event db inp rc).1.store).Nodup
    rw [htasks, hstore]
    exact ⟨hnt ht, hns hs⟩
  | mark_task_done eid tid rc1 rc2 =>
    obtain ⟨_, hstore, _, hkeys, _⟩ := mark_task_done_tables db eid tid rc1 rc2
    show (List.map _ (mark_task_done db eid tid rc1 rc2).1.tasks).Nodup ∧
      (List.map _ (mark_task_done db eid tid rc1 rc2).1.store).Nodup
    rw [hkeys, hstore]
    exact ⟨ht, hs⟩
  | buy_item eid iid rc1 rc2 =>
    obtain ⟨_, htasks, _, hkeys⟩ := buy_item_tables db eid iid rc1 rc2
    show (List.map _ (buy_item db eid iid rc1 rc2).1.tasks).Nodup ∧
      (List.map _ (buy_item db eid iid rc1 rc2).1.store).Nodup
    rw [hkeys, htasks]
    exact ⟨ht, hs⟩
  | list_events_and_tasks => exact ⟨ht, hs⟩
  | list_stats => exact ⟨ht, hs⟩
  | restart => exact ⟨ht, hs⟩

theorem composite_keys_unique_run_steps (steps : List step) :
    ∀ db : Db, composite_keys_unique db → composite_keys_unique (run_steps db steps) := by
  induction steps with
  | nil => intro db h; exact h
  | cons s rest ih =>
    intro db h
    exact ih (run_step db s) (composite_keys_unique_run_step db s h)

/-- C23: in every database reached from the new one by any steps (the program being
started again included), no two task rows share `(event_id, task_id)` and no two store
rows share `(event_id, item_id)`; every step keeps this, from any database; and the id
generated for a new event row is the id of no event row already there. -/
theorem composite_keys_stay_unique (db : Db) (st : step) (steps : List step)
    (inp : add_event_input) (currency_id : Int) :
    composite_keys_unique (run_steps Db.created steps) ∧
    (composite_keys_unique db → composite_keys_unique (run_step db st)) ∧
    (∀ e ∈ db.events, e.event_id ≠ (new_event_row db inp currency_id).event_id) := by
  refine ⟨composite_keys_unique_run_steps steps Db.created
      ⟨List.nodup_nil, List.nodup_nil⟩,
    composite_keys_unique_run_step db st, ?_⟩
  intro e he heq
  apply next_rowid_not_mem (db.events.map (fun e => e.event_id))
  have hmem : e.event_id ∈ db.events.map (fun e => e.event_id) :=
    List.mem_map.mpr ⟨e, he, rfl⟩
  rw [heq] at hmem
  exact hmem

/-- C23 for the run that builds the database with two events, both of which have a
task 1 and an item 1, and then starts the program again and adds a third event. -/
theorem composite_keys_stay_unique_witness :
    composite_keys_unique
      (run_steps Db.created
        [.add_event sprint_input true, .add_event marathon_input true, .restart,
         .add_event ghost_input true]) :=
  (composite_keys_stay_unique Db.created .restart
    [.add_event sprint_input true, .add_event marathon_input true, .restart,
     .add_event ghost_input true] sprint_input 0).1

/-! ### Children reference events -/

theorem next_rowid_append_le (l l' : List Int) :
    1 ≤ next_rowid l ∧ next_rowid l ≤ next_rowid (l ++ l') := by
  unfold next_rowid
  rw [List.foldl_append]
  have h1 := (le_foldl_max l 0).1
  have h2 := (le_foldl_max l' (List.foldl max 0 l)).1
  omega

theorem run_step_events (db : Db) (st : step) :
    ∃ es, (run_step db st).events = db.events ++ es := by
  cases st with
  | add_event inp rc =>
    obtain ⟨es, _, _, hev, _⟩ := add_event_tables db inp rc
    exact ⟨es, hev⟩
  | mark_task_done eid tid rc1 rc2 =>
    exact ⟨[], by simpa [run_step] using (mark_task_done_tables db eid tid rc1 rc2).1⟩
  | buy_item eid iid rc1 rc2 =>
    exact ⟨[], by simpa [run_step] using (buy_item_tables db eid iid rc1 rc2).1⟩
  | list_events_and_tasks => exact ⟨[], by simp [run_step]⟩
  | list_stats => exact ⟨[], by simp [run_step]⟩
  | restart => exact ⟨[], by simp [run_step, main_open]⟩

theorem run_steps_events (steps : List step) :
    ∀ db : Db, ∃ es, (run_steps db steps).events = db.events ++ es := by
  induction steps with
  | nil => intro db; exact ⟨[], by simp [run_steps]⟩
  | cons s rest ih =>
    intro db
    obtain ⟨es1, h1⟩ := run_step_events db s
    obtain ⟨es2, h2⟩ := ih (run_step db s)
    refine ⟨es1 ++ es2, ?_⟩
    show (run_steps (run_step db s) rest).events = _
    rw [h2, h1, List.append_assoc]

theorem children_reference_events_run_step (db : Db) (st : step)
    (h : children_reference_events db)
    (hside : db.foreign_keys = true ∨
      is_int (next_rowid (db.events.map (fun e => e.event_id)))) :
    children_reference_events (run_step db st) := by
  obtain ⟨ht, hs⟩ := h
  cases st with
  | add_event inp rc =>
    obtain ⟨es, ts, ss, hev, htasks, hstore, _, hes, hempty, htev, hsev, _, _, hfk⟩ :=
      add_event_tables db inp rc
    have hnew : (ts ≠ [] ∨ ss ≠ []) → ∃ e ∈ db.events ++ es, e.event_id = new_event_id db := by
      intro hne
      rcases hside with hfkon | hint
      · exact hfk hne hfkon
      · rcases hes with hes | hes
        · obtain ⟨h1, h2⟩ := hempty hes
          rcases hne with hne | hne
          · exact absurd h1 hne
          · exact absurd h2 hne
        · refine ⟨new_event_row db inp (add_event_currency db inp rc).2, ?_, ?_⟩
          · rw [hes]
            simp
          · exact (to_int_of_is_int hint).symm
    show (∀ t ∈ (add_event db inp rc).1.tasks, ∃ e ∈ (add_event db inp rc).1.events, _) ∧
      (∀ s ∈ (add_event db inp rc).1.store, ∃ e ∈ (add_event db inp rc).1.events, _)
    rw [hev, htasks, hstore]
    constructor
    · intro t htm
      rcases List.mem_append.mp htm with htm | htm
      · obtain ⟨e, he, heq⟩ := ht t htm
        exact ⟨e, List.mem_append_left _ he, heq⟩
      · obtain ⟨e, he, heq⟩ := hnew (Or.inl (List.ne_nil_of_mem htm))
        exact ⟨e, he, heq.trans (htev t htm).symm⟩
    · intro s hsm
      rcases List.mem_append.mp hsm with hsm | hsm
      · obtain ⟨e, he, heq⟩ := hs s hsm
        exact ⟨e, List.mem_append_left _ he, heq⟩
      · obtain ⟨e, he, heq⟩ := hnew (Or.inr (List.ne_nil_of_mem hsm))
        exact ⟨e, he, heq.trans (hsev s hsm).symm⟩
  | mark_task_done eid tid rc1 rc2 =>
    obtain ⟨hev, hstore, _, hkeys, _⟩ := mark_task_done_tables db eid tid rc1 rc2
    show (∀ t ∈ (mark_task_done db eid tid rc1 rc2).1.tasks,
        ∃ e ∈ (mark_task_done db eid tid rc1 rc2).1.events, _) ∧
      (∀ s ∈ (mark_task_done db eid tid rc1 rc2).1.store,
        ∃ e ∈ (mark_task_done db eid tid rc1 rc2).1.events, _)
    rw [hev, hstore]
    refine ⟨?_, hs⟩
    intro t htm
    have hk : (t.event_id, t.task_id) ∈ db.tasks.map (fun t => (t.event_id, t.task_id)) := by
      rw [← hkeys]
      exact List.mem_map.mpr ⟨t, htm, rfl⟩
    obtain ⟨r, hr, hreq⟩ := List.mem_map.mp hk
    obtain ⟨e, he, heq⟩ := ht r hr
    simp only [Prod.mk.injEq] at hreq
    exact ⟨e, he, heq.trans hreq.1⟩
  | buy_item eid iid rc1 rc2 =>
    obtain ⟨hev, htasks, _, hkeys⟩ := buy_item_tables db eid iid rc1 rc2
    show (∀ t ∈ (buy_item db eid iid rc1 rc2).1.tasks,
        ∃ e ∈ (buy_item db eid iid rc1 rc2).1.events, _) ∧
      (∀ s ∈ (buy_item db eid iid rc1 rc2).1.store,
        ∃ e ∈ (buy_item db eid iid rc1 rc2).1.events, _)
    rw [hev, htasks]
    refine ⟨ht, ?_⟩
    intro s hsm
    have hk : (s.event_id, s.item_id) ∈ db.store.map (fun s => (s.event_id, s.item_id)) := by
      rw [← hkeys]
      exact List.mem_map.mpr ⟨s, hsm, rfl⟩
    obtain ⟨r, hr, hreq⟩ := List.mem_map.mp hk
    obtain ⟨e, he, heq⟩ := hs r hr
    simp only [Prod.mk.injEq] at hreq
    exact ⟨e, he, heq.trans hreq.1⟩
  | list_events_and_tasks => exact ⟨ht, hs⟩
  | list_stats => exact ⟨ht, hs⟩
  | restart => exact ⟨ht, hs⟩

theorem foreign_keys_run_step (db : Db) (st : step) (h : st.is_restart = false) :
    (run_step db st).foreign_keys = db.foreign_keys := by
  cases st with
  | add_event inp rc =>
    obtain ⟨_, _, _, _, _, _, hfk, _⟩ := add_event_tables db inp rc
    exact hfk
  | mark_task_done eid tid rc1 rc2 => exact (mark_task_done_tables db eid tid rc1 rc2).2.2.1
  | buy_item eid iid rc1 rc2 => exact (buy_item_tables db eid iid rc1 rc2).2.2.1
  | list_events_and_tasks => rfl
  | list_stats => rfl
  | restart => cases h

theorem is_int_next_rowid_of_append {l l' : List Int} (h : is_int (next_rowid (l ++ l'))) :
    is_int (next_rowid l) := by
  obtain ⟨h1, h2⟩ := next_rowid_append_le l l'
  unfold is_int INT_MIN INT_MAX at h ⊢
  omega

theorem children_reference_events_on_one_connection (steps : List step) :
    ∀ db : Db, children_reference_events db → db.foreign_keys = true →
      (∀ s ∈ steps, s.is_restart = false) →
      children_reference_events (run_steps db steps) := by
  induction steps with
  | nil => intro db h _ _; exact h
  | cons s rest ih =>
    intro db h hfk hno
    have hs := hno s (List.mem_cons_self _ _)
    refine ih (run_step db s) (children_reference_events_run_step db s h (Or.inl hfk)) ?_
      (fun x hx => hno x (List.mem_cons_of_mem _ hx))
    rw [foreign_keys_run_step db s hs]
    exact hfk

theorem children_reference_events_of_int_ids (steps : List step) :
    ∀ db : Db, children_reference_events db →
      is_int (next_rowid ((run_steps db steps).events.map (fun e => e.event_id))) →
      children_reference_events (run_steps db steps) := by
  induction steps with
  | nil => intro db h _; exact h
  | cons s rest ih =>
    intro db h hint
    have hprev : is_int (next_rowid (db.events.map (fun e => e.event_id))) := by
      obtain ⟨es, hes⟩ := run_steps_events (s :: rest) db
      rw [hes, List.map_append] at hint
      exact is_int_next_rowid_of_append hint
    exact ih (run_step db s) (children_reference_events_run_step db s h (Or.inr hprev)) hint

/-- C22: the new database has no task row and no store row; from any database in which
every task row and every store row carries the id of an event row, every step leads to
such a database again, as long as foreign keys are enforced or the id generated for a
new event fits the `int` in which `add_event` holds it; so every database reached from
the new one has the property, on the connection that created the file whatever the
steps, and across restarts of the program as long as the event ids fit an `int`. -/
theorem children_reference_events_kept (db : Db) (st : step) (steps : List step) :
    children_reference_events Db.created ∧
    (children_reference_events db →
      (db.foreign_keys = true ∨
        is_int (next_rowid (db.events.map (fun e => e.event_id)))) →
      children_reference_events (run_step db st)) ∧
    ((∀ s ∈ steps, s.is_restart = false) →
      children_reference_events (run_steps Db.created steps)) ∧
    (is_int (next_rowid ((run_steps Db.created steps).events.map (fun e => e.event_id))) →
      children_reference_events (run_steps Db.created steps)) := by
  have h0 : children_reference_events Db.created :=
    ⟨fun t ht => (by cases ht), fun s hs => (by cases hs)⟩
  exact ⟨h0, children_reference_events_run_step db st,
    children_reference_events_on_one_connection steps Db.created h0 rfl,
    children_reference_events_of_int_ids steps Db.created h0⟩

/-- C22 for the run that adds the Sprint and Marathon events, completes a task, starts
the program again, adds the Ghost event and buys an item: every task and store row of
the database it reaches carries the id of an event row. -/
theorem children_reference_events_kept_witness :
    children_reference_events
      (run_steps Db.created
        [.add_event sprint_input true, .add_event marathon_input true,
         .mark_task_done 1 1 true true, .restart, .add_event ghost_input true,
         .buy_item 1 1 true true]) :=
  (children_reference_events_kept Db.created .restart
    [.add_event sprint_input true, .add_event marathon_input true,
     .mark_task_done 1 1 true true, .restart, .add_event ghost_input true,
     .buy_item 1 1 true true]).2.2.2 (by decide)

end RewardSystem
